import Mathlib

/-!
# identity-service: idempotency guard, token codec and session flows

A shallow embedding of `identity-service/services/idempotency.go` (the
`Handle` middleware), of the lock half of
`identity-service/storage/idempotency_storage.go` and of the in-memory
storage of `identity-service/internal/tests/idempotency_test.go`; of the two
token codecs `identity-service/jwt` and `identity-service/internal/jwt`; and
of the session flows: sign-in, refresh, sign-out, the send-code flow, the
trust escalation, their redis storages and two of their handlers.

Conventions of the embedding:

* Go `int` and `time.Duration` values are `Int`; a `time.Duration` product is
  wrapped to 64 bits.
* A Go `string` is a `String`; `len` of a Go string is its length in bytes,
  `String.utf8ByteSize`.
* `[]byte` is `List UInt8`.
* `http.Header` (`map[string][]string`) is an association list; header names
  stand for canonical MIME header names.
* Calls on interfaces (`IdempotencyStorage`, the rest of the gin handler
  chain, the redis client) are passed in as functions over an explicit state,
  and every call `Handle` makes is also recorded in a trace of events.
-/

/-! ## net/http: headers -/

/-- Bytes of a body: Go `[]byte`. -/
abbrev Bytes := List UInt8

/-- Go `http.Header`, a map from header name to the list of its values. -/
abbrev Header := List (String × List String)

namespace Header

/-- Map lookup `h[key]`: the values stored under `key`, empty when absent. -/
def values : Header → String → List String
  | [], _ => []
  | (k, vs) :: t, key => if k = key then vs else values t key

/-- Go `Header.Get`: the first value stored under `key`, `""` when there is none. -/
def get (h : Header) (key : String) : String :=
  (values h key).headD ""

/-- Go `Header.Add`: append `value` to the values of `key`. -/
def add : Header → String → String → Header
  | [], key, value => [(key, [value])]
  | (k, vs) :: t, key, value =>
    if k = key then (k, vs ++ [value]) :: t else (k, vs) :: add t key value

/-- Go `Header.Set`: the values of `key` become the single `value`. -/
def set : Header → String → String → Header
  | [], key, value => [(key, [value])]
  | (k, vs) :: t, key, value =>
    if k = key then (k, [value]) :: t else (k, vs) :: set t key value

/-- Go `Header.Del`: remove `key` from the map. -/
def del (h : Header) (key : String) : Header :=
  h.filter (fun e => decide (e.1 ≠ key))

/-- The names present in the map. -/
def keys (h : Header) : List String := h.map Prod.fst

end Header

/-! ## restapi: wire error types -/

namespace restapi

def ErrTypeInternal : String := "internal"
def ErrTypeInvalidJson : String := "invalid_json"
def ErrTypeValidationFailed : String := "validation_failed"
def ErrTypeUserNotFound : String := "user_not_found"
def ErrTypeNotFound : String := "not_found"
def ErrTypeIdempotencyKeyMissing : String := "idempotency_key_missing"

end restapi

/-! ## services: the idempotency middleware -/

namespace services

def HeaderIdempotencyKey : String := "Idempotency-Key"
def ErrIdempotencyKeyMissing : String := "idempotency key missing"
def ErrInvalidIdempotencyKey : String := "invalid idempotency key"
def ErrRequestInProgress : String := "request in progress"

def StatusOK : Int := 200
def StatusBadRequest : Int := 400
def StatusConflict : Int := 409
def StatusInternalServerError : Int := 500

/-- The struct `CapturedResponse`. -/
structure CapturedResponse where
  StatusCode : Int
  Headers : Header
  Body : Bytes
  deriving DecidableEq, Repr

/-- What `Get` hands back, `(*CapturedResponse, bool, error)`, read the way
`Handle` reads it: an error first, then the `ok` flag, then the response. -/
inductive GetResult where
  | hit (cached : CapturedResponse)
  | miss
  | failed (err : String)
  deriving DecidableEq, Repr

/-- The interface `IdempotencyStorage` over a storage state `σ`. An `error`
result is `none` for `nil`. `AcquireLock` returns `(token, err)`. -/
structure IdempotencyStorage (σ : Type) where
  Get : σ → String → GetResult × σ
  Store : σ → String → CapturedResponse → Option String × σ
  AcquireLock : σ → String → Int → (String × Option String) × σ
  ReleaseLock : σ → String → String → Option String × σ

/-- The struct `MiddlewareConfig`. -/
structure MiddlewareConfig (σ : Type) where
  Storage : IdempotencyStorage σ
  LockTTL : Int
  ResultTTL : Int
  RetryCount : Int
  RetryDelay : Int

/-- The response as it stands at `c.Writer`: the status, the header values
and the bytes of the body. When `Handle` is entered nothing of the response
is sent yet. -/
structure ResponseWriter where
  status : Int
  header : Header
  body : Bytes
  deriving DecidableEq, Repr

/-- The `responseWriter` of gin, the `gin.ResponseWriter` behind `c.Writer`:
the status, the header map, the bytes passed to `Write`, and the header
values that went out with the status at the first `Write`, `none` while
nothing is written. The model is of status codes that net/http accepts, 100
to 999; on any other code above 0 its `WriteHeader` panics. -/
structure responseWriter where
  status : Int
  header : Header
  body : Bytes
  sent : Option Header
  deriving DecidableEq, Repr

/-- The writer of a context at the entry of `Handle`: nothing is written. -/
def responseWriter.ofWriter (w : ResponseWriter) : responseWriter :=
  { status := w.status, header := w.header, body := w.body, sent := none }

/-- Method `responseWriter.Written` of gin. -/
def responseWriter.Written (w : responseWriter) : Bool :=
  w.sent.isSome

/-- Method `responseWriter.WriteHeader` of gin: a code above 0 that differs
from the status is taken while nothing is written; afterwards the status
that went out stays. -/
def responseWriter.WriteHeader (w : responseWriter) (code : Int) : responseWriter :=
  if code > 0 ∧ w.status ≠ code then
    if w.Written then w else { w with status := code }
  else w

/-- Method `responseWriter.WriteHeaderNow` of gin: the status and the header
map go out, once. -/
def responseWriter.WriteHeaderNow (w : responseWriter) : responseWriter :=
  if w.Written then w else { w with sent := some w.header }

/-- Method `responseWriter.Write` of gin: the status and the headers go out
first, then the bytes, unless the write fails. -/
def responseWriter.Write (w : responseWriter) (b : Bytes) (fails : Bool) : responseWriter :=
  let w := w.WriteHeaderNow
  if fails then w else { w with body := w.body ++ b }

/-- The response of a writer: its status, the header values that went out,
or the header map when nothing is written yet (gin sends it when the chain
is done), and the body. -/
def responseWriter.response (w : responseWriter) : ResponseWriter :=
  { status := w.status, header := w.sent.getD w.header, body := w.body }

/-- The part of `*gin.Context` that `Handle` reads and writes, as `Handle`
finds it, with nothing of the response sent yet, and as it leaves it. `json`
is the object handed to `AbortWithStatusJSON`, whose encoding follows
`Writer.body` in the response body when its write succeeds. -/
structure Context where
  Writer : ResponseWriter
  aborted : Bool
  json : Option (List (String × String))
  deriving DecidableEq, Repr

/-- A context as gin hands it to the first handler of a chain: status 200,
no header, nothing written. -/
def Context.fresh : Context :=
  { Writer := { status := StatusOK, header := [], body := [] }, aborted := false, json := none }

/-- What `Handle` reads from the request besides the context.
`ctxErr` is `c.Err() != nil` at the check before execution; `ctxDone i` says
that `ctx.Done()` is the case chosen by the `select` after the failed store
attempt number `i` (counted from 0); `writeFails` says that `c.Writer.Write`
returns an error in `writeCachedResponse`. -/
structure Request where
  Header : Header
  ctxErr : Bool
  ctxDone : Nat → Bool
  writeFails : Bool

/-- The call `c.GetHeader(key)`: the first value of the request header `key`,
`""` when the header is absent. -/
def Request.GetHeader (r : Request) (key : String) : String :=
  Header.get r.Header key

/-- One call the wrapped handler makes on `c.Writer`. -/
inductive WriterOp where
  | setHeader (key value : String)
  | addHeader (key value : String)
  | delHeader (key : String)
  | writeHeader (statusCode : Int)
  | write (b : Bytes)
  deriving DecidableEq, Repr

/-- The struct `responseCapturer`: the wrapped writer (the embedded
`gin.ResponseWriter`, here `writer`), the copy of the body and the recorded
status. -/
structure responseCapturer where
  writer : responseWriter
  body : Bytes
  status : Int
  deriving DecidableEq, Repr

/-- The response the wrapped writer holds. -/
def responseCapturer.ResponseWriter (r : responseCapturer) : ResponseWriter :=
  r.writer.response

/-- Method `responseCapturer.Write`: copy `b` to the buffer, then write it to
the wrapped writer. -/
def responseCapturer.Write (r : responseCapturer) (b : Bytes) : responseCapturer :=
  { r with body := r.body ++ b, writer := r.writer.Write b false }

/-- Method `responseCapturer.WriteHeader`: record the status, then pass it to
the wrapped writer. -/
def responseCapturer.WriteHeader (r : responseCapturer) (statusCode : Int) : responseCapturer :=
  { r with status := statusCode, writer := r.writer.WriteHeader statusCode }

/-- One call of the wrapped handler on the capturer installed as `c.Writer`;
`Header()` is the promoted method of the wrapped writer, its header map. -/
def responseCapturer.apply (r : responseCapturer) : WriterOp → responseCapturer
  | .setHeader k v => { r with writer := { r.writer with header := Header.set r.writer.header k v } }
  | .addHeader k v => { r with writer := { r.writer with header := Header.add r.writer.header k v } }
  | .delHeader k => { r with writer := { r.writer with header := Header.del r.writer.header k } }
  | .writeHeader code => r.WriteHeader code
  | .write b => r.Write b

/-- A storage call, a wait of the retry loop, or the run of the rest of the
handler chain, in the order `Handle` makes them. `wait d cancelled` is the
`select` on `ctx.Done()` and `time.After(d)`. -/
inductive Event where
  | acquireLock (key : String) (ttl : Int)
  | get (key : String)
  | next
  | store (key : String) (resp : CapturedResponse)
  | wait (d : Int) (cancelled : Bool)
  | releaseLock (key token : String)
  deriving DecidableEq, Repr

def Event.isAcquireLock : Event → Bool
  | .acquireLock _ _ => true
  | _ => false

def Event.isStore : Event → Bool
  | .store _ _ => true
  | _ => false

def Event.isReleaseLock : Event → Bool
  | .releaseLock _ _ => true
  | _ => false

def Event.isNext : Event → Bool
  | .next => true
  | _ => false

/-- Wrap an integer to the range of a Go `int64`. -/
def wrapInt64 (x : Int) : Int :=
  (x + 2 ^ 63) % 2 ^ 64 - 2 ^ 63

/-- The state after a run of `Handle`, or of a part of it: the storage, the
state of the wrapped handler, the context and the events so far. -/
structure Outcome (σ η : Type) where
  storage : σ
  handler : η
  ctx : Context
  trace : List Event

/-- What `c.AbortWithStatusJSON(status, obj)` does to the writer: the status
is set as `WriteHeader` sets it and the object is written, which sends the
status and the headers if they are not out yet. -/
def responseWriter.abortWithStatusJSON (w : responseWriter) (status : Int) : responseWriter :=
  (w.WriteHeader status).WriteHeaderNow

/-- Method `sendErrorResponse`, on a context of which nothing is written:
`c.AbortWithStatusJSON` with the status and the object of the two fields
`error_type` and `message`. -/
def sendErrorResponse (c : Context) (status : Int) (errorType errorMessage : String) : Context :=
  { c with aborted := true,
           Writer := ((responseWriter.ofWriter c.Writer).abortWithStatusJSON status).response,
           json := some [("error_type", errorType), ("message", errorMessage)] }

/-- Method `writeCachedResponse`: add every cached header value, set the
status and write the body, which sends the status and the headers, and
abort. When the write fails, the cached header names are deleted from the
header map again and the internal error is sent with `sendErrorResponse`:
the status and the headers are out by then, so that the status 500 is
ignored and the object of the error follows what was sent. -/
def writeCachedResponse (c : Context) (cached : CapturedResponse) (writeFails : Bool) : Context :=
  let w := responseWriter.ofWriter c.Writer
  let header := cached.Headers.foldl
    (fun hd kv => kv.2.foldl (fun hd value => Header.add hd kv.1 value) hd) w.header
  let w := { w with header := header }
  let w := w.WriteHeader cached.StatusCode
  let w := w.Write cached.Body writeFails
  if writeFails then
    let header2 := cached.Headers.foldl (fun hd kv => Header.del hd kv.1) w.header
    let w := { w with header := header2 }
    { c with aborted := true,
             Writer := (w.abortWithStatusJSON StatusInternalServerError).response,
             json := some [("error_type", restapi.ErrTypeInternal),
               ("message", "Failed to write cached response")] }
  else
    { c with Writer := w.response, aborted := true }

/-- The loop of `storeResponseWithRetry` from attempt `i` on, with `n`
iterations left. Returns the storage and the events. -/
def storeLoop {σ : Type} (m : MiddlewareConfig σ) (ctxDone : Nat → Bool) (key : String)
    (resp : CapturedResponse) : Nat → Nat → σ → σ × List Event
  | 0, _, s => (s, [])
  | n + 1, i, s =>
    match m.Storage.Store s key resp with
    | (none, s1) => (s1, [Event.store key resp])
    | (some _, s1) =>
      let d := wrapInt64 (m.RetryDelay * ((i : Int) + 1))
      if ctxDone i then
        (s1, [Event.store key resp, Event.wait d true])
      else
        let r := storeLoop m ctxDone key resp n (i + 1) s1
        (r.1, Event.store key resp :: Event.wait d false :: r.2)

/-- Method `storeResponseWithRetry`: `for i := 0; i < m.config.RetryCount; i++`. -/
def storeResponseWithRetry {σ : Type} (m : MiddlewareConfig σ) (ctxDone : Nat → Bool)
    (key : String) (resp : CapturedResponse) (s : σ) : σ × List Event :=
  storeLoop m ctxDone key resp m.RetryCount.toNat 0 s

/-- The call `c.Next()` with the capturer installed: the rest of the chain makes its
calls on the capturer. -/
def runNext {η : Type} (next : η → List WriterOp × η) (c : Context) (h : η) :
    responseCapturer × η :=
  let capturer : responseCapturer :=
    { writer := responseWriter.ofWriter c.Writer, body := [], status := StatusOK }
  let r := next h
  (r.1.foldl responseCapturer.apply capturer, r.2)

/-- The response `Handle` builds from the capturer after `c.Next()`. -/
def captured (capturer : responseCapturer) : CapturedResponse :=
  { StatusCode := capturer.status,
    Headers := capturer.writer.header,
    Body := capturer.body }

/-- The body of `Handle` after the `defer`: cache lookup, replay or
execution, and the store. The deferred release runs when this returns. -/
def handleLocked {σ η : Type} (m : MiddlewareConfig σ) (next : η → List WriterOp × η)
    (req : Request) (key : String) (c : Context) (s : σ) (h : η) : Outcome σ η :=
  match m.Storage.Get s key with
  | (.failed _, s1) =>
    ⟨s1, h, sendErrorResponse c StatusInternalServerError restapi.ErrTypeInternal
      "Failed to check cached response", [Event.get key]⟩
  | (.hit cached, s1) =>
    ⟨s1, h, writeCachedResponse c cached req.writeFails, [Event.get key]⟩
  | (.miss, s1) =>
    if req.ctxErr then
      ⟨s1, h, c, [Event.get key]⟩
    else
      let run := runNext next c h
      let resp := captured run.1
      let c1 : Context := { c with Writer := run.1.ResponseWriter }
      if resp.StatusCode < 500 ∧ resp.StatusCode ≠ 429 then
        let st := storeResponseWithRetry m req.ctxDone key resp s1
        ⟨st.1, run.2, c1, Event.get key :: Event.next :: st.2⟩
      else
        ⟨s1, run.2, c1, [Event.get key, Event.next]⟩

/-- The double quote character, as a string. -/
def quote : String := String.singleton (Char.ofNat 34)

/-- Method `idempotencyMiddleware.Handle`. -/
def Handle {σ η : Type} (m : MiddlewareConfig σ) (next : η → List WriterOp × η)
    (req : Request) (c : Context) (s : σ) (h : η) : Outcome σ η :=
  let key := req.GetHeader HeaderIdempotencyKey
  if key = "" then
    ⟨s, h, sendErrorResponse c StatusBadRequest ErrIdempotencyKeyMissing
      ("No " ++ quote ++ HeaderIdempotencyKey ++ quote ++ "header provided"), []⟩
  else if key.utf8ByteSize > 255 then
    ⟨s, h, sendErrorResponse c StatusBadRequest ErrInvalidIdempotencyKey
      "idempotency key is too long", []⟩
  else
    match m.Storage.AcquireLock s key m.LockTTL with
    | ((_, some _), s1) =>
      ⟨s1, h, sendErrorResponse c StatusConflict ErrRequestInProgress
        "Another request with same idempotency key is being processed",
        [Event.acquireLock key m.LockTTL]⟩
    | ((lockToken, none), s1) =>
      let r := handleLocked m next req key c s1 h
      let rel := m.Storage.ReleaseLock r.storage key lockToken
      ⟨rel.2, r.handler, r.ctx,
        Event.acquireLock key m.LockTTL :: (r.trace ++ [Event.releaseLock key lockToken])⟩

end services

/-! ## tests: the in-memory storage of the idempotency tests -/

namespace tests

open services

/-- The struct `mockIdempotencyStorage`: the two maps, and `now`, the
formatted current time that `generateLockToken` reads. -/
structure mockIdempotencyStorage where
  data : String → Option CapturedResponse
  locks : String → Option String
  now : String

/-- Function `generateLockToken`. -/
def generateLockToken (key now : String) : String :=
  "lock-token-" ++ key ++ "-" ++ now

/-- Method `mockLockError.Error`. -/
def mockLockError (key token : String) (released : Bool) : String :=
  if released then "lock not found or token mismatch for key: " ++ key
  else "lock already acquired for key: " ++ key ++ " with token: " ++ token

/-- Method `mockIdempotencyStorage.AcquireLock`. -/
def mockIdempotencyStorage.AcquireLock (m : mockIdempotencyStorage) (key : String) (_ttl : Int) :
    (String × Option String) × mockIdempotencyStorage :=
  match m.locks key with
  | some token => (("", some (mockLockError key token false)), m)
  | none =>
    let token := generateLockToken key m.now
    ((token, none), { m with locks := Function.update m.locks key (some token) })

/-- Method `mockIdempotencyStorage.ReleaseLock`. -/
def mockIdempotencyStorage.ReleaseLock (m : mockIdempotencyStorage) (key token : String) :
    Option String × mockIdempotencyStorage :=
  match m.locks key with
  | some existingToken =>
    if existingToken = token then
      (none, { m with locks := Function.update m.locks key none })
    else (some (mockLockError key token true), m)
  | none => (some (mockLockError key token true), m)

/-- Method `mockIdempotencyStorage.Get`. -/
def mockIdempotencyStorage.Get (m : mockIdempotencyStorage) (key : String) :
    GetResult × mockIdempotencyStorage :=
  match m.data key with
  | some resp => (.hit resp, m)
  | none => (.miss, m)

/-- Method `mockIdempotencyStorage.Store`. -/
def mockIdempotencyStorage.Store (m : mockIdempotencyStorage) (key : String)
    (resp : CapturedResponse) : Option String × mockIdempotencyStorage :=
  (none, { m with data := Function.update m.data key (some resp) })

/-- Function `newMockIdempotencyStorage`: both maps empty. -/
def newMockIdempotencyStorage (now : String) : mockIdempotencyStorage :=
  { data := fun _ => none, locks := fun _ => none, now := now }

/-- The mock as an `IdempotencyStorage`. -/
def mockStorage : IdempotencyStorage mockIdempotencyStorage where
  Get := mockIdempotencyStorage.Get
  Store := mockIdempotencyStorage.Store
  AcquireLock := mockIdempotencyStorage.AcquireLock
  ReleaseLock := mockIdempotencyStorage.ReleaseLock

end tests

/-! ## storage: the lock of the redis storage -/

namespace storage

def prefixLock : String := "idempotency:lock:"
def prefixMeta : String := "idempotency:meta"
def prefixData : String := "idempotency:data"

/-- A key of the store: its value and the expiration it was set with. -/
structure RedisEntry where
  value : String
  ttl : Int
  deriving DecidableEq, Repr

/-- The key-value model of the store. -/
abbrev RedisDB := String → Option RedisEntry

/-- A server-side script: from the store, `KEYS` and `ARGV` to the integer
reply and the store. -/
abbrev Script := RedisDB → List String → List String → Int × RedisDB

/-- The commands of `*redis.Client` that the lock uses, over a client state
`ρ`. A reply is `Except.error` when the command reports an error. -/
structure RedisClient (ρ : Type) where
  SetNX : ρ → String → String → Int → Except String Bool × ρ
  RunScript : ρ → Script → List String → List String → Except String Int × ρ

/-- The command `GET` inside a script: the value, or nothing. -/
def redisGET (db : RedisDB) (key : String) : Option String :=
  (db key).map RedisEntry.value

/-- The command `DEL` inside a script: the number of keys removed. -/
def redisDEL (db : RedisDB) (key : String) : Int × RedisDB :=
  match db key with
  | some _ => (1, Function.update db key none)
  | none => (0, db)

/-- The client of the key-value model: every command is executed. -/
def kvClient : RedisClient RedisDB where
  SetNX db key value ttl :=
    match db key with
    | some _ => (.ok false, db)
    | none => (.ok true, Function.update db key (some ⟨value, ttl⟩))
  RunScript db script keys args :=
    let r := script db keys args
    (.ok r.1, r.2)

/-- A hexadecimal digit of `hex.EncodeToString`. -/
def hexDigit (n : Nat) : Char :=
  "0123456789abcdef".toList.getD n '0'

/-- Go `hex.EncodeToString`. -/
def hexEncode (bytes : Bytes) : String :=
  String.mk (bytes.flatMap (fun b => [hexDigit (b.toNat / 16), hexDigit (b.toNat % 16)]))

/-- Go `make([]byte, n)` followed by `rand.Read`: the first `n` bytes of the
random source, zero where the source gave none. -/
def randRead (n : Nat) (rnd : Bytes) : Bytes :=
  (rnd ++ List.replicate n 0).take n

/-- The token of `AcquireLock`: `hex.EncodeToString(bytes)[:lockTokenLength]`. -/
def lockToken (rnd : Bytes) : String :=
  let lockTokenLength := 32
  let bytes := randRead (lockTokenLength / 2 + 1) rnd
  String.mk ((hexEncode bytes).toList.take lockTokenLength)

/-- Method `RedisIdempotencyStorage.AcquireLock`; `rnd` is what `rand.Read` yields. -/
def AcquireLock {ρ : Type} (client : RedisClient ρ) (s : ρ) (rnd : Bytes) (key : String)
    (ttl : Int) : (String × Option String) × ρ :=
  let lockKey := prefixLock ++ key
  let token := lockToken rnd
  match client.SetNX s lockKey token ttl with
  | (.error err, s1) => (("", some ("failed to acquire lock: " ++ err)), s1)
  | (.ok false, s1) => (("", some "lock already acquired"), s1)
  | (.ok true, s1) => ((token, none), s1)

/-- The script of `ReleaseLock`:
`local current = redis.call("GET", KEYS[1])`,
`if current == ARGV[1] then return redis.call("DEL", KEYS[1]) end`,
`return 0`. -/
def releaseLockScript : Script := fun db KEYS ARGV =>
  let current := redisGET db (KEYS.getD 0 "")
  if current = some (ARGV.getD 0 "") then redisDEL db (KEYS.getD 0 "")
  else (0, db)

/-- Method `RedisIdempotencyStorage.ReleaseLock`. -/
def ReleaseLock {ρ : Type} (client : RedisClient ρ) (s : ρ) (key token : String) :
    Option String × ρ :=
  let lockKey := prefixLock ++ key
  match client.RunScript s releaseLockScript [lockKey] [token] with
  | (.error err, s1) => (some ("failed to release lock: " ++ err), s1)
  | (.ok _, s1) => (none, s1)

end storage

/-! ## Definitions used by the statements -/

namespace Header

/-- The values of every entry named `key`, in order. For a map, whose names
are distinct, these are `values`. -/
def allValues : Header → String → List String
  | [], _ => []
  | (k, vs) :: t, key => if k = key then vs ++ allValues t key else allValues t key

end Header

namespace services

/-- What the capturer keeps in step with the writer it wraps, under a
handler that sets the status and the headers before it writes: the recorded
status, which is above 0, the copied body, distinct header names, and the
header values that went out, which are those of the header map. -/
def responseCapturer.inStep (r : responseCapturer) : Prop :=
  r.status = r.writer.status ∧ 0 < r.status ∧ r.body = r.writer.body ∧
    (Header.keys r.writer.header).Nodup ∧
    (r.writer.sent = none ∨ r.writer.sent = some r.writer.header)

/-- A run of a handler that sets the status, with codes that net/http
accepts, and the headers only before it starts the body; `written` says
whether the body is started. -/
def staged : Bool → List WriterOp → Bool
  | _, [] => true
  | _, .write _ :: t => staged true t
  | written, .writeHeader code :: t =>
    !written && decide (100 ≤ code ∧ code ≤ 999) && staged written t
  | written, _ :: t => !written && staged written t

/-- A storage whose `Get` returns what the last successful `Store` for the
key put: `view s key` is the response the storage holds for `key` in state
`s`. `Get` reports it and changes nothing of it, a successful `Store` sets
it, a failed `Store` and the lock calls leave it. -/
structure CacheLaws {σ : Type} (S : IdempotencyStorage σ)
    (view : σ → String → Option CapturedResponse) : Prop where
  get_result : ∀ s key, (S.Get s key).1 =
    match view s key with
    | some r => GetResult.hit r
    | none => GetResult.miss
  get_view : ∀ s key, view (S.Get s key).2 key = view s key
  store_ok : ∀ s key r, (S.Store s key r).1 = none → view (S.Store s key r).2 key = some r
  store_failed : ∀ s key r, (S.Store s key r).1 ≠ none →
    view (S.Store s key r).2 key = view s key
  acquire_view : ∀ s key ttl, view (S.AcquireLock s key ttl).2 key = view s key
  release_view : ∀ s key token, view (S.ReleaseLock s key token).2 key = view s key

/-- Two runs of `Handle` in sequence, each on a fresh context: the second
starts from the storage and the handler state the first left. -/
def handleTwice {σ η : Type} (m : MiddlewareConfig σ) (next : η → List WriterOp × η)
    (req1 req2 : Request) (s : σ) (h : η) : Outcome σ η × Outcome σ η :=
  let o1 := Handle m next req1 Context.fresh s h
  (o1, Handle m next req2 Context.fresh o1.storage o1.handler)

/-- A configuration over the in-memory storage. -/
def mockConfig (lockTTL resultTTL retryCount retryDelay : Int) :
    MiddlewareConfig tests.mockIdempotencyStorage :=
  { Storage := tests.mockStorage, LockTTL := lockTTL, ResultTTL := resultTTL,
    RetryCount := retryCount, RetryDelay := retryDelay }

/-- The configuration of the test suite over the in-memory storage, with the
given retry count. -/
def testConfig (retryCount : Int) : MiddlewareConfig tests.mockIdempotencyStorage :=
  mockConfig 30000000000 86400000000000 retryCount 10000000

/-- A wrapped handler for the concrete runs: it answers 200 with a JSON
content type and a one-byte body that counts its calls. -/
def countingHandler : Nat → List WriterOp × Nat := fun n =>
  ([WriterOp.writeHeader 200, WriterOp.setHeader "Content-Type" "application/json",
    WriterOp.write [UInt8.ofNat (n + 1)]], n + 1)

/-- A request carrying the given idempotency key, its context live, writes
succeeding. -/
def requestWithKey (key : String) : Request :=
  { Header := [(HeaderIdempotencyKey, [key])], ctxErr := false, ctxDone := fun _ => false,
    writeFails := false }

/-- A request without the idempotency header. -/
def requestWithoutKey : Request :=
  { Header := [], ctxErr := false, ctxDone := fun _ => false, writeFails := false }

/-- A request with the key "k" for which the write of the body fails. -/
def requestWriteFails : Request :=
  { requestWithKey "k" with writeFails := true }

/-- A key of 128 characters of two bytes each, U+00E9. -/
def twoByteKey : String := String.mk (List.replicate 128 (Char.ofNat 233))

/-- The stored response of the replay test: 200, two headers, one byte. -/
def storedResponse : CapturedResponse :=
  { StatusCode := 200,
    Headers := [("Custom-Header", ["idk"]), ("Content-Type", ["application/octet-stream"])],
    Body := [69] }

/-- The in-memory storage holding `storedResponse` under the key "k". -/
def storageWithStored : tests.mockIdempotencyStorage :=
  (tests.mockIdempotencyStorage.Store (tests.newMockIdempotencyStorage "t") "k" storedResponse).2

/-- A stored response with the status 0, which `WriteHeader` of gin does not
take. -/
def zeroStatusResponse : CapturedResponse :=
  { StatusCode := 0, Headers := [], Body := [69] }

/-- The in-memory storage holding `zeroStatusResponse` under the key "k". -/
def storageWithZeroStatus : tests.mockIdempotencyStorage :=
  (tests.mockIdempotencyStorage.Store (tests.newMockIdempotencyStorage "t") "k"
    zeroStatusResponse).2

/-- A wrapped handler that answers 400 with a body and then, not having
returned, sets the status 200 and writes again. -/
def statusAfterBodyHandler : Nat → List WriterOp × Nat := fun n =>
  ([WriterOp.writeHeader 400, WriterOp.write [1], WriterOp.writeHeader 200,
    WriterOp.write [2]], n + 1)

/-- A wrapped handler that sets a header after the body is started. -/
def headerAfterBodyHandler : Nat → List WriterOp × Nat := fun n =>
  ([WriterOp.writeHeader 200, WriterOp.write [1], WriterOp.setHeader "X-Late" "v"], n + 1)

/-- A wrapped handler that sets the status 404 and then the status 0. -/
def zeroStatusHandler : Nat → List WriterOp × Nat := fun n =>
  ([WriterOp.writeHeader 404, WriterOp.writeHeader 0, WriterOp.write [1]], n + 1)

end services

/-! ## Definitions used by the statements on the retry loop -/

namespace services

/-- The outcomes of `k` successive calls of `Store` for the key and response,
from the state `s` on: `none` for a call that returned no error. -/
def storeOutcomes {σ : Type} (S : IdempotencyStorage σ) (key : String) (resp : CapturedResponse) :
    Nat → σ → List (Option String)
  | 0, _ => []
  | k + 1, s => (S.Store s key resp).1 :: storeOutcomes S key resp k (S.Store s key resp).2

/-- The events of `a` failed rounds of the retry loop, the first of them being
attempt number `i` (counted from 0): a `Store`, then a full wait of the 64-bit
product `RetryDelay * (attempt + 1)`. -/
def failedRounds (delay : Int) (key : String) (resp : CapturedResponse) : Nat → Nat → List Event
  | _, 0 => []
  | i, a + 1 =>
    Event.store key resp :: Event.wait (wrapInt64 (delay * ((i : Int) + 1))) false ::
      failedRounds delay key resp (i + 1) a

/-- A storage whose `Store` fails as long as its counter is positive. -/
def failingStore : IdempotencyStorage Nat where
  Get := fun s _ => (GetResult.miss, s)
  Store := fun s _ _ => if s = 0 then (none, s) else (some "unavailable", s - 1)
  AcquireLock := fun s _ _ => (("token", none), s)
  ReleaseLock := fun s _ _ => (none, s)

/-- A configuration over `failingStore` with three attempts and a delay of
10 ms. -/
def failingConfig : MiddlewareConfig Nat :=
  { Storage := failingStore, LockTTL := 30000000000, ResultTTL := 86400000000000,
    RetryCount := 3, RetryDelay := 10000000 }

end services

/-! ## github.com/golang-jwt/jwt: the library as the two jwt packages use it

The library is not part of the repository. Its signing, parsing and claim
validation are modelled here from its versions 3.2 and 4, with the
cryptography symbolic: a signature verifies exactly when it was made by the
same method with the matching key over the same header and claims.
Times are nanoseconds since the Unix epoch.
-/

namespace golangjwt

/-- Nanoseconds in a second. -/
def second : Int := 1000000000

/-- Go `Time.Unix`: the whole seconds since the epoch, rounded down. -/
def Unix (t : Int) : Int := t / second

/-- A value of a claim, a Go `any`: `nil`, a `bool`, a `string`, an integer,
a `float64` (the number it holds), a `[]string`, or the `[]interface{}` of
strings that JSON decoding yields for an array of strings. -/
inductive Value where
  | null
  | bool (b : Bool)
  | str (s : String)
  | int (n : Int)
  | float (x : Rat)
  | strs (l : List String)
  | list (l : List String)
  deriving DecidableEq, Repr

/-- The number of low bits a natural number loses when it is cut to the 53
bits of a `float64` significand; `fuel` bounds the search. -/
def droppedBits : Nat → Nat → Nat
  | 0, _ => 0
  | fuel + 1, a => if a < 2 ^ 53 then 0 else droppedBits fuel (a / 2) + 1

/-- The `float64` nearest to an integer, ties going to the even significand,
as `strconv.ParseFloat` yields it for the digits of the integer: the
integer itself up to 2^53 in magnitude, beyond that a multiple of a power of
two with a quotient of 53 bits. An integer of Go has at most 64 bits, far
from the exponent range of a `float64`. -/
def float64 (n : Int) : Int :=
  let a := n.natAbs
  if a ≤ 2 ^ 53 then n
  else
    let e := droppedBits a a
    let q := a / 2 ^ e
    let r := a % 2 ^ e
    let half := 2 ^ (e - 1)
    let q := if half < r ∨ (r = half ∧ q % 2 = 1) then q + 1 else q
    Int.sign n * ((q * 2 ^ e : Nat) : Int)

/-- What a value is after `json.Marshal` and `json.Unmarshal` into an
`interface{}`: an integer comes back as the `float64` nearest to it, which
is the integer itself up to 2^53 in magnitude, a `[]string` as a
`[]interface{}`. -/
def Value.json : Value → Value
  | .int n => .float (float64 n)
  | .strs l => .list l
  | v => v

/-- A claim set, Go `map[string]any` or `jwt.MapClaims`. -/
abbrev Claims := List (String × Value)

/-- Map lookup `claims[key]` with its `ok` flag. -/
def Claims.get : Claims → String → Option Value
  | [], _ => none
  | (k, v) :: t, key => if k = key then some v else Claims.get t key

/-- Map assignment `claims[key] = value`. -/
def Claims.set : Claims → String → Value → Claims
  | [], key, value => [(key, value)]
  | (k, v) :: t, key, value =>
    if k = key then (k, value) :: t else (k, v) :: Claims.set t key value

/-- The claim set a JSON encoding and decoding yields. -/
def Claims.json (c : Claims) : Claims :=
  c.map (fun kv => (kv.1, kv.2.json))

/-- The families of signing methods of the library. -/
inductive Family where
  | hmac
  | rsa
  | rsapss
  | ecdsa
  | eddsa
  | none
  deriving DecidableEq, Repr

/-- A `jwt.SigningMethod`: its name, `Alg()`, and its family. -/
structure SigningMethod where
  alg : String
  family : Family
  deriving DecidableEq, Repr

/-- Library `jwt.GetSigningMethod`: the registered method of that name. -/
def GetSigningMethod (alg : String) : Option SigningMethod :=
  if alg = "HS256" ∨ alg = "HS384" ∨ alg = "HS512" then some ⟨alg, .hmac⟩
  else if alg = "RS256" ∨ alg = "RS384" ∨ alg = "RS512" then some ⟨alg, .rsa⟩
  else if alg = "PS256" ∨ alg = "PS384" ∨ alg = "PS512" then some ⟨alg, .rsapss⟩
  else if alg = "ES256" ∨ alg = "ES384" ∨ alg = "ES512" then some ⟨alg, .ecdsa⟩
  else if alg = "EdDSA" then some ⟨alg, .eddsa⟩
  else if alg = "none" then some ⟨alg, .none⟩
  else none

/-- A key handed to `Sign` or `Verify`, a Go `interface{}`: `nil`, a
`[]byte`, or one half of the RSA key pair number `id`. -/
inductive Key where
  | null
  | bytes (k : Bytes)
  | rsaPrivate (id : Nat)
  | rsaPublic (id : Nat)
  deriving DecidableEq, Repr

/-- The signature segment of a token, read against its first two segments:
the signature the method named `alg` makes of them with the key `key`, or
anything else. -/
inductive Signature where
  | signed (alg : String) (key : Key)
  | other
  deriving DecidableEq, Repr

/-- Method `SigningMethod.Sign`: HMAC methods take a `[]byte`, the RSA
methods a private RSA key; with any other key, and for the other families,
which the configurations cannot hold a key for, signing fails. -/
def Sign (m : SigningMethod) (key : Key) : Option Signature :=
  match m.family, key with
  | .hmac, .bytes k => some (.signed m.alg (.bytes k))
  | .rsa, .rsaPrivate id => some (.signed m.alg (.rsaPrivate id))
  | .rsapss, .rsaPrivate id => some (.signed m.alg (.rsaPrivate id))
  | _, _ => none

/-- Method `SigningMethod.Verify`: whether the signature is the one this
method makes with the key matching `key`. -/
def Verify (m : SigningMethod) (key : Key) (sig : Signature) : Bool :=
  match m.family, key, sig with
  | .hmac, .bytes k, .signed alg (.bytes k') => alg = m.alg && k = k'
  | .rsa, .rsaPublic id, .signed alg (.rsaPrivate id') => alg = m.alg && id = id'
  | .rsapss, .rsaPublic id, .signed alg (.rsaPrivate id') => alg = m.alg && id = id'
  | _, _, _ => false

/-- A token string. `jws alg claims sig` is the compact serialization of a
header naming the algorithm `alg`, of the claim set `claims` as JSON decodes
it, and of a signature. `raw s` is the string `s`, which is not such a
serialization: it has not three segments, or its segments do not decode. -/
inductive Token where
  | raw (s : String)
  | jws (alg : String) (claims : Claims) (sig : Signature)
  deriving DecidableEq, Repr

/-- The number of segments `strings.Split(s, ".")` yields. -/
def segments (s : String) : Nat :=
  s.toList.count (Char.ofNat 46) + 1

/-- The flags of a `*jwt.ValidationError` that the parser sets. -/
structure ValidationError where
  malformed : Bool := false
  unverifiable : Bool := false
  signatureInvalid : Bool := false
  expired : Bool := false
  issuedAt : Bool := false
  notValidYet : Bool := false
  deriving DecidableEq, Repr

/-- Method `ValidationError.valid`: no flag is set. -/
def ValidationError.valid (e : ValidationError) : Bool :=
  !(e.malformed || e.unverifiable || e.signatureInvalid || e.expired || e.issuedAt ||
    e.notValidYet)

/-- The `*jwt.Token` that parsing returns: its method, when the header named
a registered one, and its `Valid` flag. -/
structure ParsedToken where
  Method : Option SigningMethod
  Valid : Bool
  deriving DecidableEq, Repr

/-- What `ParseWithClaims` returns: the token, `none` for a `nil` pointer,
the claim map it filled, and the error, `none` for `nil`. -/
structure Parsed where
  token : Option ParsedToken
  claims : Claims
  err : Option ValidationError
  deriving DecidableEq, Repr

/-- The result of a key function: a key, an error, or a panic. -/
inductive KeyResult where
  | key (k : Key)
  | error
  | panic
  deriving DecidableEq, Repr

/-- The run of a function that may panic. -/
inductive Run (α : Type) where
  | ret (a : α)
  | panic
  deriving DecidableEq, Repr

/-- Whole part of a `float64` as `int64(x)` takes it: rounded toward zero. -/
def truncate (x : Rat) : Int :=
  if 0 ≤ x then x.floor else x.ceil

/-- Version 4, `MapClaims.VerifyExpiresAt(now, false)`: an absent `exp` and
an `exp` of 0 pass, a number passes when the second `now` is before its
whole second, anything else fails. -/
def verifyExpV4 (now : Int) (claims : Claims) : Bool :=
  match claims.get "exp" with
  | none => true
  | some (.float x) => if x = 0 then true else decide (now < x.floor)
  | some _ => false

/-- Version 4, `MapClaims.VerifyIssuedAt(now, false)`. -/
def verifyIatV4 (now : Int) (claims : Claims) : Bool :=
  match claims.get "iat" with
  | none => true
  | some (.float x) => if x = 0 then true else decide (x.floor ≤ now)
  | some _ => false

/-- Version 4, `MapClaims.VerifyNotBefore(now, false)`. -/
def verifyNbfV4 (now : Int) (claims : Claims) : Bool :=
  match claims.get "nbf" with
  | none => true
  | some (.float x) => if x = 0 then true else decide (x.floor ≤ now)
  | some _ => false

/-- Version 4, `MapClaims.Valid` at the time `now`. -/
def validV4 (now : Int) (claims : Claims) : ValidationError :=
  { expired := !verifyExpV4 (Unix now) claims,
    issuedAt := !verifyIatV4 (Unix now) claims,
    notValidYet := !verifyNbfV4 (Unix now) claims }

/-- Version 3, `MapClaims.VerifyExpiresAt(now, false)`: `int64(exp)` of 0
passes, otherwise `now <= exp`. -/
def verifyExpV3 (now : Int) (claims : Claims) : Bool :=
  match claims.get "exp" with
  | none => true
  | some (.float x) => if truncate x = 0 then true else decide (now ≤ truncate x)
  | some _ => false

/-- Version 3, `MapClaims.VerifyIssuedAt(now, false)`. -/
def verifyIatV3 (now : Int) (claims : Claims) : Bool :=
  match claims.get "iat" with
  | none => true
  | some (.float x) => if truncate x = 0 then true else decide (truncate x ≤ now)
  | some _ => false

/-- Version 3, `MapClaims.VerifyNotBefore(now, false)`. -/
def verifyNbfV3 (now : Int) (claims : Claims) : Bool :=
  match claims.get "nbf" with
  | none => true
  | some (.float x) => if truncate x = 0 then true else decide (truncate x ≤ now)
  | some _ => false

/-- Version 3, `MapClaims.Valid` at the time `now`. -/
def validV3 (now : Int) (claims : Claims) : ValidationError :=
  { expired := !verifyExpV3 (Unix now) claims,
    issuedAt := !verifyIatV3 (Unix now) claims,
    notValidYet := !verifyNbfV3 (Unix now) claims }

/-- Library `jwt.ParseWithClaims`, for the claim validation `valid` of the
version: split into segments (a `nil` token when they are not three), decode
header and claims, look the method of the header up, call the key function,
validate the claims, verify the signature with the method of the header. -/
def ParseWithClaims (valid : Claims → ValidationError) (token : Token)
    (keyFunc : SigningMethod → KeyResult) : Run Parsed :=
  match token with
  | .raw s =>
    if segments s ≠ 3 then .ret ⟨none, [], some { malformed := true }⟩
    else .ret ⟨some ⟨none, false⟩, [], some { malformed := true }⟩
  | .jws alg claims sig =>
    match GetSigningMethod alg with
    | none => .ret ⟨some ⟨none, false⟩, claims, some { unverifiable := true }⟩
    | some method =>
      match keyFunc method with
      | .panic => .panic
      | .error => .ret ⟨some ⟨some method, false⟩, claims, some { unverifiable := true }⟩
      | .key key =>
        let vErr := valid claims
        let vErr := if Verify method key sig then vErr else { vErr with signatureInvalid := true }
        if vErr.valid then .ret ⟨some ⟨some method, true⟩, claims, none⟩
        else .ret ⟨some ⟨some method, false⟩, claims, some vErr⟩

/-- Go `strings.HasPrefix(alg, "HS")`, the test of `isSymmetricMethod`. -/
def hasPrefixHS (alg : String) : Bool :=
  "HS".toList.isPrefixOf alg.toList

end golangjwt

/-- The result of a Go function returning a value and an `error`, or
panicking. -/
inductive GoResult (ε α : Type) where
  | ok (a : α)
  | error (e : ε)
  | panic
  deriving DecidableEq, Repr

/-! ## jwt: the package identity-service/jwt -/

namespace jwt

open golangjwt

/-- The errors `Generate` and `Parse` return: the five error variables of the
package, the two errors `Generate` makes for a missing key, and the error of
the library's `SignedString`. -/
inductive Error where
  | ErrInvalidSignInMethod
  | ErrTokenExpired
  | ErrInvalidToken
  | ErrInvalidTokenType
  | ErrInvalidAudience
  | symmetricKeyRequired
  | privateKeyRequired
  | signing
  deriving DecidableEq, Repr

/-- The struct `Config`. Its field `Type` is `Typ` here. The RSA keys are the
halves of the key pair of that number, `none` for a `nil` pointer. -/
structure Config where
  SigningMethod : String
  Lifetime : Int
  Issuer : String
  Audience : List String
  Typ : String
  publicKey : Option Nat
  privateKey : Option Nat
  SymmetricKey : Bytes
  deriving DecidableEq, Repr

/-- The struct `Pair`. -/
structure Pair where
  Access : Token
  Refresh : Token
  deriving DecidableEq, Repr

/-- Function `isSymmetricMethod`. -/
def isSymmetricMethod (method : SigningMethod) : Bool :=
  hasPrefixHS method.alg

/-- What a call of `Generate` leaves: the token and error it returns, and the
claim map of the caller, which it writes to. -/
structure Generated where
  token : Token
  err : Option Error
  claims : Claims
  deriving DecidableEq, Repr

/-- The claims `Generate` injects into the map of the caller at the time
`now`: `iss`, `aud` and `typ` when configured, then `iat` and `exp`. -/
def inject (conf : Config) (now : Int) (claims : Claims) : Claims :=
  let claims := if conf.Issuer ≠ "" then claims.set "iss" (.str conf.Issuer) else claims
  let claims := if conf.Audience.length ≠ 0 then claims.set "aud" (.strs conf.Audience) else claims
  let claims := if conf.Typ ≠ "" then claims.set "typ" (.str conf.Typ) else claims
  let claims := claims.set "iat" (.int (Unix now))
  claims.set "exp" (.int (Unix (now + conf.Lifetime)))

/-- Function `Generate`, called at the time `now`. -/
def Generate (conf : Config) (now : Int) (claims : Claims) : Generated :=
  match GetSigningMethod conf.SigningMethod with
  | none => ⟨.raw "", some .ErrInvalidSignInMethod, claims⟩
  | some meth =>
    let claims := inject conf now claims
    if isSymmetricMethod meth then
      if conf.SymmetricKey.length = 0 then ⟨.raw "", some .symmetricKeyRequired, claims⟩
      else
        match Sign meth (.bytes conf.SymmetricKey) with
        | some sig => ⟨.jws meth.alg claims.json sig, none, claims⟩
        | none => ⟨.raw "", some .signing, claims⟩
    else
      match conf.privateKey with
      | none => ⟨.raw "", some .privateKeyRequired, claims⟩
      | some id =>
        match Sign meth (.rsaPrivate id) with
        | some sig => ⟨.jws meth.alg claims.json sig, none, claims⟩
        | none => ⟨.raw "", some .signing, claims⟩

/-- The key function `Parse` hands to the library. -/
def keyFunc (conf : Config) (tokenMethod : SigningMethod) : KeyResult :=
  match GetSigningMethod conf.SigningMethod with
  | none => .error
  | some method =>
    if tokenMethod.alg ≠ method.alg then .error
    else if tokenMethod.family = .hmac then .key (.bytes conf.SymmetricKey)
    else
      match conf.publicKey with
      | some id => .key (.rsaPublic id)
      | none => .key .null

/-- The conversion `Parse` makes of a `float64` claim to `int64`. -/
def toInt64 (claims : Claims) (key : String) : Claims :=
  match claims.get key with
  | some (.float x) => claims.set key (.int (truncate x))
  | _ => claims

/-- Whether `claims["typ"]` is a string equal to `typ`. -/
def typIs (claims : Claims) (typ : String) : Bool :=
  match claims.get "typ" with
  | some (.str s) => s = typ
  | _ => false

/-- Function `Parse`, called at the time `now`; `uuid` is what
`uuid.NewString()` yields. -/
def Parse (conf : Config) (now : Int) (uuid : String) (token : Token) : GoResult Error Claims :=
  match ParseWithClaims (validV4 now) token (keyFunc conf) with
  | .panic => .panic
  | .ret parsed =>
    match parsed.err with
    | some err =>
      if err.expired then .error .ErrTokenExpired
      else
        match parsed.token with
        | none => .panic
        | some tok =>
          if !tok.Valid then .error .ErrInvalidToken
          else if conf.Typ ≠ "" ∧ typIs parsed.claims conf.Typ = false then
            .error .ErrInvalidTokenType
          else .error .ErrInvalidToken
    | none =>
      let claims := toInt64 parsed.claims "iat"
      let claims := toInt64 claims "exp"
      .ok (claims.set "jti" (.str uuid))

end jwt

/-! ## internaljwt: the package identity-service/internal/jwt -/

namespace internaljwt

open golangjwt

/-- The errors `Generate`, `Parse` and `ParseWithAud` return: the error
variables of the package, the two errors made in place, the error of the
library's parser, passed on with its flags, and the error of the library's
`SignedString`. -/
inductive Error where
  | ErrInvalidSignInMethod
  | ErrTokenExpired
  | ErrInvalidToken
  | ErrInvalidTokenType
  | ErrInvalidAudience
  | invalidIssuer
  | invalidAudience
  | validation (err : ValidationError)
  | signing
  deriving DecidableEq, Repr

/-- The struct `Config`. Its field `Type` is `Typ` here. -/
structure Config where
  SigningMethod : String
  Lifetime : Int
  Issuer : String
  Audience : List String
  Typ : String
  publicKey : Option Nat
  privateKey : Option Nat
  SymmetricKey : Bytes
  deriving DecidableEq, Repr

/-- The struct `Pair`. -/
structure Pair where
  Access : Token
  Refresh : Token
  deriving DecidableEq, Repr

/-- Function `isSymmetricMethod`. -/
def isSymmetricMethod (method : SigningMethod) : Bool :=
  hasPrefixHS method.alg

/-- What a call of `Generate` leaves: the token and error it returns, and the
claim map of the caller. -/
structure Generated where
  token : Token
  err : Option Error
  claims : Claims
  deriving DecidableEq, Repr

/-- The claims `Generate` injects into the map of the caller at the time
`now`, the value of `nowFunc()`. -/
def inject (conf : Config) (now : Int) (claims : Claims) : Claims :=
  let claims := if conf.Issuer ≠ "" then claims.set "iss" (.str conf.Issuer) else claims
  let claims := if conf.Audience.length ≠ 0 then claims.set "aud" (.strs conf.Audience) else claims
  let claims := if conf.Typ ≠ "" then claims.set "typ" (.str conf.Typ) else claims
  let claims := claims.set "iat" (.int (Unix now))
  claims.set "exp" (.int (Unix (now + conf.Lifetime)))

/-- Function `Generate`. The key is passed to the library unchecked: an RSA
method with a `nil` private key panics inside the signing. -/
def Generate (conf : Config) (now : Int) (claims : Claims) : Run Generated :=
  match GetSigningMethod conf.SigningMethod with
  | none => .ret ⟨.raw "", some .ErrInvalidSignInMethod, claims⟩
  | some meth =>
    let claims := inject conf now claims
    if isSymmetricMethod meth then
      match Sign meth (.bytes conf.SymmetricKey) with
      | some sig => .ret ⟨.jws meth.alg claims.json sig, none, claims⟩
      | none => .ret ⟨.raw "", some .signing, claims⟩
    else
      match conf.privateKey with
      | none =>
        if meth.family = .rsa ∨ meth.family = .rsapss then .panic
        else .ret ⟨.raw "", some .signing, claims⟩
      | some id =>
        match Sign meth (.rsaPrivate id) with
        | some sig => .ret ⟨.jws meth.alg claims.json sig, none, claims⟩
        | none => .ret ⟨.raw "", some .signing, claims⟩

/-- The key function `Parse` hands to the library: the key is chosen by the
configured method alone, and `method.Alg()` panics when the configured name
is not registered. -/
def keyFunc (conf : Config) (_tokenMethod : SigningMethod) : KeyResult :=
  match GetSigningMethod conf.SigningMethod with
  | none => .panic
  | some method =>
    if isSymmetricMethod method then .key (.bytes conf.SymmetricKey)
    else
      match conf.publicKey with
      | some id => .key (.rsaPublic id)
      | none => .key .null

/-- Version 3, `MapClaims.VerifyIssuer(cmp, true)`. -/
def VerifyIssuer (claims : Claims) (cmp : String) : Bool :=
  match claims.get "iss" with
  | some (.str iss) => if iss = "" then false else iss = cmp
  | _ => false

/-- Version 3, `MapClaims.VerifyAudience(cmp, true)`. -/
def VerifyAudience (claims : Claims) (cmp : String) : Bool :=
  let aud : List String :=
    match claims.get "aud" with
    | some (.str s) => [s]
    | some (.strs l) => l
    | some (.list l) => l
    | _ => []
  if aud.length = 0 then false
  else if (String.join aud).length = 0 then false
  else aud.contains cmp

/-- The conversion `Parse` makes of a `float64` claim to `int64`. -/
def toInt64 (claims : Claims) (key : String) : Claims :=
  match claims.get key with
  | some (.float x) => claims.set key (.int (truncate x))
  | _ => claims

/-- Whether `claims["typ"]` is a string equal to `typ`. -/
def typIs (claims : Claims) (typ : String) : Bool :=
  match claims.get "typ" with
  | some (.str s) => s = typ
  | _ => false

/-- Function `Parse`, called at the time `now`; `uuid` is what
`uuid.NewString()` yields. -/
def Parse (conf : Config) (now : Int) (uuid : String) (token : Token) : GoResult Error Claims :=
  match ParseWithClaims (validV3 now) token (keyFunc conf) with
  | .panic => .panic
  | .ret parsed =>
    match parsed.err with
    | some err =>
      if err.expired then .error .ErrTokenExpired
      else .error (.validation err)
    | none =>
      match parsed.token with
      | none => .panic
      | some tok =>
        if !tok.Valid then .error .ErrInvalidToken
        else if conf.Issuer ≠ "" ∧ VerifyIssuer parsed.claims conf.Issuer = false then
          .error .invalidIssuer
        else if conf.Typ ≠ "" ∧ typIs parsed.claims conf.Typ = false then
          .error .ErrInvalidTokenType
        else
          let claims := toInt64 parsed.claims "iat"
          let claims := toInt64 claims "exp"
          .ok (claims.set "jti" (.str uuid))

/-- Function `ParseWithAud`. -/
def ParseWithAud (conf : Config) (now : Int) (uuid : String) (token : Token) (aud : String) :
    GoResult Error Claims :=
  match Parse conf now uuid token with
  | .ok claims => if VerifyAudience claims aud then .ok claims else .error .invalidAudience
  | .error e => .error e
  | .panic => .panic

end internaljwt

/-! ## services: the trust escalation of identity.go -/

namespace services

open golangjwt

/-- The error variables of the package that the token flows return. -/
inductive Error where
  | ErrTypeAccessTokenExpired
  | ErrIncorrectGenerationToken
  | ErrRefreshTokenExpired
  | ErrRefreshTokenInvalidated
  | ErrInvalidJWT
  | ErrInvalidTokenType
  | ErrRevokeToken
  | ErrInvalidClaims
  | ErrAccessGeneration
  | ErrRefreshGeneration
  | ErrFailedFindSignInKey
  | ErrSignInKeyNotFound
  | ErrWrongCode
  | ErrRemoveSignInKeyFailed
  deriving DecidableEq, Repr

/-- The struct `AuthService`. -/
structure AuthService where
  userConfig : jwt.Config
  internalConfig : jwt.Config
  deriving DecidableEq, Repr

/-- Method `AuthService.extractInternalClaims`. -/
def AuthService.extractInternalClaims (s : AuthService) (userClaims : Claims) : Claims :=
  let internalClaims : Claims := []
  let internalClaims :=
    match userClaims.get "sub" with
    | some sub => internalClaims.set "sub" sub
    | none => internalClaims
  let internalClaims :=
    match userClaims.get "name" with
    | some name => internalClaims.set "name" name
    | none => internalClaims
  let internalClaims :=
    match userClaims.get "username" with
    | some username => internalClaims.set "username" username
    | none => internalClaims
  let internalClaims :=
    if s.internalConfig.Issuer ≠ "" then internalClaims.set "iss" (.str s.internalConfig.Issuer)
    else internalClaims
  let internalClaims :=
    if s.internalConfig.Audience.length > 0 then
      internalClaims.set "aud" (.strs s.internalConfig.Audience)
    else internalClaims
  internalClaims.set "typ" (.str "internal")

/-- Method `AuthService.Authenticate`: `now` and `uuid` are the time and the
identifier of the parse, `now2` the time of the generation. -/
def AuthService.Authenticate (s : AuthService) (now : Int) (uuid : String) (now2 : Int)
    (token : Token) : GoResult Error Token :=
  match jwt.Parse s.userConfig now uuid token with
  | .panic => .panic
  | .error .ErrTokenExpired => .error .ErrTypeAccessTokenExpired
  | .error .ErrInvalidTokenType => .error .ErrInvalidTokenType
  | .error _ => .error .ErrInvalidJWT
  | .ok claims =>
    let internalClaims := s.extractInternalClaims claims
    let generated := jwt.Generate s.internalConfig now2 internalClaims
    match generated.err with
    | some _ => .error .ErrIncorrectGenerationToken
    | none => .ok generated.token

/-- Method `AuthService.ValidateInternalToken`. -/
def AuthService.ValidateInternalToken (s : AuthService) (now : Int) (uuid : String)
    (token : Token) : GoResult Error Claims :=
  match jwt.Parse s.internalConfig now uuid token with
  | .panic => .panic
  | .error _ => .error .ErrInvalidJWT
  | .ok claims =>
    if claims.get "typ" = some (.str "internal") then .ok claims
    else .error .ErrInvalidTokenType

end services

/-! ## Definitions used by the statements on tokens -/

namespace jwt

open golangjwt

/-- A configuration with a known signing method and its key present: an HMAC
method with a non-empty symmetric key, or an RSA method with a private key. -/
def Config.keyPresent (conf : Config) : Bool :=
  match GetSigningMethod conf.SigningMethod with
  | none => false
  | some meth =>
    match meth.family with
    | .hmac => decide (conf.SymmetricKey.length ≠ 0)
    | .rsa => conf.privateKey.isSome
    | .rsapss => conf.privateKey.isSome
    | _ => false

/-- A configuration whose verification key matches its signing key: for an
RSA method the public key is the public half of the private key. -/
def Config.keysMatch (conf : Config) : Bool :=
  match GetSigningMethod conf.SigningMethod with
  | none => false
  | some meth =>
    match meth.family with
    | .hmac => true
    | _ => decide (conf.publicKey = conf.privateKey)

/-- The claim names `Generate` and `Parse` write themselves. -/
def reserved : List String := ["iss", "aud", "typ", "iat", "exp", "jti"]

/-- The access configuration of the refresh tests: HS512, 15 minutes. -/
def testAccessConfig : Config :=
  { SigningMethod := "HS512", Lifetime := 900 * second, Issuer := "test-issuer", Audience := [],
    Typ := "access", publicKey := none, privateKey := none,
    SymmetricKey := [115, 101, 99, 114, 101, 116] }

/-- A refresh configuration with the key of `testAccessConfig`: HS512, 24
hours, type "refresh". -/
def sharedKeyRefreshConfig : Config :=
  { testAccessConfig with Lifetime := 86400 * second, Typ := "refresh" }

/-- The time 2026-01-10 03:30:10 UTC and 700 ms, of the codec tests. -/
def testNow : Int := 1768015810 * second + 700000000

end jwt

namespace internaljwt

open golangjwt

/-- A configuration with a known signing method and its key present. -/
def Config.keyPresent (conf : Config) : Bool :=
  match GetSigningMethod conf.SigningMethod with
  | none => false
  | some meth =>
    match meth.family with
    | .hmac => true
    | .rsa => conf.privateKey.isSome
    | .rsapss => conf.privateKey.isSome
    | _ => false

/-- The symmetric configuration of the codec tests: HS512, 3 minutes. -/
def symConfig : Config :=
  { SigningMethod := "HS512", Lifetime := 180 * second, Issuer := "idk_issuer",
    Audience := ["idk_audience"], Typ := "", publicKey := none, privateKey := none,
    SymmetricKey := [98, 102, 53, 54] }

/-- The configuration `symConfig` with the method HS256 in place of HS512. -/
def hs256Config : Config :=
  { symConfig with SigningMethod := "HS256" }

end internaljwt

namespace jwt

/-- The configuration `testAccessConfig` with a lifetime of half a second. -/
def halfSecondConfig : Config :=
  { testAccessConfig with Lifetime := 500000000 }

end jwt

namespace jwt

/-- An identifier as `uuid.NewString()` yields one. -/
def testUUID : String := "123e4567-e89b-42d3-a456-426614174000"

end jwt

namespace jwt

/-- The configuration `testAccessConfig` with the method HS256 in place of
HS512, under the same key. -/
def hs256Config : Config :=
  { testAccessConfig with SigningMethod := "HS256" }

/-- The configuration `testAccessConfig` with a lifetime of minus one
nanosecond. -/
def expiredConfig : Config :=
  { testAccessConfig with Lifetime := -1 }

/-- The configuration `testAccessConfig` with a lifetime of minus 1768015810
seconds, which from `testNow` leads back into the first second of 1970. -/
def epochConfig : Config :=
  { testAccessConfig with Lifetime := -1768015810 * golangjwt.second }

/-- A time 2^53 + 3 seconds after the epoch; the `float64` nearest to that
number of seconds is 2^53 + 4. -/
def farNow : Int := 9007199254740995 * golangjwt.second

end jwt

namespace services

/-- The claim names an internal claim set may hold. -/
def internalNames : List String := ["sub", "name", "username", "iss", "aud", "typ"]

/-- An internal configuration as the process wiring builds it: RS256 with
the key pair 1. -/
def testInternalConfig : jwt.Config :=
  { SigningMethod := "RS256", Lifetime := 60 * golangjwt.second, Issuer := "identity",
    Audience := ["internal"], Typ := "internal_access", publicKey := some 1,
    privateKey := some 1, SymmetricKey := [] }

/-- The service of the tests: the access configuration for the user tokens and
`testInternalConfig` for the internal ones. -/
def testAuthService : AuthService :=
  { userConfig := jwt.testAccessConfig, internalConfig := testInternalConfig }

/-- The claims of a user: `sub`, `name`, `username` and `email`. -/
def userClaims : golangjwt.Claims :=
  [("sub", .str "user-123"), ("name", .str "Test User"), ("username", .str "testuser"),
   ("email", .str "user@example.com")]

end services

/-! ## storage: the session records of storage/signin_storage.go -/

namespace storage

/-- A `uuid.UUID`, by the text its method `String()` yields. -/
abbrev UUID := String

/-- The error of a redis command: `redis.Nil`, or another error with its
text. -/
inductive RedisError where
  | Nil
  | other (msg : String)
  deriving DecidableEq, Repr

/-- The commands of `*redis.Client` that the session and the revocation
storage use, over a client state `ρ`: the reply or the error of `Get` and
`Exists`, the error of `Set` and `Del`, `none` for `nil`. -/
structure RedisCommands (ρ : Type) where
  Get : ρ → String → Except RedisError String × ρ
  Set : ρ → String → String → Int → Option RedisError × ρ
  Del : ρ → String → Option RedisError × ρ
  Exists : ρ → String → Except RedisError Int × ρ

/-- The commands over the key-value model of the store: every command is
executed, and `Get` of an absent key reports `redis.Nil`. -/
def kvCommands : RedisCommands RedisDB where
  Get db key :=
    match db key with
    | some e => (.ok e.value, db)
    | none => (.error .Nil, db)
  Set db key value ttl := (none, Function.update db key (some ⟨value, ttl⟩))
  Del db key := (none, (redisDEL db key).2)
  Exists db key :=
    match db key with
    | some _ => (.ok 1, db)
    | none => (.ok 0, db)

/-- The struct `SignInData`. -/
structure SignInData where
  SignInKey : UUID
  UserId : UUID
  Name : String
  Username : String
  Code : String
  deriving DecidableEq, Repr

/-- The errors the session storage returns: the three error variables of the
package, and the error of a redis command passed on as it is. -/
inductive SignInError where
  | ErrSignInKeyNotFound
  | ErrFailGetSignInKey
  | ErrUnmarshalDataFail
  | redis (err : RedisError)
  deriving DecidableEq, Repr

/-- The struct `SignInStorage`. -/
structure SignInStorage (ρ : Type) where
  client : RedisCommands ρ
  ttl : Int

/-- Method `SignInStorage.Remove`. -/
def SignInStorage.Remove {ρ : Type} (s : SignInStorage ρ) (db : ρ) (signInKey : UUID) :
    Option SignInError × ρ :=
  let key := "Sign In: " ++ signInKey
  match s.client.Del db key with
  | (some err, db1) => (some (.redis err), db1)
  | (none, db1) => (none, db1)

/-- Method `SignInStorage.FindKey`; `unmarshal` is `json.Unmarshal` into a
`SignInData`, `none` when it fails. -/
def SignInStorage.FindKey {ρ : Type} (s : SignInStorage ρ)
    (unmarshal : String → Option SignInData) (db : ρ) (signInKey : UUID) :
    Except SignInError SignInData × ρ :=
  let key := "Sign In: " ++ signInKey
  match s.client.Get db key with
  | (.error err, db1) =>
    if err = .Nil then (.error .ErrSignInKeyNotFound, db1)
    else (.error .ErrFailGetSignInKey, db1)
  | (.ok val, db1) =>
    match unmarshal val with
    | none => (.error .ErrUnmarshalDataFail, db1)
    | some data => (.ok data, db1)

end storage

/-! ## services: the sign-in of services/signin.go -/

namespace services

open golangjwt

/-- The interface `SignInRepository` over a storage state `σ`. -/
structure SignInRepository (σ : Type) where
  FindKey : σ → storage.UUID → Except storage.SignInError storage.SignInData × σ
  Remove : σ → storage.UUID → Option storage.SignInError × σ

/-- The struct `SignInService`. -/
structure SignInService (σ : Type) where
  signInRepo : SignInRepository σ
  accessConf : jwt.Config
  refreshConf : jwt.Config

/-- A call `SignIn` makes on the repository or on the token codec. -/
inductive SignInEvent where
  | findKey (signInKey : storage.UUID)
  | generate (conf : jwt.Config) (claims : Claims)
  | remove (signInKey : storage.UUID)
  deriving DecidableEq, Repr

/-- What a call of `SignIn` leaves: the pair and the error it returns, the
storage, and the calls it made, in order. -/
structure SignInOutcome (σ : Type) where
  pair : jwt.Pair
  err : Option Error
  store : σ
  trace : List SignInEvent

/-- The value `jwt.Pair{}`: both tokens are the empty string. -/
def emptyPair : jwt.Pair := ⟨.raw "", .raw ""⟩

/-- The claims `SignIn` builds from a session record. The user id is a
`uuid.UUID`, which the token carries as its text. -/
def signInClaims (data : storage.SignInData) : Claims :=
  [("sub", .str data.UserId), ("name", .str data.Name), ("username", .str data.Username)]

/-- Method `SignInService.SignIn`; `now1` and `now2` are the times of the two
calls of `jwt.Generate`, which write to the same claim map. -/
def SignInService.SignIn {σ : Type} (s : SignInService σ) (st : σ) (now1 now2 : Int)
    (signinKey : storage.UUID) (code : String) : SignInOutcome σ :=
  match s.signInRepo.FindKey st signinKey with
  | (.error err, st1) =>
    if err ≠ .ErrSignInKeyNotFound then
      ⟨emptyPair, some .ErrFailedFindSignInKey, st1, [.findKey signinKey]⟩
    else ⟨emptyPair, some .ErrSignInKeyNotFound, st1, [.findKey signinKey]⟩
  | (.ok data, st1) =>
    if data.Code ≠ code then ⟨emptyPair, some .ErrWrongCode, st1, [.findKey signinKey]⟩
    else
      let claims := signInClaims data
      let access := jwt.Generate s.accessConf now1 claims
      match access.err with
      | some _ =>
        ⟨emptyPair, some .ErrAccessGeneration, st1,
          [.findKey signinKey, .generate s.accessConf claims]⟩
      | none =>
        let refresh := jwt.Generate s.refreshConf now2 access.claims
        match refresh.err with
        | some _ =>
          ⟨emptyPair, some .ErrRefreshGeneration, st1,
            [.findKey signinKey, .generate s.accessConf claims,
             .generate s.refreshConf access.claims]⟩
        | none =>
          match s.signInRepo.Remove st1 signinKey with
          | (some _, st2) =>
            ⟨emptyPair, some .ErrRemoveSignInKeyFailed, st2,
              [.findKey signinKey, .generate s.accessConf claims,
               .generate s.refreshConf access.claims, .remove signinKey]⟩
          | (none, st2) =>
            ⟨⟨access.token, refresh.token⟩, none, st2,
              [.findKey signinKey, .generate s.accessConf claims,
               .generate s.refreshConf access.claims, .remove signinKey]⟩

/-- The redis storage as a `SignInRepository`. -/
def redisSignInRepo {ρ : Type} (s : storage.SignInStorage ρ)
    (unmarshal : String → Option storage.SignInData) : SignInRepository ρ where
  FindKey := s.FindKey unmarshal
  Remove := s.Remove

end services

/-! ## internal/storage: the revocation records of revoke_token_storage.go -/

namespace internalstorage

open golangjwt storage

/-- The key prefix of the revocation records. -/
def revokedPrefix : String := "RevokedToken"

/-- The error variables of the revocation storage. -/
inductive RevokeError where
  | ErrRevokingToken
  | ErrCheckTokenRevocation
  deriving DecidableEq, Repr

/-- The struct `RevokeStorage`; `digest` is the hexadecimal SHA-256 digest
of the token string. -/
structure RevokeStorage (ρ : Type) where
  client : RedisCommands ρ
  ttl : Int
  digest : Token → String

/-- Method `RevokeStorage.generateKey`: the format `%s:%s` of the prefix
and the digest. -/
def RevokeStorage.generateKey {ρ : Type} (s : RevokeStorage ρ) (jwtToken : Token)
    (pfx : String) : String :=
  pfx ++ ":" ++ s.digest jwtToken

/-- Method `RevokeStorage.Revoke`. -/
def RevokeStorage.Revoke {ρ : Type} (s : RevokeStorage ρ) (db : ρ) (jwtToken : Token) :
    Option RevokeError × ρ :=
  let key := s.generateKey jwtToken revokedPrefix
  match s.client.Set db key "revoked" s.ttl with
  | (some _, db1) => (some .ErrRevokingToken, db1)
  | (none, db1) => (none, db1)

/-- Method `RevokeStorage.IsRevoked`. -/
def RevokeStorage.IsRevoked {ρ : Type} (s : RevokeStorage ρ) (db : ρ) (jwtToken : Token) :
    Except RevokeError Bool × ρ :=
  let key := s.generateKey jwtToken revokedPrefix
  match s.client.Exists db key with
  | (.error _, db1) => (.error .ErrCheckTokenRevocation, db1)
  | (.ok n, db1) => (.ok (decide (n > 0)), db1)

end internalstorage

/-! ## internal/services: the refresh of refresh_jwt.go -/

namespace internalservices

open golangjwt

/-- The interface `RevokeRepository` over a storage state `σ`, with errors
of the type `ε`. -/
structure RevokeRepository (σ ε : Type) where
  Revoke : σ → Token → Option ε × σ
  IsRevoked : σ → Token → Except ε Bool × σ

/-- The struct `RefreshJWTService`. -/
structure RefreshJWTService (σ ε : Type) where
  accessConf : internaljwt.Config
  refreshConf : internaljwt.Config
  revokeRepo : RevokeRepository σ ε

/-- An `error` that a service returns: one of the error variables of the
package, which carry the names of `services.Error`, or the error of a
repository, which `validate` passes on as it is. -/
inductive ServiceError (ε : Type) where
  | service (e : services.Error)
  | repository (e : ε)
  deriving DecidableEq, Repr

/-- A call `Refresh` makes on the repository or on the token codec. -/
inductive RefreshEvent where
  | isRevoked (token : Token)
  | parse (conf : internaljwt.Config) (token : Token)
  | revoke (token : Token)
  | generate (conf : internaljwt.Config) (claims : Claims)
  deriving DecidableEq, Repr

/-- What a call of `Refresh` leaves: the pair and the error it returns, the
storage, and the calls it made, in order. -/
structure RefreshOutcome (σ ε : Type) where
  pair : internaljwt.Pair
  err : Option (ServiceError ε)
  store : σ
  trace : List RefreshEvent

/-- The value `jwt.Pair{}`: both tokens are the empty string. -/
def emptyPair : internaljwt.Pair := ⟨.raw "", .raw ""⟩

/-- Method `RefreshJWTService.validate`. -/
def RefreshJWTService.validate {σ ε : Type} (service : RefreshJWTService σ ε) (st : σ)
    (refresh : Token) : Option (ServiceError ε) × σ :=
  match service.revokeRepo.IsRevoked st refresh with
  | (.error err, st1) => (some (.repository err), st1)
  | (.ok revoked, st1) =>
    if revoked then (some (.service .ErrRefreshTokenInvalidated), st1)
    else (none, st1)

/-- Method `RefreshJWTService.Refresh`; `now` and `uuid` are the time and the
identifier of the parse, `now1` and `now2` the times of the two calls of
`jwt.Generate`, which write to the same claim map. A `sub` that is absent or
JSON `null` is `nil`. -/
def RefreshJWTService.Refresh {σ ε : Type} (service : RefreshJWTService σ ε) (st : σ)
    (now : Int) (uuid : String) (now1 now2 : Int) (refresh : Token) :
    Run (RefreshOutcome σ ε) :=
  match service.validate st refresh with
  | (some err, st1) => .ret ⟨emptyPair, some err, st1, [.isRevoked refresh]⟩
  | (none, st1) =>
    match internaljwt.Parse service.refreshConf now uuid refresh with
    | .panic => .panic
    | .error err =>
      if err = .ErrTokenExpired then
        .ret ⟨emptyPair, some (.service .ErrRefreshTokenExpired), st1,
          [.isRevoked refresh, .parse service.refreshConf refresh]⟩
      else if err = .ErrInvalidTokenType then
        .ret ⟨emptyPair, some (.service .ErrInvalidTokenType), st1,
          [.isRevoked refresh, .parse service.refreshConf refresh]⟩
      else
        .ret ⟨emptyPair, some (.service .ErrInvalidJWT), st1,
          [.isRevoked refresh, .parse service.refreshConf refresh]⟩
    | .ok claims =>
      match service.revokeRepo.Revoke st1 refresh with
      | (some _, st2) =>
        .ret ⟨emptyPair, some (.service .ErrRevokeToken), st2,
          [.isRevoked refresh, .parse service.refreshConf refresh, .revoke refresh]⟩
      | (none, st2) =>
        let trace : List RefreshEvent :=
          [.isRevoked refresh, .parse service.refreshConf refresh, .revoke refresh]
        if claims.get "sub" = none ∨ claims.get "sub" = some .null then
          .ret ⟨emptyPair, some (.service .ErrInvalidClaims), st2, trace⟩
        else
          match internaljwt.Generate service.accessConf now1 claims with
          | .panic => .panic
          | .ret access =>
            match access.err with
            | some _ =>
              .ret ⟨emptyPair, some (.service .ErrAccessGeneration), st2,
                trace ++ [.generate service.accessConf claims]⟩
            | none =>
              match internaljwt.Generate service.refreshConf now2 access.claims with
              | .panic => .panic
              | .ret refreshed =>
                match refreshed.err with
                | some _ =>
                  .ret ⟨emptyPair, some (.service .ErrRefreshGeneration), st2,
                    trace ++ [.generate service.accessConf claims,
                      .generate service.refreshConf access.claims]⟩
                | none =>
                  .ret ⟨⟨access.token, refreshed.token⟩, none, st2,
                    trace ++ [.generate service.accessConf claims,
                      .generate service.refreshConf access.claims]⟩

/-- The redis storage as a `RevokeRepository`. -/
def redisRevokeRepo {ρ : Type} (s : internalstorage.RevokeStorage ρ) :
    RevokeRepository ρ internalstorage.RevokeError where
  Revoke := s.Revoke
  IsRevoked := s.IsRevoked

end internalservices

/-! ## Definitions used by the statements on the session flows -/

namespace services

/-- The session record of the sign-in tests: the code "123456". -/
def testSignInData : storage.SignInData :=
  { SignInKey := "6ba7b810-9dad-11d1-80b4-00c04fd430c8",
    UserId := "7c9e6679-7425-40de-944b-e07fc1f90ae7",
    Name := "Test User", Username := "testuser", Code := "123456" }

/-- A decoder that reads the text "record" as `testSignInData` and fails on
anything else. -/
def testUnmarshal (s : String) : Option storage.SignInData :=
  if s = "record" then some testSignInData else none

/-- A store holding the one session record `testSignInData`. -/
def testSignInDB : storage.RedisDB :=
  Function.update (fun _ => none) ("Sign In: " ++ testSignInData.SignInKey)
    (some ⟨"record", 300 * golangjwt.second⟩)

/-- The sign-in service over the redis storage, with the configurations of
the refresh tests. -/
def testSignInService : SignInService storage.RedisDB :=
  { signInRepo := redisSignInRepo ⟨storage.kvCommands, 300 * golangjwt.second⟩ testUnmarshal,
    accessConf := jwt.testAccessConfig, refreshConf := jwt.sharedKeyRefreshConfig }

end services

namespace services

/-- Whether the event is a call of `Remove`. -/
def SignInEvent.isRemove : SignInEvent → Bool
  | .remove _ => true
  | _ => false

/-- The service `testSignInService` with a refresh configuration that names
no registered signing method: the second signing step fails. -/
def failingSignInService : SignInService storage.RedisDB :=
  { testSignInService with
    refreshConf := { jwt.sharedKeyRefreshConfig with SigningMethod := "HS1024" } }

end services

namespace internalservices

open golangjwt

/-- The token of a run of `Generate`, the empty string when it panics. -/
def tokenOf : Run internaljwt.Generated → Token
  | .ret g => g.token
  | .panic => .raw ""

/-- The refresh configuration of the refresh tests: HS512, 24 hours, type
"refresh". -/
def testRefreshConf : internaljwt.Config :=
  { SigningMethod := "HS512", Lifetime := 86400 * second, Issuer := "test-issuer",
    Audience := [], Typ := "refresh", publicKey := none, privateKey := none,
    SymmetricKey := [114, 101, 102, 114, 101, 115, 104] }

/-- The access configuration of the refresh tests: HS512, 15 minutes, type
"access". -/
def testAccessConf : internaljwt.Config :=
  { SigningMethod := "HS512", Lifetime := 900 * second, Issuer := "test-issuer",
    Audience := [], Typ := "access", publicKey := none, privateKey := none,
    SymmetricKey := [97, 99, 99, 101, 115, 115] }

/-- A refresh token of the user "user-123", generated at `jwt.testNow`. -/
def testRefreshToken : Token :=
  tokenOf (internaljwt.Generate testRefreshConf jwt.testNow [("sub", .str "user-123")])

/-- A refresh token generated with a lifetime of minus one hour. -/
def expiredRefreshToken : Token :=
  tokenOf (internaljwt.Generate { testRefreshConf with Lifetime := -3600 * second } jwt.testNow
    [("sub", .str "user-123")])

/-- A token of the type "access" signed with the key of the refresh
configuration. -/
def accessTypedToken : Token :=
  tokenOf (internaljwt.Generate { testRefreshConf with Typ := "access" } jwt.testNow
    [("sub", .str "user-123")])

/-- A digest for the tests: it tells `testRefreshToken` from the other
tokens. -/
def testDigest (t : Token) : String :=
  if t = testRefreshToken then "9f86d081884c7d65" else "e3b0c44298fc1c14"

/-- The revocation storage of the tests over the key-value model, with a
configured ttl of one hour. -/
def testRevokeStorage : internalstorage.RevokeStorage storage.RedisDB :=
  { client := storage.kvCommands, ttl := 3600 * second, digest := testDigest }

/-- The refresh service of the tests over the redis storage. -/
def testRefreshService : RefreshJWTService storage.RedisDB internalstorage.RevokeError :=
  { accessConf := testAccessConf, refreshConf := testRefreshConf,
    revokeRepo := redisRevokeRepo testRevokeStorage }

/-- The empty store. -/
def emptyDB : storage.RedisDB := fun _ => none

/-- A store in which `testRefreshToken` is revoked. -/
def revokedDB : storage.RedisDB :=
  (testRevokeStorage.Revoke emptyDB testRefreshToken).2

end internalservices

namespace internalservices

open golangjwt

/-- The outcome of a run of `Refresh`; of a run that panics, the outcome
with no calls. -/
def outcomeOf {σ ε : Type} (st : σ) : Run (RefreshOutcome σ ε) → RefreshOutcome σ ε
  | .ret r => r
  | .panic => ⟨emptyPair, none, st, []⟩

/-- The first refresh of `testRefreshToken`, on the empty store, at the time
`jwt.testNow`. -/
def firstRefresh : RefreshOutcome storage.RedisDB internalstorage.RevokeError :=
  outcomeOf emptyDB (testRefreshService.Refresh emptyDB jwt.testNow jwt.testUUID jwt.testNow
    jwt.testNow testRefreshToken)

end internalservices

/-! ## services: the sign-out of services/signout.go -/

namespace services

open golangjwt

/-- The struct `SignoutService`. The interface `RevokeRepository` of the
package is declared outside the files at hand; it is taken as
internal/services declares it. -/
structure SignoutService (σ ε : Type) where
  refreshConf : jwt.Config
  revokeRepo : internalservices.RevokeRepository σ ε

/-- A call `SignOut` makes on the token codec or on the repository. -/
inductive SignOutEvent where
  | parse (conf : jwt.Config) (token : Token)
  | revoke (token : Token)
  deriving DecidableEq, Repr

/-- What a call of `SignOut` leaves: the error it returns, the storage, and
the calls it made, in order. -/
structure SignOutOutcome (σ : Type) where
  err : Option Error
  store : σ
  trace : List SignOutEvent

/-- Method `SignoutService.SignOut`, called at the time `now`. -/
def SignoutService.SignOut {σ ε : Type} (s : SignoutService σ ε) (st : σ) (now : Int)
    (uuid : String) (refreshToken : Token) : Run (SignOutOutcome σ) :=
  let token := refreshToken
  match jwt.Parse s.refreshConf now uuid token with
  | .panic => .panic
  | .error _ => .ret ⟨some .ErrInvalidJWT, st, [.parse s.refreshConf token]⟩
  | .ok claims =>
    if claims.get "typ" ≠ some (.str "refresh") then
      .ret ⟨some .ErrInvalidTokenType, st, [.parse s.refreshConf token]⟩
    else
      match s.revokeRepo.Revoke st token with
      | (some _, st1) =>
        .ret ⟨some .ErrRevokeToken, st1, [.parse s.refreshConf token, .revoke token]⟩
      | (none, st1) => .ret ⟨none, st1, [.parse s.refreshConf token, .revoke token]⟩

end services

/-! ## restapi and gin: the response envelopes -/

namespace restapi

def ErrTypeSendCodeFreqExceeded : String := "send_code_freq_exceeded"
def ErrTypeSignInKeyNotFound : String := "signin_key_not_found"
def ErrTypeWrongCode : String := "wrong_code"
def ErrTypeRefreshTokenExpired : String := "refresh_token_expired"
def ErrTypeRefreshTokenInvalidated : String := "refresh_token_invalidated"
def ErrTypeInvalidJWT : String := "invalid_token"
def ErrTypeInvalidTokenType : String := "invalid_token_type"

/-- The struct `ErrorDetail`. -/
structure ErrorDetail where
  Field : String
  Message : String
  deriving DecidableEq, Repr

/-- The struct `ErrorResponse`, the failure envelope. -/
structure ErrorResponse where
  ErrorType : String
  ErrorMessage : String
  ErrorDetails : List ErrorDetail
  deriving DecidableEq, Repr

/-- The struct `SuccessResponse`, the success envelope, with a payload of the
type `δ`. -/
structure SuccessResponse (δ : Type) where
  Data : δ
  deriving DecidableEq, Repr

/-- The object of a call `c.JSON`: one of the two envelopes. -/
inductive Envelope (δ : Type) where
  | failure (r : ErrorResponse)
  | success (r : SuccessResponse δ)
  deriving DecidableEq, Repr

/-- Whether the envelope is the success envelope. -/
def Envelope.isSuccess {δ : Type} : Envelope δ → Bool
  | .success _ => true
  | .failure _ => false

end restapi

namespace gin

/-- The part of `*gin.Context` that the handlers write: the calls of `c.JSON`
in order, each with its status code and its object, and the errors attached
with `c.Error`. -/
structure Context (δ ε : Type) where
  written : List (Int × restapi.Envelope δ)
  Errors : List ε
  deriving DecidableEq, Repr

/-- A context nothing was written to. -/
def Context.fresh {δ ε : Type} : Context δ ε := ⟨[], []⟩

/-- Method `Context.JSON`. -/
def Context.JSON {δ ε : Type} (c : Context δ ε) (code : Int) (obj : restapi.Envelope δ) :
    Context δ ε :=
  { c with written := c.written ++ [(code, obj)] }

/-- Method `Context.Error`. -/
def Context.Error {δ ε : Type} (c : Context δ ε) (err : ε) : Context δ ε :=
  { c with Errors := c.Errors ++ [err] }

/-- The status the response goes out with: the code of the first call of
`c.JSON`, since a later call cannot change a status that is written, 200
when nothing was written. -/
def Context.status {δ ε : Type} (c : Context δ ε) : Int :=
  match c.written with
  | [] => 200
  | (code, _) :: _ => code

end gin

namespace restapi

/-- Function `SendSuccess`. -/
def SendSuccess {δ ε : Type} (c : gin.Context δ ε) (data : δ) : gin.Context δ ε :=
  c.JSON services.StatusOK (.success ⟨data⟩)

/-- Function `SendUnprocessableJSON`. -/
def SendUnprocessableJSON {δ ε : Type} (c : gin.Context δ ε) : gin.Context δ ε :=
  c.JSON 422 (.failure ⟨ErrTypeInvalidJson, "Body has invalid JSON", []⟩)

/-- Function `SendValidationError`. -/
def SendValidationError {δ ε : Type} (c : gin.Context δ ε) (errors : List ErrorDetail) :
    gin.Context δ ε :=
  c.JSON services.StatusBadRequest
    (.failure ⟨ErrTypeValidationFailed, "Validation has failed", errors⟩)

/-- Function `SendInternalError`. -/
def SendInternalError {δ ε : Type} (c : gin.Context δ ε) : gin.Context δ ε :=
  c.JSON services.StatusInternalServerError
    (.failure ⟨ErrTypeInternal, "Internal Server Error", []⟩)

end restapi

/-! ## internal/handlers: the sign-out handler of signout.go -/

namespace internalhandlers

open golangjwt

/-- The struct `SignOutRequest`. -/
structure SignOutRequest where
  refreshToken : Token
  deriving DecidableEq, Repr

/-- The struct `SignOutResponse`. -/
structure SignOutResponse where
  deriving DecidableEq, Repr

/-- The handler `SignOut`. `req` and `bindErr` are what
`ShouldBindBodyWithJSON` leaves in the request struct and whether it
returned an error; `service` is the method `SignOut` of the service, its
result `none` for `nil`. -/
def SignOut {ε : Type} [DecidableEq ε]
    (service : Token → Option (internalservices.ServiceError ε))
    (req : SignOutRequest) (bindErr : Bool)
    (c : gin.Context SignOutResponse (internalservices.ServiceError ε)) :
    gin.Context SignOutResponse (internalservices.ServiceError ε) :=
  let c := if bindErr then restapi.SendUnprocessableJSON c else c
  let err := service req.refreshToken
  let c :=
    match err with
    | some e =>
      if e ≠ .service .ErrRefreshTokenExpired then
        let c :=
          if e = .service .ErrInvalidJWT then
            c.JSON services.StatusBadRequest
              (.failure ⟨restapi.ErrTypeInvalidJWT, "Refresh token is invalid", []⟩)
          else c
        let c := c.Error e
        restapi.SendInternalError c
      else c
    | none => c
  restapi.SendSuccess c {}

end internalhandlers

/-! ## handlers: the refresh handler of refresh_jwt.go -/

namespace handlers

open golangjwt

/-- The struct `refreshJWTRequest`. -/
structure refreshJWTRequest where
  RefreshToken : Token
  deriving DecidableEq, Repr

/-- The struct `refreshJWTResponse`. -/
structure refreshJWTResponse where
  AccessToken : Token
  RefreshToken : Token
  deriving DecidableEq, Repr

/-- The handler `RefreshJWT`. `req` and `bindErr` are what
`ShouldBindBodyWithJSON` leaves in the request struct and whether it
returned an error; `service` is the method `Refresh` of the service. -/
def RefreshJWT {ε : Type} [DecidableEq ε]
    (service : Token → jwt.Pair × Option (internalservices.ServiceError ε))
    (req : refreshJWTRequest) (bindErr : Bool)
    (c : gin.Context refreshJWTResponse (internalservices.ServiceError ε)) :
    gin.Context refreshJWTResponse (internalservices.ServiceError ε) :=
  if bindErr then restapi.SendUnprocessableJSON c
  else
    let r := service req.RefreshToken
    let pair := r.1
    let c :=
      match r.2 with
      | some err =>
        if err = .service .ErrRefreshTokenExpired then
          c.JSON services.StatusBadRequest
            (.failure ⟨restapi.ErrTypeRefreshTokenExpired, "Refresh token expired", []⟩)
        else if err = .service .ErrRefreshTokenInvalidated then
          c.JSON services.StatusBadRequest
            (.failure ⟨restapi.ErrTypeRefreshTokenInvalidated, "Refresh token invalidated", []⟩)
        else if err = .service .ErrInvalidJWT then
          c.JSON services.StatusBadRequest
            (.failure ⟨restapi.ErrTypeInvalidJWT, "Invalid signature of jwt", []⟩)
        else if err = .service .ErrInvalidTokenType then
          c.JSON services.StatusBadRequest
            (.failure ⟨restapi.ErrTypeInvalidTokenType, "Invalid jwt token type", []⟩)
        else restapi.SendInternalError (c.Error err)
      | none => c
    restapi.SendSuccess c ⟨pair.Access, pair.Refresh⟩

end handlers

namespace services

open golangjwt

/-- A refresh token of the type "refresh", signed with the key of
`jwt.sharedKeyRefreshConfig` and generated with a lifetime of minus one
hour. -/
def expiredRefreshToken : Token :=
  (jwt.Generate { jwt.sharedKeyRefreshConfig with Lifetime := -3600 * second } jwt.testNow
    [("sub", .str "user-123")]).token

/-- The sign-out service of the tests over the redis storage. -/
def testSignoutService : SignoutService storage.RedisDB internalstorage.RevokeError :=
  { refreshConf := jwt.sharedKeyRefreshConfig,
    revokeRepo := internalservices.redisRevokeRepo internalservices.testRevokeStorage }

/-- The error of a run of `SignOut` as the handler receives it. -/
def signOutError {σ : Type} :
    Run (SignOutOutcome σ) → Option (internalservices.ServiceError internalstorage.RevokeError)
  | .ret r => r.err.map .service
  | .panic => none

end services

/-! ## internal/services: the code of signin_send_code.go -/

namespace internalservices

/-- Go `binary.BigEndian.Uint32` of a slice of four bytes. -/
def BigEndianUint32 (b : Bytes) : Nat :=
  (b.getD 3 0).toNat + (b.getD 2 0).toNat * 2 ^ 8 + (b.getD 1 0).toNat * 2 ^ 16 +
    (b.getD 0 0).toNat * 2 ^ 24

/-- Go `fmt.Sprintf("%06d", n)` of an unsigned number: its decimal digits,
padded on the left with zeros to the width 6. -/
def Sprintf06d (n : Nat) : String :=
  let digits := Nat.repr n
  String.mk (List.replicate (6 - digits.length) '0') ++ digits

/-- Function `genCode`; `rnd` is what `rand.Read` yields. The sum and the
remainder are taken in `uint32`. -/
def genCode (rnd : Bytes) : String :=
  let b := storage.randRead 4 rnd
  let n := (100000 + BigEndianUint32 b % 900000) % 2 ^ 32
  Sprintf06d n

end internalservices

namespace internalstorage

open golangjwt

/-- The remaining validity of a token at the time `now`: the time of its
claim `exp` minus `now`, in nanoseconds; nothing for a string that is no
token and for a token without a numeric `exp`. -/
def remainingValidity (now : Int) : Token → Option Int
  | .jws _ claims _ =>
    match claims.get "exp" with
    | some (.float x) => some (truncate x * second - now)
    | _ => none
  | .raw _ => none

end internalstorage

namespace internalservices

/-- An access token of the user "user-123", with a lifetime of 15 minutes,
generated at `jwt.testNow`. -/
def testAccessToken : golangjwt.Token :=
  tokenOf (internaljwt.Generate testAccessConf jwt.testNow [("sub", .str "user-123")])

end internalservices

namespace services

/-- The internal token `testAuthService` returns at `jwt.testNow` for the
access token of `userClaims`, the empty string when it returns none. -/
def testInternalToken : golangjwt.Token :=
  match testAuthService.Authenticate jwt.testNow jwt.testUUID jwt.testNow
    (jwt.Generate jwt.testAccessConfig jwt.testNow userClaims).token with
  | .ok t => t
  | _ => .raw ""

end services

/-! ## internal/storage: the session records of internal/storage/signin_storage.go -/

namespace internalstorage

open storage

/-- The struct `SignInData`; `LastRequest` is a time. -/
structure SignInData where
  SignInKey : UUID
  LastRequest : Int
  UserId : UUID
  Email : String
  Name : String
  Username : String
  Code : String
  deriving DecidableEq, Repr

/-- The errors the session storage returns: the four error variables of the
package, and the error of a redis command passed on as it is. -/
inductive SignInError where
  | ErrSignInKeyNotFound
  | ErrFailGetSignInKey
  | ErrUnmarshalDataFail
  | ErrParseUUIDFail
  | redis (err : RedisError)
  deriving DecidableEq, Repr

/-- The struct `SignInStorage`, with the functions of the libraries it
calls: `json.Marshal` and `json.Unmarshal` of a `SignInData` and
`uuid.Parse`, each `none` when it fails. -/
structure SignInStorage (ρ : Type) where
  client : RedisCommands ρ
  ttl : Int
  marshal : SignInData → Option String
  unmarshal : String → Option SignInData
  uuidParse : String → Option UUID

/-- Method `SignInStorage.Remove`. -/
def SignInStorage.Remove {ρ : Type} (s : SignInStorage ρ) (db : ρ) (signInKey : UUID) :
    Option SignInError × ρ :=
  let key := "Sign In: " ++ signInKey
  match s.client.Del db key with
  | (some err, db1) => (some (.redis err), db1)
  | (none, db1) => (none, db1)

/-- Method `SignInStorage.FindKey`. -/
def SignInStorage.FindKey {ρ : Type} (s : SignInStorage ρ) (db : ρ) (signInKey : UUID) :
    Except SignInError SignInData × ρ :=
  let key := "Sign In: " ++ signInKey
  match s.client.Get db key with
  | (.error err, db1) =>
    if err = .Nil then (.error .ErrSignInKeyNotFound, db1)
    else (.error .ErrFailGetSignInKey, db1)
  | (.ok val, db1) =>
    match s.unmarshal val with
    | none => (.error .ErrUnmarshalDataFail, db1)
    | some data => (.ok data, db1)

/-- Method `SignInStorage.FindKeyByEmail`. -/
def SignInStorage.FindKeyByEmail {ρ : Type} (s : SignInStorage ρ) (db : ρ) (email : String) :
    Except SignInError SignInData × ρ :=
  let emailKey := "EmailKey: " ++ email
  match s.client.Get db emailKey with
  | (.error err, db1) =>
    if err = .Nil then (.error .ErrSignInKeyNotFound, db1)
    else (.error .ErrFailGetSignInKey, db1)
  | (.ok val, db1) =>
    match s.uuidParse val with
    | none => (.error .ErrParseUUIDFail, db1)
    | some key => s.FindKey db1 key

/-- Method `SignInStorage.Store`. -/
def SignInStorage.Store {ρ : Type} (s : SignInStorage ρ) (db : ρ) (data : SignInData) :
    Option SignInError × ρ :=
  match s.marshal data with
  | none => (some .ErrUnmarshalDataFail, db)
  | some metaJson =>
    let key := data.SignInKey
    let metaKey := "Sign In: " ++ key
    let phoneKey := "EmailKey: " ++ data.Email
    match s.client.Set db metaKey metaJson s.ttl with
    | (some err, db1) => (some (.redis err), db1)
    | (none, db1) =>
      match s.client.Set db1 phoneKey key s.ttl with
      | (some err, db2) => (some (.redis err), db2)
      | (none, db2) => (none, db2)

end internalstorage

/-! ## internal/services: the send-code flow of signin_send_code.go -/

namespace internalservices

open storage

/-- The error variables of the send-code flow, and the error of the
repository, which `SignInSendCode` passes on from `Store` as it is. -/
inductive SendCodeError where
  | ErrFindSignInMetaFail
  | ErrSendCodeFreqExceeded
  | ErrUserNotFound
  | ErrGrpcFindMeta
  | ErrUnknownGrpcError
  | ErrUnexpectedStatus
  | ErrSendEmailFail
  | repository (e : internalstorage.SignInError)
  deriving DecidableEq, Repr

/-- The interface `SignInSendCodeRepository` over a storage state `σ`.
`FindKeyByEmail` returns a pointer, `none` for `nil`, or an error. -/
structure SignInSendCodeRepository (σ : Type) where
  FindKeyByEmail : σ → String →
    Except internalstorage.SignInError (Option internalstorage.SignInData) × σ
  Store : σ → internalstorage.SignInData → Option internalstorage.SignInError × σ

/-- The status of a response of the user service. The package `userservice`
is generated code outside the files at hand; its response is taken with the
fields that `SignInSendCode` reads. -/
inductive GetUserResponseStatus where
  | SUCCESS
  | FAILED
  | NOT_FOUND
  | other (n : Int)
  deriving DecidableEq, Repr

/-- The response of the user service: the status, the text of the user id
(`UserId.GetValue()`), and the two pointers `Username` and `Name`, `none`
for `nil`. -/
structure GetUserResponse where
  Status : GetUserResponseStatus
  UserId : String
  Username : Option String
  Name : Option String
  deriving DecidableEq, Repr

/-- The struct `SignInSendCodeService`: the frequency limit `ttl`, the
method `SendEmail` of the email sender (whether it returns an error), the
repository, and the method `GetUserByEmail` of the user service (`none` when
it returns an error). -/
structure SignInSendCodeService (σ : Type) where
  ttl : Int
  emailSender : String → String → Bool
  repository : SignInSendCodeRepository σ
  userService : String → Option GetUserResponse

/-- A call `SignInSendCode` makes on its dependencies. -/
inductive SendCodeEvent where
  | findKeyByEmail (email : String)
  | getUserByEmail (email : String)
  | sendEmail (email message : String)
  | store (data : internalstorage.SignInData)
  deriving DecidableEq, Repr

/-- What a call of `SignInSendCode` leaves: the key and the error it returns,
the storage, and the calls it made, in order. -/
structure SendCodeOutcome (σ : Type) where
  key : UUID
  err : Option SendCodeError
  store : σ
  trace : List SendCodeEvent

/-- The value `uuid.Nil`. -/
def uuidNil : UUID := "00000000-0000-0000-0000-000000000000"

/-- Method `SignInSendCodeService.fetchUser`. -/
def SignInSendCodeService.fetchUser {σ : Type} (s : SignInSendCodeService σ) (email : String) :
    Except SendCodeError GetUserResponse :=
  match s.userService email with
  | none => .error .ErrGrpcFindMeta
  | some user =>
    if user.Status ≠ .SUCCESS then
      if user.Status = .FAILED then .error .ErrUnknownGrpcError
      else if user.Status = .NOT_FOUND then .error .ErrUserNotFound
      else .error .ErrUnexpectedStatus
    else .ok user

/-- Method `SignInSendCodeService.SignInSendCode`. `now` and `now2` are the
two readings of the clock, `newKey` is what `uuid.New()` yields, `rnd` what
`rand.Read` yields, and `uuidParse` is `uuid.Parse`, on whose failure
`uuid.MustParse` panics; a `nil` `Username` or `Name` panics as well. -/
def SignInSendCodeService.SignInSendCode {σ : Type} (s : SignInSendCodeService σ) (st : σ)
    (now now2 : Int) (newKey : UUID) (rnd : Bytes) (uuidParse : String → Option UUID)
    (email : String) : golangjwt.Run (SendCodeOutcome σ) :=
  match s.repository.FindKeyByEmail st email with
  | (.error _, st1) =>
    .ret ⟨uuidNil, some .ErrFindSignInMetaFail, st1, [.findKeyByEmail email]⟩
  | (.ok data, st1) =>
    if data.any (fun d => decide (d.LastRequest + s.ttl > now)) then
      .ret ⟨uuidNil, some .ErrSendCodeFreqExceeded, st1, [.findKeyByEmail email]⟩
    else
      match s.fetchUser email with
      | .error err =>
        .ret ⟨uuidNil, some err, st1, [.findKeyByEmail email, .getUserByEmail email]⟩
      | .ok user =>
        match uuidParse user.UserId, user.Username, user.Name with
        | some userId, some username, some name =>
          let data : internalstorage.SignInData :=
            { SignInKey := newKey, LastRequest := now2, Email := email, UserId := userId,
              Username := username, Name := name, Code := genCode rnd }
          let message :=
            "Do not tell this code to anybody. Your code for karto4ki signing in is " ++
              data.Code
          if s.emailSender email message then
            .ret ⟨uuidNil, some .ErrSendEmailFail, st1,
              [.findKeyByEmail email, .getUserByEmail email, .sendEmail email message]⟩
          else
            match s.repository.Store st1 data with
            | (some err, st2) =>
              .ret ⟨uuidNil, some (.repository err), st2,
                [.findKeyByEmail email, .getUserByEmail email, .sendEmail email message,
                 .store data]⟩
            | (none, st2) =>
              .ret ⟨data.SignInKey, none, st2,
                [.findKeyByEmail email, .getUserByEmail email, .sendEmail email message,
                 .store data]⟩
        | _, _, _ => .panic

/-- The redis storage as a `SignInSendCodeRepository`: the pointer
`FindKeyByEmail` returns without an error is not `nil`. -/
def redisSendCodeRepo {ρ : Type} (s : internalstorage.SignInStorage ρ) :
    SignInSendCodeRepository ρ where
  FindKeyByEmail db email :=
    match s.FindKeyByEmail db email with
    | (.ok data, db1) => (.ok (some data), db1)
    | (.error err, db1) => (.error err, db1)
  Store := s.Store

end internalservices

namespace internalservices

/-- A user service that knows every email address as the same user. -/
def testUserService (_email : String) : Option GetUserResponse :=
  some { Status := .SUCCESS, UserId := "7c9e6679-7425-40de-944b-e07fc1f90ae7",
         Username := some "testuser", Name := some "Test User" }

/-- The session storage of the tests over the key-value model; the records
are written as the text of their code. -/
def testSignInStorage : internalstorage.SignInStorage storage.RedisDB :=
  { client := storage.kvCommands, ttl := 300 * golangjwt.second,
    marshal := fun d => some d.Code, unmarshal := fun _ => none,
    uuidParse := fun s => some s }

/-- The send-code service of the tests: a frequency limit of one minute, an
email sender that delivers, the redis storage and `testUserService`. -/
def testSendCodeService : SignInSendCodeService storage.RedisDB :=
  { ttl := 60 * golangjwt.second, emailSender := fun _ _ => false,
    repository := redisSendCodeRepo testSignInStorage, userService := testUserService }

/-- The outcome of a run of `SignInSendCode`; of a run that panics, the
outcome with no calls. -/
def sendCodeOutcomeOf {σ : Type} (st : σ) :
    golangjwt.Run (SendCodeOutcome σ) → SendCodeOutcome σ
  | .ret r => r
  | .panic => ⟨uuidNil, none, st, []⟩

end internalservices

/-! ## Lemmas on strings -/

/-- Byte length of a string of `n` copies of one character. -/
theorem utf8Len_replicate (ch : Char) (n : Nat) :
    String.utf8Len (List.replicate n ch) = n * ch.utf8Size := by
  induction n with
  | zero => simp
  | succ k ih => simp [List.replicate_succ, ih]; ring

theorem utf8ByteSize_replicate (ch : Char) (n : Nat) :
    (String.mk (List.replicate n ch)).utf8ByteSize = n * ch.utf8Size := by
  simp [utf8Len_replicate]

/-! ## Lemmas on headers -/

namespace Header

theorem values_add (h : Header) (k v key : String) :
    values (add h k v) key = if k = key then values h key ++ [v] else values h key := by
  induction h with
  | nil =>
    by_cases hk : k = key <;> simp [add, values, hk]
  | cons e t ih =>
    obtain ⟨k0, vs⟩ := e
    by_cases h0 : k0 = k
    · subst h0
      by_cases hk : k0 = key <;> simp [add, values, hk]
    · by_cases hk : k = key
      · subst hk
        simp [add, values, h0, ih]
      · by_cases h1 : k0 = key
        · subst h1
          simp [add, values, h0, hk]
        · simp [add, values, h0, h1, hk, ih]

theorem values_addValues (vs : List String) (h : Header) (k key : String) :
    values (vs.foldl (fun hd value => add hd k value) h) key =
      if k = key then values h key ++ vs else values h key := by
  induction vs generalizing h with
  | nil => simp
  | cons v t ih =>
    simp only [List.foldl_cons, ih, values_add]
    by_cases hk : k = key <;> simp [hk]

/-- The headers after the replay loop of `writeCachedResponse`. -/
theorem values_replay (cached h : Header) (key : String) :
    values (cached.foldl
      (fun hd kv => kv.2.foldl (fun hd value => add hd kv.1 value) hd) h) key =
      values h key ++ allValues cached key := by
  induction cached generalizing h with
  | nil => simp [allValues]
  | cons e t ih =>
    obtain ⟨k, vs⟩ := e
    simp only [List.foldl_cons, ih, values_addValues, allValues]
    by_cases hk : k = key <;> simp [hk]

theorem mem_allValues (cached : Header) (k v : String) (vs : List String)
    (he : (k, vs) ∈ cached) (hv : v ∈ vs) : v ∈ allValues cached k := by
  induction cached with
  | nil => simp at he
  | cons e t ih =>
    obtain ⟨k0, vs0⟩ := e
    rcases List.mem_cons.mp he with h1 | h1
    · have hk : k0 = k := (Prod.mk.inj h1).1.symm
      have hvs : vs0 = vs := (Prod.mk.inj h1).2.symm
      simp [allValues, hk, hvs, hv]
    · by_cases hk : k0 = k
      · simp [allValues, hk, ih h1]
      · simp [allValues, hk, ih h1]

theorem allValues_of_not_mem (h : Header) (key : String) (hk : key ∉ keys h) :
    allValues h key = [] := by
  induction h with
  | nil => rfl
  | cons e t ih =>
    obtain ⟨k0, vs0⟩ := e
    simp only [keys, List.map_cons, List.mem_cons, not_or] at hk
    have h0 : ¬ k0 = key := fun h => hk.1 h.symm
    simp [allValues, h0]
    exact ih hk.2

theorem allValues_eq_values (h : Header) (key : String) (hn : (keys h).Nodup) :
    allValues h key = values h key := by
  induction h with
  | nil => rfl
  | cons e t ih =>
    obtain ⟨k0, vs0⟩ := e
    simp only [keys, List.map_cons, List.nodup_cons] at hn
    by_cases h0 : k0 = key
    · subst h0
      simp [allValues, values, allValues_of_not_mem t k0 hn.1]
    · simp [allValues, values, h0]
      exact ih hn.2

theorem keys_add (h : Header) (k v : String) :
    keys (add h k v) = if k ∈ keys h then keys h else keys h ++ [k] := by
  induction h with
  | nil => simp [add, keys]
  | cons e t ih =>
    obtain ⟨k0, vs0⟩ := e
    by_cases h0 : k0 = k
    · subst h0; simp [add, keys]
    · have h1 : ¬ k = k0 := fun h => h0 h.symm
      simp only [keys] at ih
      simp only [add, h0, keys, if_false, List.map_cons, List.mem_cons, h1, false_or, ih]
      by_cases hm : k ∈ List.map Prod.fst t <;> simp [hm]

theorem keys_set (h : Header) (k v : String) :
    keys (set h k v) = if k ∈ keys h then keys h else keys h ++ [k] := by
  induction h with
  | nil => simp [set, keys]
  | cons e t ih =>
    obtain ⟨k0, vs0⟩ := e
    by_cases h0 : k0 = k
    · subst h0; simp [set, keys]
    · have h1 : ¬ k = k0 := fun h => h0 h.symm
      simp only [keys] at ih
      simp only [set, h0, keys, if_false, List.map_cons, List.mem_cons, h1, false_or, ih]
      by_cases hm : k ∈ List.map Prod.fst t <;> simp [hm]

theorem nodup_add (h : Header) (k v : String) (hn : (keys h).Nodup) :
    (keys (add h k v)).Nodup := by
  rw [keys_add]
  by_cases hm : k ∈ keys h
  · simp [hm, hn]
  · simp only [hm, if_false]
    exact List.Nodup.append hn (List.nodup_singleton k) (by simpa using hm)

theorem nodup_set (h : Header) (k v : String) (hn : (keys h).Nodup) :
    (keys (set h k v)).Nodup := by
  rw [keys_set]
  by_cases hm : k ∈ keys h
  · simp [hm, hn]
  · simp only [hm, if_false]
    exact List.Nodup.append hn (List.nodup_singleton k) (by simpa using hm)

theorem nodup_del (h : Header) (k : String) (hn : (keys h).Nodup) :
    (keys (del h k)).Nodup := by
  unfold keys del at *
  exact List.Nodup.sublist (List.Sublist.map _ (List.filter_sublist _)) hn

end Header

/-! ## Lemmas on `Handle` -/

namespace services

/-- With a status above 0, on a context of which nothing is written,
`sendErrorResponse` sets the status and the object and aborts. -/
theorem sendErrorResponse_eq (c : Context) (status : Int) (errorType errorMessage : String)
    (hpos : 0 < status) :
    sendErrorResponse c status errorType errorMessage =
      { c with aborted := true, Writer := { c.Writer with status := status },
               json := some [("error_type", errorType), ("message", errorMessage)] } := by
  unfold sendErrorResponse responseWriter.abortWithStatusJSON responseWriter.WriteHeader
    responseWriter.WriteHeaderNow responseWriter.Written responseWriter.response
    responseWriter.ofWriter
  by_cases hs : c.Writer.status = status
  · simp [hs]
  · simp [hs, hpos]

/-- The response `writeCachedResponse` leaves: the stored status when it is
above 0, the stored header values added, and the stored body when the write
succeeds. -/
theorem writeCachedResponse_writer (c : Context) (r : CapturedResponse) (fails : Bool) :
    (writeCachedResponse c r fails).Writer =
      { status := if 0 < r.StatusCode then r.StatusCode else c.Writer.status,
        header := r.Headers.foldl
          (fun hd kv => kv.2.foldl (fun hd value => Header.add hd kv.1 value) hd) c.Writer.header,
        body := if fails then c.Writer.body else c.Writer.body ++ r.Body } := by
  unfold writeCachedResponse responseWriter.abortWithStatusJSON responseWriter.Write
    responseWriter.WriteHeader responseWriter.WriteHeaderNow responseWriter.Written
    responseWriter.response responseWriter.ofWriter
  cases fails <;> by_cases hpos : 0 < r.StatusCode <;>
    by_cases hs : c.Writer.status = r.StatusCode <;> simp [hpos, hs]

theorem writeCachedResponse_aborted (c : Context) (r : CapturedResponse) (fails : Bool) :
    (writeCachedResponse c r fails).aborted = true := by
  unfold writeCachedResponse
  cases fails <;> rfl

theorem writeCachedResponse_json (c : Context) (r : CapturedResponse) :
    (writeCachedResponse c r false).json = c.json := by
  unfold writeCachedResponse
  rfl

theorem Handle_missing {σ η : Type} (m : MiddlewareConfig σ) (next : η → List WriterOp × η)
    (req : Request) (c : Context) (s : σ) (h : η)
    (hk : req.GetHeader HeaderIdempotencyKey = "") :
    Handle m next req c s h =
      ⟨s, h, sendErrorResponse c StatusBadRequest ErrIdempotencyKeyMissing
        ("No " ++ quote ++ HeaderIdempotencyKey ++ quote ++ "header provided"), []⟩ := by
  unfold Handle
  simp [hk]

theorem Handle_long {σ η : Type} (m : MiddlewareConfig σ) (next : η → List WriterOp × η)
    (req : Request) (c : Context) (s : σ) (h : η)
    (hne : req.GetHeader HeaderIdempotencyKey ≠ "")
    (hlen : 255 < (req.GetHeader HeaderIdempotencyKey).utf8ByteSize) :
    Handle m next req c s h =
      ⟨s, h, sendErrorResponse c StatusBadRequest ErrInvalidIdempotencyKey
        "idempotency key is too long", []⟩ := by
  unfold Handle
  simp [hne, hlen]

theorem Handle_lock_failed {σ η : Type} (m : MiddlewareConfig σ) (next : η → List WriterOp × η)
    (req : Request) (c : Context) (s : σ) (h : η) (key tok err : String) (s1 : σ)
    (hk : req.GetHeader HeaderIdempotencyKey = key) (hne : key ≠ "")
    (hlen : key.utf8ByteSize ≤ 255)
    (hlock : m.Storage.AcquireLock s key m.LockTTL = ((tok, some err), s1)) :
    Handle m next req c s h =
      ⟨s1, h, sendErrorResponse c StatusConflict ErrRequestInProgress
        "Another request with same idempotency key is being processed",
        [Event.acquireLock key m.LockTTL]⟩ := by
  unfold Handle
  simp [hk, hne, Nat.not_lt.mpr hlen, hlock]

theorem Handle_locked {σ η : Type} (m : MiddlewareConfig σ) (next : η → List WriterOp × η)
    (req : Request) (c : Context) (s : σ) (h : η) (key tok : String) (s1 : σ)
    (hk : req.GetHeader HeaderIdempotencyKey = key) (hne : key ≠ "")
    (hlen : key.utf8ByteSize ≤ 255)
    (hlock : m.Storage.AcquireLock s key m.LockTTL = ((tok, none), s1)) :
    Handle m next req c s h =
      ⟨(m.Storage.ReleaseLock (handleLocked m next req key c s1 h).storage key tok).2,
        (handleLocked m next req key c s1 h).handler,
        (handleLocked m next req key c s1 h).ctx,
        Event.acquireLock key m.LockTTL ::
          ((handleLocked m next req key c s1 h).trace ++ [Event.releaseLock key tok])⟩ := by
  unfold Handle
  simp [hk, hne, Nat.not_lt.mpr hlen, hlock]

/-- Every event of the retry loop is a store of the given response or a wait. -/
theorem storeLoop_events {σ : Type} (m : MiddlewareConfig σ) (ctxDone : Nat → Bool)
    (key : String) (resp : CapturedResponse) (n i : Nat) (s : σ) :
    ∀ e ∈ (storeLoop m ctxDone key resp n i s).2,
      e = Event.store key resp ∨ ∃ d b, e = Event.wait d b := by
  induction n generalizing i s with
  | zero => simp [storeLoop]
  | succ k ih =>
    intro e he
    unfold storeLoop at he
    rcases hs : m.Storage.Store s key resp with ⟨err, s1⟩
    rw [hs] at he
    cases err with
    | none =>
      simp at he
      exact Or.inl he
    | some x =>
      by_cases hd : ctxDone i = true
      · simp [hd] at he
        rcases he with he | he
        · exact Or.inl he
        · exact Or.inr ⟨_, _, he⟩
      · simp [hd] at he
        rcases he with he | he | he
        · exact Or.inl he
        · exact Or.inr ⟨_, _, he⟩
        · exact ih _ _ e he

/-- With at least one iteration the loop calls `Store`. -/
theorem storeLoop_stores {σ : Type} (m : MiddlewareConfig σ) (ctxDone : Nat → Bool)
    (key : String) (resp : CapturedResponse) (n i : Nat) (s : σ) :
    Event.store key resp ∈ (storeLoop m ctxDone key resp (n + 1) i s).2 := by
  unfold storeLoop
  rcases hs : m.Storage.Store s key resp with ⟨err, s1⟩
  cases err with
  | none => simp
  | some x =>
    by_cases hd : ctxDone i = true
    · simp [hd]
    · simp [hd]

/-- Between the `defer` and the return there is one `Get` first, no lock call,
and every later event is the handler run, a store or a wait. -/
theorem handleLocked_trace {σ η : Type} (m : MiddlewareConfig σ) (next : η → List WriterOp × η)
    (req : Request) (key : String) (c : Context) (s : σ) (h : η) :
    ∃ rest, (handleLocked m next req key c s h).trace = Event.get key :: rest ∧
      ∀ e ∈ rest, e = Event.next ∨
        e = Event.store key (captured (runNext next c h).1) ∨ ∃ d b, e = Event.wait d b := by
  unfold handleLocked
  rcases hg : m.Storage.Get s key with ⟨g, s1⟩
  cases g with
  | failed err => exact ⟨[], by simp⟩
  | hit cached => exact ⟨[], by simp⟩
  | miss =>
    by_cases hc : req.ctxErr = true
    · exact ⟨[], by simp [hc]⟩
    · by_cases hst : (captured (runNext next c h).1).StatusCode < 500 ∧
          (captured (runNext next c h).1).StatusCode ≠ 429
      · refine ⟨Event.next :: (storeResponseWithRetry m req.ctxDone key
          (captured (runNext next c h).1) s1).2, by simp [hc, hst], ?_⟩
        intro e he
        rcases List.mem_cons.mp he with he | he
        · exact Or.inl he
        · exact Or.inr (storeLoop_events _ _ _ _ _ _ _ e he)
      · refine ⟨[Event.next], ?_, by simp⟩
        simp only [hc]
        simp [hst]

/-- The context on the replay path. -/
theorem handleLocked_hit {σ η : Type} (m : MiddlewareConfig σ) (next : η → List WriterOp × η)
    (req : Request) (key : String) (c : Context) (s s1 : σ) (h : η) (r : CapturedResponse)
    (hhit : m.Storage.Get s key = (GetResult.hit r, s1)) :
    handleLocked m next req key c s h =
      ⟨s1, h, writeCachedResponse c r req.writeFails, [Event.get key]⟩ := by
  unfold handleLocked
  simp [hhit]

/-- The context on the execution path. -/
theorem handleLocked_miss_ctx {σ η : Type} (m : MiddlewareConfig σ)
    (next : η → List WriterOp × η) (req : Request) (key : String) (c : Context) (s s1 : σ)
    (h : η) (hmiss : m.Storage.Get s key = (GetResult.miss, s1)) (hctx : req.ctxErr = false) :
    (handleLocked m next req key c s h).ctx = { c with Writer := (runNext next c h).1.ResponseWriter } ∧
    (handleLocked m next req key c s h).handler = (runNext next c h).2 := by
  unfold handleLocked
  simp only [hmiss, hctx]
  by_cases hst : (captured (runNext next c h).1).StatusCode < 500 ∧
      (captured (runNext next c h).1).StatusCode ≠ 429
  · simp [hst]
  · simp [hst]

theorem responseCapturer.inStep_apply (r : responseCapturer) (op : WriterOp)
    (t : List WriterOp) (hr : r.inStep) (hs : staged r.writer.Written (op :: t) = true) :
    (r.apply op).inStep ∧ staged (r.apply op).writer.Written t = true := by
  obtain ⟨h1, h0, h2, h3, h4⟩ := hr
  cases op with
  | setHeader k v =>
    simp only [staged, Bool.and_eq_true, Bool.not_eq_true'] at hs
    obtain ⟨hw0, ht⟩ := hs
    rw [hw0] at ht
    have hw : r.writer.sent = none := by
      cases hsent : r.writer.sent with
      | none => rfl
      | some x => simp [responseWriter.Written, hsent] at hw0
    refine ⟨⟨h1, h0, h2, Header.nodup_set _ k v h3, Or.inl hw⟩, ?_⟩
    have : ({ r with writer := { r.writer with header := Header.set r.writer.header k v } } :
        responseCapturer).writer.Written = r.writer.Written := rfl
    simp only [responseCapturer.apply, this, hw0, ht]
  | addHeader k v =>
    simp only [staged, Bool.and_eq_true, Bool.not_eq_true'] at hs
    obtain ⟨hw0, ht⟩ := hs
    rw [hw0] at ht
    have hw : r.writer.sent = none := by
      cases hsent : r.writer.sent with
      | none => rfl
      | some x => simp [responseWriter.Written, hsent] at hw0
    refine ⟨⟨h1, h0, h2, Header.nodup_add _ k v h3, Or.inl hw⟩, ?_⟩
    have : ({ r with writer := { r.writer with header := Header.add r.writer.header k v } } :
        responseCapturer).writer.Written = r.writer.Written := rfl
    simp only [responseCapturer.apply, this, hw0, ht]
  | delHeader k =>
    simp only [staged, Bool.and_eq_true, Bool.not_eq_true'] at hs
    obtain ⟨hw0, ht⟩ := hs
    rw [hw0] at ht
    have hw : r.writer.sent = none := by
      cases hsent : r.writer.sent with
      | none => rfl
      | some x => simp [responseWriter.Written, hsent] at hw0
    refine ⟨⟨h1, h0, h2, Header.nodup_del _ k h3, Or.inl hw⟩, ?_⟩
    have : ({ r with writer := { r.writer with header := Header.del r.writer.header k } } :
        responseCapturer).writer.Written = r.writer.Written := rfl
    simp only [responseCapturer.apply, this, hw0, ht]
  | writeHeader code =>
    simp only [staged, Bool.and_eq_true, Bool.not_eq_true', decide_eq_true_eq] at hs
    obtain ⟨⟨hw, hc⟩, ht⟩ := hs
    have hpos : 0 < code := by omega
    have hwr : (r.writer.WriteHeader code) = { r.writer with status := code } := by
      unfold responseWriter.WriteHeader
      by_cases hst : r.writer.status = code
      · simp [hst]
        cases hr : r.writer
        simp [hr] at hst
        simp [hst]
      · simp [hst, hpos, hw]
    refine ⟨⟨?_, ?_, ?_, ?_, ?_⟩, ?_⟩
    · simp [responseCapturer.apply, responseCapturer.WriteHeader, hwr]
    · simpa [responseCapturer.apply, responseCapturer.WriteHeader] using hpos
    · simpa [responseCapturer.apply, responseCapturer.WriteHeader, hwr] using h2
    · simpa [responseCapturer.apply, responseCapturer.WriteHeader, hwr] using h3
    · simpa [responseCapturer.apply, responseCapturer.WriteHeader, hwr] using h4
    · have : (r.apply (.writeHeader code)).writer.Written = r.writer.Written := by
        simp [responseCapturer.apply, responseCapturer.WriteHeader, hwr, responseWriter.Written]
      rw [this]
      exact ht
  | write b =>
    simp only [staged] at hs
    have hwn : (r.writer.Write b false).sent = some r.writer.header ∧
        (r.writer.Write b false).header = r.writer.header ∧
        (r.writer.Write b false).status = r.writer.status ∧
        (r.writer.Write b false).body = r.writer.body ++ b := by
      unfold responseWriter.Write responseWriter.WriteHeaderNow responseWriter.Written
      rcases h4 with h4 | h4 <;> simp [h4]
    refine ⟨⟨?_, ?_, ?_, ?_, ?_⟩, ?_⟩
    · simpa [responseCapturer.apply, responseCapturer.Write, hwn.2.2.1] using h1
    · simpa [responseCapturer.apply, responseCapturer.Write] using h0
    · simp [responseCapturer.apply, responseCapturer.Write, hwn.2.2.2, h2]
    · simpa [responseCapturer.apply, responseCapturer.Write, hwn.2.1] using h3
    · exact Or.inr (by simp [responseCapturer.apply, responseCapturer.Write, hwn.1, hwn.2.1])
    · have : (r.apply (.write b)).writer.Written = true := by
        simp [responseCapturer.apply, responseCapturer.Write, responseWriter.Written, hwn.1]
      rw [this]
      exact hs

theorem responseCapturer.inStep_foldl (ops : List WriterOp) (r : responseCapturer)
    (hr : r.inStep) (hs : staged r.writer.Written ops = true) :
    (ops.foldl responseCapturer.apply r).inStep := by
  induction ops generalizing r with
  | nil => exact hr
  | cons op t ih =>
    obtain ⟨h1, h2⟩ := responseCapturer.inStep_apply r op t hr hs
    exact ih _ h1 h2

/-- On a fresh context, after a staged run, the capturer ends in step with
the writer. -/
theorem runNext_fresh_inStep {η : Type} (next : η → List WriterOp × η) (h : η)
    (hs : staged false (next h).1 = true) :
    (runNext next Context.fresh h).1.inStep := by
  unfold runNext
  apply responseCapturer.inStep_foldl
  · refine ⟨rfl, by decide, rfl, ?_, Or.inl rfl⟩
    simp [Context.fresh, Header.keys, responseWriter.ofWriter]
  · exact hs

/-- The response of a capturer in step is the response it captured. -/
theorem responseCapturer.inStep_response (r : responseCapturer) (hr : r.inStep) :
    r.ResponseWriter = ⟨(captured r).StatusCode, (captured r).Headers, (captured r).Body⟩ := by
  obtain ⟨h1, _, h2, _, h4⟩ := hr
  unfold responseCapturer.ResponseWriter responseWriter.response captured
  rcases h4 with h4 | h4 <;> simp [h4, h1, h2]

theorem twoByteKey_size : twoByteKey.utf8ByteSize = 256 := by
  unfold twoByteKey
  rw [utf8ByteSize_replicate]
  decide

theorem GetHeader_requestWithKey (key : String) :
    (requestWithKey key).GetHeader HeaderIdempotencyKey = key := by
  simp [requestWithKey, Request.GetHeader, Header.get, Header.values]

/-- The in-memory storage of the tests returns what the last `Store` put. -/
theorem mockStorage_cacheLaws :
    CacheLaws tests.mockStorage (fun st => st.data) where
  get_result := by
    intro s key
    simp only [tests.mockStorage, tests.mockIdempotencyStorage.Get]
    cases s.data key <;> rfl
  get_view := by
    intro s key
    simp only [tests.mockStorage, tests.mockIdempotencyStorage.Get]
    split <;> rfl
  store_ok := by
    intro s key r _
    simp [tests.mockStorage, tests.mockIdempotencyStorage.Store]
  store_failed := by
    intro s key r hf
    simp [tests.mockStorage, tests.mockIdempotencyStorage.Store] at hf
  acquire_view := by
    intro s key ttl
    simp only [tests.mockStorage, tests.mockIdempotencyStorage.AcquireLock]
    cases s.locks key <;> rfl
  release_view := by
    intro s key token
    simp only [tests.mockStorage, tests.mockIdempotencyStorage.ReleaseLock]
    cases s.locks key with
    | none => rfl
    | some t => by_cases ht : t = token <;> simp [ht]

/-- A run that acquires the lock, misses the cache, executes with a live
context and a cacheable answer, and whose first `Store` succeeds. -/
theorem Handle_first_run {σ η : Type} (m : MiddlewareConfig σ) (next : η → List WriterOp × η)
    (view : σ → String → Option CapturedResponse) (req : Request) (c : Context) (s : σ)
    (h : η) (key : String)
    (hlaws : CacheLaws m.Storage view)
    (hk : req.GetHeader HeaderIdempotencyKey = key) (hne : key ≠ "")
    (hlen : key.utf8ByteSize ≤ 255)
    (hlock : (m.Storage.AcquireLock s key m.LockTTL).1.2 = none)
    (hnew : view s key = none)
    (hctx : req.ctxErr = false) (hretry : 1 ≤ m.RetryCount)
    (hstore : ∀ s1 r, (m.Storage.Store s1 key r).1 = none)
    (hst : (captured (runNext next c h).1).StatusCode < 500 ∧
      (captured (runNext next c h).1).StatusCode ≠ 429) :
    view (Handle m next req c s h).storage key = some (captured (runNext next c h).1) ∧
    (Handle m next req c s h).handler = (runNext next c h).2 ∧
    (Handle m next req c s h).ctx = { c with Writer := (runNext next c h).1.ResponseWriter } ∧
    (Handle m next req c s h).trace =
      [Event.acquireLock key m.LockTTL, Event.get key, Event.next,
       Event.store key (captured (runNext next c h).1),
       Event.releaseLock key (m.Storage.AcquireLock s key m.LockTTL).1.1] := by
  obtain ⟨n, hn⟩ : ∃ n : Nat, m.RetryCount.toNat = n + 1 := ⟨m.RetryCount.toNat - 1, by omega⟩
  rcases hl : m.Storage.AcquireLock s key m.LockTTL with ⟨⟨tok, err⟩, s1⟩
  rw [hl] at hlock
  simp only at hlock
  subst hlock
  have hv1 : view s1 key = none := by
    have := hlaws.acquire_view s key m.LockTTL
    rw [hl] at this
    rw [this, hnew]
  rcases hg : m.Storage.Get s1 key with ⟨g, s2⟩
  have hgr : g = GetResult.miss := by
    have := hlaws.get_result s1 key
    rw [hg, hv1] at this
    exact this
  subst hgr
  rcases hs : m.Storage.Store s2 key (captured (runNext next c h).1) with ⟨e, s3⟩
  have he : e = none := by
    have := hstore s2 (captured (runNext next c h).1)
    rw [hs] at this
    exact this
  subst he
  have hv3 : view s3 key = some (captured (runNext next c h).1) := by
    have := hlaws.store_ok s2 key (captured (runNext next c h).1) (by rw [hs])
    rw [hs] at this
    exact this
  have hl2 : handleLocked m next req key c s1 h =
      ⟨s3, (runNext next c h).2, { c with Writer := (runNext next c h).1.ResponseWriter },
       [Event.get key, Event.next, Event.store key (captured (runNext next c h).1)]⟩ := by
    unfold handleLocked
    simp only [hg, hctx]
    simp only [Bool.false_eq_true, if_false, storeResponseWithRetry, hn, storeLoop, hs]
    rw [if_pos hst]
  rw [Handle_locked m next req c s h key tok s1 hk hne hlen hl, hl2]
  refine ⟨?_, rfl, rfl, by simp⟩
  simp only
  rw [hlaws.release_view s3 key tok, hv3]

/-- A run that acquires the lock and finds the response `r` cached. -/
theorem Handle_replay_run {σ η : Type} (m : MiddlewareConfig σ) (next : η → List WriterOp × η)
    (view : σ → String → Option CapturedResponse) (req : Request) (c : Context) (s : σ)
    (h : η) (key : String) (r : CapturedResponse)
    (hlaws : CacheLaws m.Storage view)
    (hk : req.GetHeader HeaderIdempotencyKey = key) (hne : key ≠ "")
    (hlen : key.utf8ByteSize ≤ 255)
    (hlock : (m.Storage.AcquireLock s key m.LockTTL).1.2 = none)
    (hhit : view s key = some r) :
    (Handle m next req c s h).handler = h ∧
    (Handle m next req c s h).ctx = writeCachedResponse c r req.writeFails ∧
    (Handle m next req c s h).trace =
      [Event.acquireLock key m.LockTTL, Event.get key,
       Event.releaseLock key (m.Storage.AcquireLock s key m.LockTTL).1.1] := by
  rcases hl : m.Storage.AcquireLock s key m.LockTTL with ⟨⟨tok, err⟩, s1⟩
  rw [hl] at hlock
  simp only at hlock
  subst hlock
  have hv1 : view s1 key = some r := by
    have := hlaws.acquire_view s key m.LockTTL
    rw [hl] at this
    rw [this, hhit]
  rcases hg : m.Storage.Get s1 key with ⟨g, s2⟩
  have hgr : g = GetResult.hit r := by
    have := hlaws.get_result s1 key
    rw [hg, hv1] at this
    exact this
  subst hgr
  rw [Handle_locked m next req c s h key tok s1 hk hne hlen hl,
    handleLocked_hit m next req key c s1 s2 h r hg]
  simp

/-- The status of the answer of an executing run is the status the capturer
recorded, when the run starts on a fresh context and the handler sets the
status before the body. -/
theorem Handle_first_status {σ η : Type} (m : MiddlewareConfig σ)
    (next : η → List WriterOp × η) (view : σ → String → Option CapturedResponse)
    (req : Request) (s : σ) (h : η) (key : String)
    (hlaws : CacheLaws m.Storage view)
    (hk : req.GetHeader HeaderIdempotencyKey = key) (hne : key ≠ "")
    (hlen : key.utf8ByteSize ≤ 255)
    (hlock : (m.Storage.AcquireLock s key m.LockTTL).1.2 = none)
    (hnew : view s key = none) (hctx : req.ctxErr = false)
    (hstaged : staged false (next h).1 = true) :
    (Handle m next req Context.fresh s h).ctx.Writer.status =
      (captured (runNext next Context.fresh h).1).StatusCode := by
  rcases hl : m.Storage.AcquireLock s key m.LockTTL with ⟨⟨tok, err⟩, s1⟩
  rw [hl] at hlock
  simp only at hlock
  subst hlock
  have hv1 : view s1 key = none := by
    have := hlaws.acquire_view s key m.LockTTL
    rw [hl] at this
    rw [this, hnew]
  rcases hg : m.Storage.Get s1 key with ⟨g, s2⟩
  have hgr : g = GetResult.miss := by
    have := hlaws.get_result s1 key
    rw [hg, hv1] at this
    exact this
  subst hgr
  rw [Handle_locked m next req Context.fresh s h key tok s1 hk hne hlen hl]
  simp only [(handleLocked_miss_ctx m next req key Context.fresh s1 s2 h hg hctx).1]
  rw [responseCapturer.inStep_response _ (runNext_fresh_inStep next h hstaged)]

end services

/-! ## Lemmas on the locks -/

namespace storage

theorem randRead_length (n : Nat) (rnd : Bytes) : (randRead n rnd).length = n := by
  simp [randRead]

theorem hexEncode_length (bytes : Bytes) : (hexEncode bytes).length = 2 * bytes.length := by
  unfold hexEncode
  simp only [String.length]
  induction bytes with
  | nil => simp
  | cons b t ih => simp [List.flatMap_cons, ih]; omega

/-- The token of `AcquireLock` has 32 characters. -/
theorem lockToken_length (rnd : Bytes) : (lockToken rnd).length = 32 := by
  unfold lockToken
  simp only [String.length]
  have h := hexEncode_length (randRead (32 / 2 + 1) rnd)
  rw [randRead_length] at h
  simp only [String.length] at h
  simp [List.length_take, h]

theorem lockToken_ne_empty (rnd : Bytes) : lockToken rnd ≠ "" := by
  intro h
  have hl := lockToken_length rnd
  rw [h] at hl
  simp at hl

/-- Closed form of `ReleaseLock` over the key-value model. -/
theorem ReleaseLock_kvClient (db : RedisDB) (key token : String) :
    ReleaseLock kvClient db key token =
      (none, if redisGET db (prefixLock ++ key) = some token
        then Function.update db (prefixLock ++ key) none else db) := by
  by_cases hv : redisGET db (prefixLock ++ key) = some token
  · cases hd : db (prefixLock ++ key) with
    | none => simp [redisGET, hd] at hv
    | some e => simp [ReleaseLock, kvClient, releaseLockScript, hv, redisDEL, hd]
  · simp [ReleaseLock, kvClient, releaseLockScript, hv]

/-- The token of the in-memory storage is not empty. -/
theorem generateLockToken_ne_empty (key now : String) : tests.generateLockToken key now ≠ "" := by
  intro h
  have hl := congrArg String.length h
  simp only [tests.generateLockToken, String.length_append] at hl
  have h0 : ("lock-token-" : String).length = 11 := by decide
  have h1 : ("" : String).length = 0 := by decide
  omega

end storage

/-! ## The idempotency middleware: store, lock attempt, replay -/

namespace services

/-- C1: for a request that acquires the lock and misses the cache, with the
context live so that the wrapped handler runs, and `RetryCount >= 1`, `Handle`
calls `Store` with the captured response if and only if the captured status is
below 500 and is not 429; every `Store` call is for that key and response, so
for 429 and for 500 and above there is no `Store` call at all. -/
theorem C1_store_iff_cacheable {σ η : Type} (m : MiddlewareConfig σ)
    (next : η → List WriterOp × η) (req : Request) (c : Context) (s s1 s2 : σ) (h : η)
    (key tok : String)
    (hk : req.GetHeader HeaderIdempotencyKey = key) (hne : key ≠ "")
    (hlen : key.utf8ByteSize ≤ 255)
    (hlock : m.Storage.AcquireLock s key m.LockTTL = ((tok, none), s1))
    (hmiss : m.Storage.Get s1 key = (GetResult.miss, s2))
    (hctx : req.ctxErr = false)
    (hretry : 1 ≤ m.RetryCount) :
    Event.next ∈ (Handle m next req c s h).trace ∧
    (Event.store key (captured (runNext next c h).1) ∈ (Handle m next req c s h).trace ↔
      ((captured (runNext next c h).1).StatusCode < 500 ∧
        (captured (runNext next c h).1).StatusCode ≠ 429)) ∧
    (∀ e ∈ (Handle m next req c s h).trace, e.isStore = true →
      e = Event.store key (captured (runNext next c h).1)) ∧
    (¬ ((captured (runNext next c h).1).StatusCode < 500 ∧
        (captured (runNext next c h).1).StatusCode ≠ 429) →
      ∀ e ∈ (Handle m next req c s h).trace, e.isStore = false) := by
  rw [Handle_locked m next req c s h key tok s1 hk hne hlen hlock]
  obtain ⟨n, hn⟩ : ∃ n : Nat, m.RetryCount.toNat = n + 1 :=
    ⟨m.RetryCount.toNat - 1, by omega⟩
  have hall := handleLocked_trace m next req key c s1 h
  obtain ⟨rest, hrest, hkinds⟩ := hall
  have hstoreEv : ∀ e ∈ Event.acquireLock key m.LockTTL ::
      ((handleLocked m next req key c s1 h).trace ++ [Event.releaseLock key tok]),
      e.isStore = true → e = Event.store key (captured (runNext next c h).1) := by
    intro e he hs
    rw [hrest] at he
    simp only [List.mem_cons, List.mem_append, List.cons_append, List.not_mem_nil,
      or_false] at he
    rcases he with he | he | he | he
    · subst he; simp [Event.isStore] at hs
    · subst he; simp [Event.isStore] at hs
    · rcases hkinds e he with h1 | h1 | ⟨d, b, h1⟩
      · subst h1; simp [Event.isStore] at hs
      · exact h1
      · subst h1; simp [Event.isStore] at hs
    · subst he; simp [Event.isStore] at hs
  by_cases hst : (captured (runNext next c h).1).StatusCode < 500 ∧
      (captured (runNext next c h).1).StatusCode ≠ 429
  · have htr : (handleLocked m next req key c s1 h).trace =
        Event.get key :: Event.next :: (storeResponseWithRetry m req.ctxDone key
          (captured (runNext next c h).1) s2).2 := by
      unfold handleLocked
      simp [hmiss, hctx, hst]
    have hmem : Event.store key (captured (runNext next c h).1) ∈
        (storeResponseWithRetry m req.ctxDone key (captured (runNext next c h).1) s2).2 := by
      unfold storeResponseWithRetry
      rw [hn]
      exact storeLoop_stores _ _ _ _ _ _ _
    refine ⟨by simp [htr], ⟨fun _ => hst, fun _ => ?_⟩, hstoreEv, fun hno => absurd hst hno⟩
    simp [htr, hmem]
  · have htr : (handleLocked m next req key c s1 h).trace = [Event.get key, Event.next] := by
      unfold handleLocked
      simp only [hmiss, hctx]
      simp [hst]
    refine ⟨by simp [htr], ⟨fun hmem => ?_, fun hyes => absurd hyes hst⟩, hstoreEv, fun _ => ?_⟩
    · simp [htr] at hmem
    · intro e he
      simp [htr] at he
      rcases he with he | he | he | he <;> subst he <;> rfl

/-- C1, at the in-memory storage: a handler answering 200 is stored, and the
hypotheses of the theorem hold there. -/
theorem C1_store_iff_cacheable_witness :
    Event.next ∈ (Handle (testConfig 3) countingHandler (requestWithKey "k") Context.fresh
      (tests.newMockIdempotencyStorage "t") 0).trace ∧
    (Event.store "k" (captured (runNext countingHandler Context.fresh 0).1) ∈
      (Handle (testConfig 3) countingHandler (requestWithKey "k") Context.fresh
        (tests.newMockIdempotencyStorage "t") 0).trace ↔
      ((captured (runNext countingHandler Context.fresh 0).1).StatusCode < 500 ∧
        (captured (runNext countingHandler Context.fresh 0).1).StatusCode ≠ 429)) ∧
    (∀ e ∈ (Handle (testConfig 3) countingHandler (requestWithKey "k") Context.fresh
        (tests.newMockIdempotencyStorage "t") 0).trace, e.isStore = true →
      e = Event.store "k" (captured (runNext countingHandler Context.fresh 0).1)) ∧
    (¬ ((captured (runNext countingHandler Context.fresh 0).1).StatusCode < 500 ∧
        (captured (runNext countingHandler Context.fresh 0).1).StatusCode ≠ 429) →
      ∀ e ∈ (Handle (testConfig 3) countingHandler (requestWithKey "k") Context.fresh
        (tests.newMockIdempotencyStorage "t") 0).trace, e.isStore = false) :=
  C1_store_iff_cacheable (testConfig 3) countingHandler (requestWithKey "k") Context.fresh
    (tests.newMockIdempotencyStorage "t")
    ((testConfig 3).Storage.AcquireLock (tests.newMockIdempotencyStorage "t") "k" 30000000000).2
    ((testConfig 3).Storage.AcquireLock (tests.newMockIdempotencyStorage "t") "k" 30000000000).2
    0 "k" "lock-token-k-t" rfl (by decide) (by decide) rfl rfl rfl (by decide)

/-- C2: for a request with a valid idempotency key (not empty, at most 255
bytes) `Handle` calls `AcquireLock` exactly once, for that key; when the call
fails the response is 409 with error type "request in progress", the chain is
aborted and the wrapped handler is not run, and the only storage call is that
`AcquireLock`: no `Get`, `Store` or `ReleaseLock`. -/
theorem C2_single_lock_attempt {σ η : Type} (m : MiddlewareConfig σ)
    (next : η → List WriterOp × η) (req : Request) (c : Context) (s : σ) (h : η)
    (key : String)
    (hk : req.GetHeader HeaderIdempotencyKey = key) (hne : key ≠ "")
    (hlen : key.utf8ByteSize ≤ 255) :
    (Handle m next req c s h).trace.countP Event.isAcquireLock = 1 ∧
    (Handle m next req c s h).trace.head? = some (Event.acquireLock key m.LockTTL) ∧
    ((m.Storage.AcquireLock s key m.LockTTL).1.2 ≠ none →
      (Handle m next req c s h).ctx.Writer.status = 409 ∧
      ((Handle m next req c s h).ctx.json.bind (List.lookup "error_type")) =
        some "request in progress" ∧
      (Handle m next req c s h).ctx.aborted = true ∧
      (Handle m next req c s h).handler = h ∧
      (Handle m next req c s h).ctx.Writer.body = c.Writer.body ∧
      (Handle m next req c s h).storage = (m.Storage.AcquireLock s key m.LockTTL).2 ∧
      (Handle m next req c s h).trace = [Event.acquireLock key m.LockTTL]) := by
  rcases hl : m.Storage.AcquireLock s key m.LockTTL with ⟨⟨tok, err⟩, s1⟩
  cases err with
  | some e =>
    rw [Handle_lock_failed m next req c s h key tok e s1 hk hne hlen hl,
      sendErrorResponse_eq c StatusConflict _ _ (by decide)]
    simp [Event.isAcquireLock, StatusConflict, ErrRequestInProgress, List.lookup]
  | none =>
    rw [Handle_locked m next req c s h key tok s1 hk hne hlen hl]
    obtain ⟨rest, hrest, hkinds⟩ := handleLocked_trace m next req key c s1 h
    refine ⟨?_, by simp, by simp⟩
    rw [hrest]
    have h0 : rest.countP Event.isAcquireLock = 0 := by
      rw [List.countP_eq_zero]
      intro e he
      rcases hkinds e he with h1 | h1 | ⟨d, b, h1⟩ <;> subst h1 <;> simp [Event.isAcquireLock]
    simp [List.countP_cons, List.countP_append, Event.isAcquireLock, h0]

/-- C2, at the in-memory storage with the lock of the key already taken. -/
theorem C2_single_lock_attempt_witness :
    (Handle (testConfig 3) countingHandler (requestWithKey "k") Context.fresh
      { tests.newMockIdempotencyStorage "t" with locks := fun _ => some "held" } 0).trace.countP
        Event.isAcquireLock = 1 ∧
    (Handle (testConfig 3) countingHandler (requestWithKey "k") Context.fresh
      { tests.newMockIdempotencyStorage "t" with locks := fun _ => some "held" } 0).ctx.Writer.status
        = 409 :=
  have w := C2_single_lock_attempt (testConfig 3) countingHandler (requestWithKey "k")
    Context.fresh { tests.newMockIdempotencyStorage "t" with locks := fun _ => some "held" } 0
    "k" rfl (by decide) (by decide)
  ⟨w.1, (w.2.2 (by decide)).1⟩

/-- C3, as stated, fails. With a hit on `storedResponse` and a failing write
of the body, the stored body is not written, while the stored status and
header value are in the response. With a hit on a response stored with the
status 0, the call `c.Status(0)` changes nothing and the response keeps the
status 200 of the fresh writer. -/
theorem C3_counterexample :
    ((tests.mockStorage.AcquireLock storageWithStored "k" 30000000000).1.2 = none ∧
      (tests.mockStorage.Get
        (tests.mockStorage.AcquireLock storageWithStored "k" 30000000000).2 "k").1 =
          GetResult.hit storedResponse ∧
      storedResponse.Body = [69] ∧
      (Handle (testConfig 3) countingHandler requestWriteFails Context.fresh
        storageWithStored 0).ctx.Writer.body = [] ∧
      (Handle (testConfig 3) countingHandler requestWriteFails Context.fresh
        storageWithStored 0).ctx.Writer.status = 200 ∧
      "idk" ∈ Header.values (Handle (testConfig 3) countingHandler requestWriteFails
        Context.fresh storageWithStored 0).ctx.Writer.header "Custom-Header") ∧
    ((tests.mockStorage.AcquireLock storageWithZeroStatus "k" 30000000000).1.2 = none ∧
      (tests.mockStorage.Get
        (tests.mockStorage.AcquireLock storageWithZeroStatus "k" 30000000000).2 "k").1 =
          GetResult.hit zeroStatusResponse ∧
      zeroStatusResponse.StatusCode = 0 ∧
      (Handle (testConfig 3) countingHandler (requestWithKey "k") Context.fresh
        storageWithZeroStatus 0).ctx.Writer.status = 200 ∧
      (Handle (testConfig 3) countingHandler (requestWithKey "k") Context.fresh
        storageWithZeroStatus 0).ctx.Writer.body = [69]) := by
  decide

/-- C3, amended: for a request that acquires the lock, on a response not yet
started, and for which `Get` reports a hit with response `r`, the wrapped
handler is not run, the chain is aborted and `Store` is not called; every
value of every header of `r.Headers` is among the values of that header in
the response; the response has status `r.StatusCode` when that is a code from
100 to 999; and when the write of the body succeeds, `Handle` writes exactly
`r.Body` and sends no error object. -/
theorem C3_replay_on_hit {σ η : Type} (m : MiddlewareConfig σ)
    (next : η → List WriterOp × η) (req : Request) (c : Context) (s s1 s2 : σ) (h : η)
    (key tok : String) (r : CapturedResponse)
    (hk : req.GetHeader HeaderIdempotencyKey = key) (hne : key ≠ "")
    (hlen : key.utf8ByteSize ≤ 255)
    (hlock : m.Storage.AcquireLock s key m.LockTTL = ((tok, none), s1))
    (hhit : m.Storage.Get s1 key = (GetResult.hit r, s2)) :
    Event.next ∉ (Handle m next req c s h).trace ∧
    (Handle m next req c s h).handler = h ∧
    (Handle m next req c s h).ctx.aborted = true ∧
    (∀ e ∈ (Handle m next req c s h).trace, e.isStore = false) ∧
    (∀ k vs v, (k, vs) ∈ r.Headers → v ∈ vs →
      v ∈ Header.values (Handle m next req c s h).ctx.Writer.header k) ∧
    (100 ≤ r.StatusCode ∧ r.StatusCode ≤ 999 →
      (Handle m next req c s h).ctx.Writer.status = r.StatusCode) ∧
    (req.writeFails = false →
      (Handle m next req c s h).ctx.Writer.body = c.Writer.body ++ r.Body ∧
      (Handle m next req c s h).ctx.json = c.json) := by
  rw [Handle_locked m next req c s h key tok s1 hk hne hlen hlock,
    handleLocked_hit m next req key c s1 s2 h r hhit]
  refine ⟨by simp, rfl, ?_, ?_, fun k vs v hmem hv => ?_, fun hcode => ?_, fun hw => ?_⟩
  · simp only [writeCachedResponse_aborted]
  · intro e he
    simp at he
    rcases he with he | he | he <;> subst he <;> rfl
  · simp only [writeCachedResponse_writer, Header.values_replay]
    exact List.mem_append_right _ (Header.mem_allValues r.Headers k v vs hmem hv)
  · simp only [writeCachedResponse_writer]
    rw [if_pos (by omega)]
  · refine ⟨by simp [writeCachedResponse_writer, hw], ?_⟩
    simp only [hw, writeCachedResponse_json]

/-- C3, amended, at the stored response of the replay test. -/
theorem C3_replay_on_hit_witness :
    (Handle (testConfig 3) countingHandler (requestWithKey "k") Context.fresh
      storageWithStored 0).ctx.Writer.status = 200 ∧
    (Handle (testConfig 3) countingHandler (requestWithKey "k") Context.fresh
      storageWithStored 0).ctx.Writer.body = [69] ∧
    "idk" ∈ Header.values (Handle (testConfig 3) countingHandler (requestWithKey "k")
      Context.fresh storageWithStored 0).ctx.Writer.header "Custom-Header" :=
  have w := C3_replay_on_hit (testConfig 3) countingHandler (requestWithKey "k") Context.fresh
    storageWithStored
    (tests.mockStorage.AcquireLock storageWithStored "k" 30000000000).2
    (tests.mockStorage.AcquireLock storageWithStored "k" 30000000000).2
    0 "k" "lock-token-k-t" storedResponse rfl (by decide) (by decide) rfl rfl
  ⟨w.2.2.2.2.2.1 (by decide), (w.2.2.2.2.2.2 rfl).1,
    w.2.2.2.2.1 "Custom-Header" ["idk"] "idk" (by decide) (by decide)⟩

/-- C4, as stated, fails. With `RetryCount = 0` over the in-memory storage a
handler answering 200 is run by both requests, and the second response has
another body than the first. With three attempts, a handler that sets the
status 200 after it answered 400 with a body is answered 400 and replayed as
200; a handler that sets a header after the body is started is replayed with
that header, which the first response did not carry; and a handler that sets
the status 0 after 404 is answered 404 and replayed as 200. -/
theorem C4_counterexample :
    ((handleTwice (testConfig 0) countingHandler (requestWithKey "k") (requestWithKey "k")
        (tests.newMockIdempotencyStorage "t") 0).1.ctx.Writer.status = 200 ∧
      ((handleTwice (testConfig 0) countingHandler (requestWithKey "k") (requestWithKey "k")
        (tests.newMockIdempotencyStorage "t") 0).1.trace ++
       (handleTwice (testConfig 0) countingHandler (requestWithKey "k") (requestWithKey "k")
        (tests.newMockIdempotencyStorage "t") 0).2.trace).countP Event.isNext = 2 ∧
      (handleTwice (testConfig 0) countingHandler (requestWithKey "k") (requestWithKey "k")
        (tests.newMockIdempotencyStorage "t") 0).1.ctx.Writer.body = [1] ∧
      (handleTwice (testConfig 0) countingHandler (requestWithKey "k") (requestWithKey "k")
        (tests.newMockIdempotencyStorage "t") 0).2.ctx.Writer.body = [2]) ∧
    ((handleTwice (testConfig 3) statusAfterBodyHandler (requestWithKey "k")
        (requestWithKey "k") (tests.newMockIdempotencyStorage "t") 0).1.ctx.Writer.status = 400 ∧
      (handleTwice (testConfig 3) statusAfterBodyHandler (requestWithKey "k")
        (requestWithKey "k") (tests.newMockIdempotencyStorage "t") 0).2.ctx.Writer.status = 200 ∧
      ((handleTwice (testConfig 3) statusAfterBodyHandler (requestWithKey "k")
        (requestWithKey "k") (tests.newMockIdempotencyStorage "t") 0).1.trace ++
       (handleTwice (testConfig 3) statusAfterBodyHandler (requestWithKey "k")
        (requestWithKey "k") (tests.newMockIdempotencyStorage "t") 0).2.trace).countP
          Event.isNext = 1) ∧
    ((handleTwice (testConfig 3) headerAfterBodyHandler (requestWithKey "k")
        (requestWithKey "k") (tests.newMockIdempotencyStorage "t") 0).1.ctx.Writer.status = 200 ∧
      Header.values (handleTwice (testConfig 3) headerAfterBodyHandler (requestWithKey "k")
        (requestWithKey "k") (tests.newMockIdempotencyStorage "t") 0).1.ctx.Writer.header
          "X-Late" = [] ∧
      Header.values (handleTwice (testConfig 3) headerAfterBodyHandler (requestWithKey "k")
        (requestWithKey "k") (tests.newMockIdempotencyStorage "t") 0).2.ctx.Writer.header
          "X-Late" = ["v"]) ∧
    ((handleTwice (testConfig 3) zeroStatusHandler (requestWithKey "k")
        (requestWithKey "k") (tests.newMockIdempotencyStorage "t") 0).1.ctx.Writer.status = 404 ∧
      (handleTwice (testConfig 3) zeroStatusHandler (requestWithKey "k")
        (requestWithKey "k") (tests.newMockIdempotencyStorage "t") 0).2.ctx.Writer.status =
          200) := by
  decide

/-- C4, amended: over a storage whose `Get` returns what the last successful
`Store` for the key put and whose `Store` for the key does not fail, with
`RetryCount >= 1`, both requests acquiring the lock, no response cached for
the key before the first request, the context of the first request live, the
write of the replayed body succeeding, a wrapped handler that sets the
status, with codes from 100 to 999, and the headers only before it starts the
body, and a first response with status below 500 and not 429: running
`Handle` twice in sequence, each on a fresh context, with the same
idempotency key yields a second response with the same status, the same
values for every header and the same body as the first, and the wrapped
handler is run exactly once in total. -/
theorem C4_replay_after_store {σ η : Type} (m : MiddlewareConfig σ)
    (next : η → List WriterOp × η) (view : σ → String → Option CapturedResponse)
    (req1 req2 : Request) (s : σ) (h : η) (key : String)
    (hlaws : CacheLaws m.Storage view)
    (hstore : ∀ s1 r, (m.Storage.Store s1 key r).1 = none)
    (hretry : 1 ≤ m.RetryCount)
    (hk1 : req1.GetHeader HeaderIdempotencyKey = key)
    (hk2 : req2.GetHeader HeaderIdempotencyKey = key)
    (hne : key ≠ "") (hlen : key.utf8ByteSize ≤ 255)
    (hnew : view s key = none)
    (hlock1 : (m.Storage.AcquireLock s key m.LockTTL).1.2 = none)
    (hlock2 : (m.Storage.AcquireLock (handleTwice m next req1 req2 s h).1.storage key
      m.LockTTL).1.2 = none)
    (hctx : req1.ctxErr = false) (hwrite : req2.writeFails = false)
    (hstaged : staged false (next h).1 = true)
    (hstatus : (handleTwice m next req1 req2 s h).1.ctx.Writer.status < 500 ∧
      (handleTwice m next req1 req2 s h).1.ctx.Writer.status ≠ 429) :
    (handleTwice m next req1 req2 s h).2.ctx.Writer.status =
      (handleTwice m next req1 req2 s h).1.ctx.Writer.status ∧
    (handleTwice m next req1 req2 s h).2.ctx.Writer.body =
      (handleTwice m next req1 req2 s h).1.ctx.Writer.body ∧
    (∀ k, Header.values (handleTwice m next req1 req2 s h).2.ctx.Writer.header k =
      Header.values (handleTwice m next req1 req2 s h).1.ctx.Writer.header k) ∧
    ((handleTwice m next req1 req2 s h).1.trace ++
      (handleTwice m next req1 req2 s h).2.trace).countP Event.isNext = 1 ∧
    (handleTwice m next req1 req2 s h).2.handler =
      (handleTwice m next req1 req2 s h).1.handler := by
  have hcap : (captured (runNext next Context.fresh h).1).StatusCode < 500 ∧
      (captured (runNext next Context.fresh h).1).StatusCode ≠ 429 := by
    have hs := Handle_first_status m next view req1 s h key hlaws hk1 hne hlen hlock1 hnew hctx
      hstaged
    simp only [handleTwice] at hstatus
    rw [hs] at hstatus
    exact hstatus
  obtain ⟨h1a, h1b, h1c, h1d⟩ := Handle_first_run m next view req1 Context.fresh s h key hlaws
    hk1 hne hlen hlock1 hnew hctx hretry hstore hcap
  have hstep := runNext_fresh_inStep next h hstaged
  have hpos : 0 < (captured (runNext next Context.fresh h).1).StatusCode := hstep.2.1
  have hnodup : (Header.keys (captured (runNext next Context.fresh h).1).Headers).Nodup :=
    hstep.2.2.2.1
  simp only [handleTwice] at hlock2 ⊢
  obtain ⟨h2a, h2b, h2c⟩ := Handle_replay_run m next view req2 Context.fresh
    (Handle m next req1 Context.fresh s h).storage (Handle m next req1 Context.fresh s h).handler
    key (captured (runNext next Context.fresh h).1) hlaws hk2 hne hlen hlock2 h1a
  rw [h2a, h2b, h2c, h1c, h1d, responseCapturer.inStep_response _ hstep]
  have hb : Context.fresh.Writer.body = [] := rfl
  have hh : Context.fresh.Writer.header = [] := rfl
  refine ⟨?_, ?_, fun k => ?_, ?_, rfl⟩
  · simp only [writeCachedResponse_writer]
    rw [if_pos hpos]
  · simp [writeCachedResponse_writer, hwrite, hb]
  · simp only [writeCachedResponse_writer, Header.values_replay, hh, Header.values,
      List.nil_append]
    exact Header.allValues_eq_values _ k hnodup
  · simp [List.countP_cons, Event.isNext]

/-- C4, amended, at the in-memory storage, the configuration of the tests and
the counting handler: the second response is the first, and the handler has
run once. -/
theorem C4_replay_after_store_witness :
    (handleTwice (testConfig 3) countingHandler (requestWithKey "k") (requestWithKey "k")
      (tests.newMockIdempotencyStorage "t") 0).2.ctx.Writer.body = [1] ∧
    (handleTwice (testConfig 3) countingHandler (requestWithKey "k") (requestWithKey "k")
      (tests.newMockIdempotencyStorage "t") 0).2.handler = 1 :=
  have w := C4_replay_after_store (testConfig 3) countingHandler (fun st => st.data)
    (requestWithKey "k") (requestWithKey "k") (tests.newMockIdempotencyStorage "t") 0 "k"
    mockStorage_cacheLaws (fun _ _ => rfl) (by decide) rfl rfl (by decide) (by decide) rfl
    (by decide) (by decide) rfl rfl (by decide) (by decide)
  ⟨w.2.1.trans (by decide), w.2.2.2.2.trans (by decide)⟩

/-- C5: when `AcquireLock` succeeds with token `t`, the trace of `Handle` ends
with `ReleaseLock(key, t)` and holds no other `ReleaseLock`, on every path:
the release is called exactly once, with the key and token of the
acquisition, after every other storage call, and on the storage state those
calls left. When `AcquireLock` fails no `ReleaseLock` is called. -/
theorem C5_release_exactly_once {σ η : Type} (m : MiddlewareConfig σ)
    (next : η → List WriterOp × η) (req : Request) (c : Context) (s : σ) (h : η)
    (key : String)
    (hk : req.GetHeader HeaderIdempotencyKey = key) (hne : key ≠ "")
    (hlen : key.utf8ByteSize ≤ 255) :
    ((m.Storage.AcquireLock s key m.LockTTL).1.2 = none →
      (∃ pre, (Handle m next req c s h).trace =
          pre ++ [Event.releaseLock key (m.Storage.AcquireLock s key m.LockTTL).1.1] ∧
        ∀ e ∈ pre, e.isReleaseLock = false) ∧
      (Handle m next req c s h).trace.countP Event.isReleaseLock = 1 ∧
      (Handle m next req c s h).storage =
        (m.Storage.ReleaseLock
          (handleLocked m next req key c (m.Storage.AcquireLock s key m.LockTTL).2 h).storage
          key (m.Storage.AcquireLock s key m.LockTTL).1.1).2) ∧
    ((m.Storage.AcquireLock s key m.LockTTL).1.2 ≠ none →
      ∀ e ∈ (Handle m next req c s h).trace, e.isReleaseLock = false) := by
  rcases hl : m.Storage.AcquireLock s key m.LockTTL with ⟨⟨tok, err⟩, s1⟩
  cases err with
  | some e =>
    rw [Handle_lock_failed m next req c s h key tok e s1 hk hne hlen hl]
    simp [Event.isReleaseLock]
  | none =>
    rw [Handle_locked m next req c s h key tok s1 hk hne hlen hl]
    obtain ⟨rest, hrest, hkinds⟩ := handleLocked_trace m next req key c s1 h
    have hnone : ∀ e ∈ Event.acquireLock key m.LockTTL ::
        (handleLocked m next req key c s1 h).trace, e.isReleaseLock = false := by
      intro e he
      rw [hrest] at he
      simp only [List.mem_cons] at he
      rcases he with he | he | he
      · subst he; rfl
      · subst he; rfl
      · rcases hkinds e he with h1 | h1 | ⟨d, b, h1⟩ <;> subst h1 <;> rfl
    have h0 : (Event.acquireLock key m.LockTTL ::
        (handleLocked m next req key c s1 h).trace).countP Event.isReleaseLock = 0 := by
      rw [List.countP_eq_zero]
      intro e he
      simp [hnone e he]
    refine ⟨fun _ => ⟨⟨Event.acquireLock key m.LockTTL ::
      (handleLocked m next req key c s1 h).trace, by simp, hnone⟩, ?_, rfl⟩, by simp⟩
    have : Event.acquireLock key m.LockTTL ::
        ((handleLocked m next req key c s1 h).trace ++ [Event.releaseLock key tok]) =
        (Event.acquireLock key m.LockTTL :: (handleLocked m next req key c s1 h).trace) ++
          [Event.releaseLock key tok] := by simp
    simp only [this, List.countP_append, h0]
    simp [Event.isReleaseLock]

/-- C5, at the in-memory storage: a stored 200 answer, one release at the end. -/
theorem C5_release_exactly_once_witness :
    (Handle (testConfig 3) countingHandler (requestWithKey "k") Context.fresh
      (tests.newMockIdempotencyStorage "t") 0).trace.countP Event.isReleaseLock = 1 ∧
    (Handle (testConfig 3) countingHandler (requestWithKey "k") Context.fresh
      (tests.newMockIdempotencyStorage "t") 0).trace.getLast? =
        some (Event.releaseLock "k" "lock-token-k-t") :=
  have w := (C5_release_exactly_once (testConfig 3) countingHandler (requestWithKey "k")
    Context.fresh (tests.newMockIdempotencyStorage "t") 0 "k" rfl (by decide) (by decide)).1 rfl
  ⟨w.2.1, by decide⟩

end services

/-! ## The lock of the storage -/

namespace storage

/-- C6: over the key-value model, `ReleaseLock` returns no error for every
store, key and token; it removes the lock entry of the key, and nothing else,
when the stored value equals the token, and leaves the store unchanged when
the value differs or no entry exists. So the entry is deleted if and only if
the stored value equals the token. -/
theorem C6_release_compares_token (db : RedisDB) (key token : String) :
    (ReleaseLock kvClient db key token).1 = none ∧
    (redisGET db (prefixLock ++ key) = some token →
      (ReleaseLock kvClient db key token).2 (prefixLock ++ key) = none ∧
      ∀ k, k ≠ prefixLock ++ key → (ReleaseLock kvClient db key token).2 k = db k) ∧
    (redisGET db (prefixLock ++ key) ≠ some token →
      (ReleaseLock kvClient db key token).2 = db) ∧
    ((db (prefixLock ++ key) ≠ none ∧
        (ReleaseLock kvClient db key token).2 (prefixLock ++ key) = none) ↔
      redisGET db (prefixLock ++ key) = some token) := by
  have herr : (ReleaseLock kvClient db key token).1 = none := by
    simp [ReleaseLock, kvClient]
  have hdb : (ReleaseLock kvClient db key token).2 =
      (releaseLockScript db [prefixLock ++ key] [token]).2 := by
    simp [ReleaseLock, kvClient]
  rw [hdb]
  by_cases hv : redisGET db (prefixLock ++ key) = some token
  · have hsome : ∃ e, db (prefixLock ++ key) = some e := by
      cases hd : db (prefixLock ++ key) with
      | none => simp [redisGET, hd] at hv
      | some e => exact ⟨e, rfl⟩
    obtain ⟨e, he⟩ := hsome
    have hs : (releaseLockScript db [prefixLock ++ key] [token]).2 =
        Function.update db (prefixLock ++ key) none := by
      simp [releaseLockScript, hv, redisDEL, he]
    rw [hs]
    refine ⟨herr, fun _ => ⟨by simp, fun k hk => by simp [Function.update_noteq hk]⟩,
      fun hno => absurd hv hno, ⟨fun _ => hv, fun _ => ⟨by simp [he], by simp⟩⟩⟩
  · have hs : (releaseLockScript db [prefixLock ++ key] [token]).2 = db := by
      simp [releaseLockScript, hv]
    rw [hs]
    refine ⟨herr, fun hyes => absurd hyes hv, fun _ => rfl, ⟨fun hdel => ?_, fun hyes => absurd hyes hv⟩⟩
    exact absurd hdel.2 hdel.1

/-- C6, at a store holding the lock of "k" with the value "tok": a release
with another token leaves the entry, a release with "tok" removes it. -/
theorem C6_release_compares_token_witness :
    (ReleaseLock kvClient (fun k => if k = "idempotency:lock:k" then some ⟨"tok", 30⟩ else none)
      "k" "other").2 "idempotency:lock:k" = some ⟨"tok", 30⟩ ∧
    (ReleaseLock kvClient (fun k => if k = "idempotency:lock:k" then some ⟨"tok", 30⟩ else none)
      "k" "tok").2 "idempotency:lock:k" = none :=
  ⟨by
    rw [(C6_release_compares_token
      (fun k => if k = "idempotency:lock:k" then some ⟨"tok", 30⟩ else none) "k" "other").2.2.1
      (by decide)]
    decide,
   ((C6_release_compares_token
      (fun k => if k = "idempotency:lock:k" then some ⟨"tok", 30⟩ else none) "k" "tok").2.1
      (by decide)).1⟩

/-- C7: for every key: `AcquireLock` on a store without a lock entry for the
key succeeds, returns a non-empty token (32 characters) and records it as the
entry, touching no other key; `AcquireLock` while an entry exists fails and
leaves the store unchanged; and after `ReleaseLock` with the token of the
successful acquisition, `AcquireLock` on the same key succeeds again. This
holds for the redis storage over the key-value model, and, as the last three
parts state, for the in-memory storage of the lock test. -/
theorem C7_lock_lifecycle (db : RedisDB) (rnd rnd2 : Bytes) (key : String) (ttl ttl2 : Int)
    (mk : tests.mockIdempotencyStorage) :
    (db (prefixLock ++ key) = none →
      (AcquireLock kvClient db rnd key ttl).1.2 = none ∧
      (AcquireLock kvClient db rnd key ttl).1.1 ≠ "" ∧
      (AcquireLock kvClient db rnd key ttl).1.1.length = 32 ∧
      (AcquireLock kvClient db rnd key ttl).2 (prefixLock ++ key) =
        some ⟨(AcquireLock kvClient db rnd key ttl).1.1, ttl⟩ ∧
      (∀ k, k ≠ prefixLock ++ key → (AcquireLock kvClient db rnd key ttl).2 k = db k)) ∧
    (db (prefixLock ++ key) ≠ none →
      (AcquireLock kvClient db rnd key ttl).1.2 ≠ none ∧
      (AcquireLock kvClient db rnd key ttl).2 = db) ∧
    (db (prefixLock ++ key) = none →
      (ReleaseLock kvClient (AcquireLock kvClient db rnd key ttl).2 key
        (AcquireLock kvClient db rnd key ttl).1.1).1 = none ∧
      (AcquireLock kvClient
        (ReleaseLock kvClient (AcquireLock kvClient db rnd key ttl).2 key
          (AcquireLock kvClient db rnd key ttl).1.1).2 rnd2 key ttl2).1.2 = none) ∧
    (mk.locks key = none →
      (mk.AcquireLock key ttl).1.2 = none ∧
      (mk.AcquireLock key ttl).1.1 ≠ "" ∧
      (mk.AcquireLock key ttl).2.locks key = some (mk.AcquireLock key ttl).1.1 ∧
      (∀ k, k ≠ key → (mk.AcquireLock key ttl).2.locks k = mk.locks k)) ∧
    (mk.locks key ≠ none →
      (mk.AcquireLock key ttl).1.2 ≠ none ∧
      (mk.AcquireLock key ttl).2.locks = mk.locks) ∧
    (mk.locks key = none →
      ((mk.AcquireLock key ttl).2.ReleaseLock key (mk.AcquireLock key ttl).1.1).1 = none ∧
      ((((mk.AcquireLock key ttl).2.ReleaseLock key (mk.AcquireLock key ttl).1.1).2).AcquireLock
        key ttl2).1.2 = none) := by
  have hacq : db (prefixLock ++ key) = none →
      AcquireLock kvClient db rnd key ttl =
        ((lockToken rnd, none),
          Function.update db (prefixLock ++ key) (some ⟨lockToken rnd, ttl⟩)) := by
    intro hfree
    simp [AcquireLock, kvClient, hfree]
  have hmk : mk.locks key = none →
      mk.AcquireLock key ttl =
        ((tests.generateLockToken key mk.now, none),
          { data := mk.data,
            locks := Function.update mk.locks key (some (tests.generateLockToken key mk.now)),
            now := mk.now }) := by
    intro hfree
    simp [tests.mockIdempotencyStorage.AcquireLock, hfree]
  refine ⟨fun hfree => ?_, fun hheld => ?_, fun hfree => ?_, fun hfree => ?_, fun hheld => ?_,
    fun hfree => ?_⟩
  · rw [hacq hfree]
    exact ⟨rfl, lockToken_ne_empty rnd, lockToken_length rnd, by simp,
      fun k hk => by simp [Function.update_noteq hk]⟩
  · cases hd : db (prefixLock ++ key) with
    | none => exact absurd hd hheld
    | some e => simp [AcquireLock, kvClient, hd]
  · rw [hacq hfree, ReleaseLock_kvClient]
    simp [redisGET, AcquireLock, kvClient]
  · rw [hmk hfree]
    exact ⟨rfl, generateLockToken_ne_empty key mk.now, by simp,
      fun k hk => by simp [Function.update_noteq hk]⟩
  · cases hd : mk.locks key with
    | none => exact absurd hd hheld
    | some e => simp [tests.mockIdempotencyStorage.AcquireLock, hd]
  · rw [hmk hfree]
    simp [tests.mockIdempotencyStorage.ReleaseLock, tests.mockIdempotencyStorage.AcquireLock]

/-- C7, at the empty store and the key of the lock test: the first
acquisition succeeds, and so does one after the release. -/
theorem C7_lock_lifecycle_witness :
    (AcquireLock kvClient (fun _ => none) [1, 2, 3] "test-lock-key" 30).1.2 = none ∧
    (AcquireLock kvClient
      (ReleaseLock kvClient (AcquireLock kvClient (fun _ => none) [1, 2, 3] "test-lock-key" 30).2
        "test-lock-key"
        (AcquireLock kvClient (fun _ => none) [1, 2, 3] "test-lock-key" 30).1.1).2
      [4, 5] "test-lock-key" 30).1.2 = none ∧
    ((tests.newMockIdempotencyStorage "t").AcquireLock "test-lock-key" 30).1.2 = none :=
  have w := C7_lock_lifecycle (fun _ => none) [1, 2, 3] [4, 5] "test-lock-key" 30 30
    (tests.newMockIdempotencyStorage "t")
  ⟨(w.1 rfl).1, (w.2.2.1 rfl).2, (w.2.2.2.1 rfl).1⟩

end storage

/-! ## The idempotency middleware: the key -/

namespace services

/-- C8: for a request whose `Idempotency-Key` header is absent, or present
with an empty first value, `Handle` answers 400, aborts the chain without
running the wrapped handler, and makes no storage call: the trace is empty and
the storage is untouched. -/
theorem C8_missing_key_fails_fast {σ η : Type} (m : MiddlewareConfig σ)
    (next : η → List WriterOp × η) (req : Request) (c : Context) (s : σ) (h : η)
    (hk : Header.values req.Header "Idempotency-Key" = [] ∨
      (Header.values req.Header "Idempotency-Key").head? = some "") :
    (Handle m next req c s h).ctx.Writer.status = 400 ∧
    (Handle m next req c s h).ctx.aborted = true ∧
    (Handle m next req c s h).handler = h ∧
    (Handle m next req c s h).storage = s ∧
    (Handle m next req c s h).trace = [] := by
  have hkey : req.GetHeader HeaderIdempotencyKey = "" := by
    unfold Request.GetHeader Header.get HeaderIdempotencyKey
    rcases hk with hk | hk
    · simp [hk]
    · cases hv : Header.values req.Header "Idempotency-Key" with
      | nil => simp
      | cons a t => simp [hv] at hk; simp [hk]
  rw [Handle_missing m next req c s h hkey,
    sendErrorResponse_eq c StatusBadRequest _ _ (by decide)]
  simp [StatusBadRequest]

/-- C8, at a request without the header. -/
theorem C8_missing_key_fails_fast_witness :
    (Handle (testConfig 3) countingHandler requestWithoutKey Context.fresh
      (tests.newMockIdempotencyStorage "t") 0).ctx.Writer.status = 400 ∧
    (Handle (testConfig 3) countingHandler requestWithoutKey Context.fresh
      (tests.newMockIdempotencyStorage "t") 0).trace = [] :=
  have w := C8_missing_key_fails_fast (testConfig 3) countingHandler requestWithoutKey
    Context.fresh (tests.newMockIdempotencyStorage "t") 0 (Or.inl rfl)
  ⟨w.1, w.2.2.2.2⟩

/-- C9, as stated, fails: for the request without the `Idempotency-Key`
header, over the in-memory storage, the `error_type` of the object `Handle`
sends is "idempotency key missing", not "idempotency_key_missing". -/
theorem C9_counterexample :
    Header.values requestWithoutKey.Header "Idempotency-Key" = [] ∧
    ((Handle (testConfig 3) countingHandler requestWithoutKey Context.fresh
      (tests.newMockIdempotencyStorage "t") 0).ctx.json.bind (List.lookup "error_type")) =
        some "idempotency key missing" ∧
    ((Handle (testConfig 3) countingHandler requestWithoutKey Context.fresh
      (tests.newMockIdempotencyStorage "t") 0).ctx.json.bind (List.lookup "error_type")) ≠
        some "idempotency_key_missing" := by
  decide

/-- C9, amended: for every request without the `Idempotency-Key` header the
object `Handle` sends has the fields `error_type` and `message`, and its
`error_type` is the constant `ErrIdempotencyKeyMissing` of the middleware,
"idempotency key missing", which is not the code
`restapi.ErrTypeIdempotencyKeyMissing`, "idempotency_key_missing". -/
theorem C9_missing_key_error_type {σ η : Type} (m : MiddlewareConfig σ)
    (next : η → List WriterOp × η) (req : Request) (c : Context) (s : σ) (h : η)
    (hk : Header.values req.Header "Idempotency-Key" = []) :
    (Handle m next req c s h).ctx.json =
      some [("error_type", ErrIdempotencyKeyMissing),
        ("message", "No " ++ quote ++ "Idempotency-Key" ++ quote ++ "header provided")] ∧
    ErrIdempotencyKeyMissing = "idempotency key missing" ∧
    ((Handle m next req c s h).ctx.json.bind (List.lookup "error_type")) =
      some "idempotency key missing" ∧
    ((Handle m next req c s h).ctx.json.bind (List.lookup "error_type")) ≠
      some restapi.ErrTypeIdempotencyKeyMissing ∧
    restapi.ErrTypeIdempotencyKeyMissing = "idempotency_key_missing" := by
  have hkey : req.GetHeader HeaderIdempotencyKey = "" := by
    unfold Request.GetHeader Header.get HeaderIdempotencyKey
    simp [hk]
  rw [Handle_missing m next req c s h hkey]
  refine ⟨rfl, rfl, ?_, ?_, rfl⟩
  · simp [sendErrorResponse, List.lookup, ErrIdempotencyKeyMissing]
  · simp [sendErrorResponse, List.lookup, ErrIdempotencyKeyMissing,
      restapi.ErrTypeIdempotencyKeyMissing]

/-- C9, amended, at the request without the header, over the in-memory
storage. -/
theorem C9_missing_key_error_type_witness :
    Header.values requestWithoutKey.Header "Idempotency-Key" = [] ∧
    ((Handle (testConfig 3) countingHandler requestWithoutKey Context.fresh
      (tests.newMockIdempotencyStorage "t") 0).ctx.json.bind (List.lookup "error_type")) =
        some "idempotency key missing" :=
  ⟨by decide, (C9_missing_key_error_type (testConfig 3) countingHandler requestWithoutKey
    Context.fresh (tests.newMockIdempotencyStorage "t") 0 (by decide)).2.2.1⟩

/-- C10, as stated, fails: a key of 128 characters, so at most 255, each of
two bytes, is rejected with 400 and "invalid idempotency key" and no lock is
attempted. -/
theorem C10_counterexample :
    twoByteKey ≠ "" ∧ twoByteKey.length ≤ 255 ∧
    (Handle (testConfig 3) countingHandler (requestWithKey twoByteKey) Context.fresh
      (tests.newMockIdempotencyStorage "t") 0).ctx.Writer.status = 400 ∧
    ((Handle (testConfig 3) countingHandler (requestWithKey twoByteKey) Context.fresh
      (tests.newMockIdempotencyStorage "t") 0).ctx.json.bind (List.lookup "error_type")) =
        some "invalid idempotency key" ∧
    (Handle (testConfig 3) countingHandler (requestWithKey twoByteKey) Context.fresh
      (tests.newMockIdempotencyStorage "t") 0).trace = [] := by
  have hne : twoByteKey ≠ "" := by decide
  have hlen : twoByteKey.length ≤ 255 := by simp [twoByteKey, String.length]
  rw [Handle_long (testConfig 3) countingHandler (requestWithKey twoByteKey) Context.fresh
    (tests.newMockIdempotencyStorage "t") 0
    (by rw [GetHeader_requestWithKey]; exact hne)
    (by rw [GetHeader_requestWithKey, twoByteKey_size]; decide)]
  exact ⟨hne, hlen, rfl, rfl, rfl⟩

/-- C10, amended: a non-empty idempotency key is rejected by `Handle` with 400
and "invalid idempotency key", without any storage call, if and only if its
length in bytes exceeds 255; every non-empty key of at most 255 bytes, one of
exactly 255 included, proceeds to lock acquisition. -/
theorem C10_key_length_in_bytes {σ η : Type} (m : MiddlewareConfig σ)
    (next : η → List WriterOp × η) (req : Request) (c : Context) (s : σ) (h : η)
    (key : String)
    (hk : req.GetHeader HeaderIdempotencyKey = key) (hne : key ≠ "") :
    (((Handle m next req c s h).ctx.Writer.status = 400 ∧
        ((Handle m next req c s h).ctx.json.bind (List.lookup "error_type")) =
          some "invalid idempotency key" ∧
        (Handle m next req c s h).ctx.aborted = true ∧
        (Handle m next req c s h).trace = []) ↔ 255 < key.utf8ByteSize) ∧
    (key.utf8ByteSize ≤ 255 →
      (Handle m next req c s h).trace.head? = some (Event.acquireLock key m.LockTTL)) := by
  have hhead : key.utf8ByteSize ≤ 255 →
      (Handle m next req c s h).trace.head? = some (Event.acquireLock key m.LockTTL) := by
    intro hlen
    rcases hl : m.Storage.AcquireLock s key m.LockTTL with ⟨⟨tok, err⟩, s1⟩
    cases err with
    | some e => rw [Handle_lock_failed m next req c s h key tok e s1 hk hne hlen hl]; rfl
    | none => rw [Handle_locked m next req c s h key tok s1 hk hne hlen hl]; rfl
  refine ⟨⟨fun hrej => ?_, fun hlong => ?_⟩, hhead⟩
  · by_contra hnot
    have hh := hhead (Nat.le_of_not_lt hnot)
    rw [hrej.2.2.2] at hh
    simp at hh
  · rw [Handle_long m next req c s h (by rw [hk]; exact hne) (by rw [hk]; exact hlong),
      sendErrorResponse_eq c StatusBadRequest _ _ (by decide)]
    simp [StatusBadRequest, ErrInvalidIdempotencyKey, List.lookup]

/-- C10, amended, at a key of exactly 255 bytes: it proceeds to the lock. -/
theorem C10_key_length_in_bytes_witness :
    (String.mk (List.replicate 255 (Char.ofNat 97))).utf8ByteSize = 255 ∧
    (Handle (testConfig 3) countingHandler
      (requestWithKey (String.mk (List.replicate 255 (Char.ofNat 97)))) Context.fresh
      (tests.newMockIdempotencyStorage "t") 0).trace.head? =
      some (Event.acquireLock (String.mk (List.replicate 255 (Char.ofNat 97))) 30000000000) :=
  have hsize : (String.mk (List.replicate 255 (Char.ofNat 97))).utf8ByteSize = 255 := by
    rw [utf8ByteSize_replicate]; decide
  ⟨hsize, (C10_key_length_in_bytes (testConfig 3) countingHandler
    (requestWithKey (String.mk (List.replicate 255 (Char.ofNat 97)))) Context.fresh
    (tests.newMockIdempotencyStorage "t") 0 (String.mk (List.replicate 255 (Char.ofNat 97)))
    (GetHeader_requestWithKey _) (by simp)).2 (le_of_eq hsize)⟩

end services

/-! ## The retry loop of the store -/

namespace services

theorem failedRounds_count (delay : Int) (key : String) (resp : CapturedResponse) (i a : Nat) :
    (failedRounds delay key resp i a).countP Event.isStore = a := by
  induction a generalizing i with
  | zero => simp [failedRounds]
  | succ k ih => simp [failedRounds, List.countP_cons, Event.isStore, ih]

theorem storeOutcomes_length {σ : Type} (S : IdempotencyStorage σ) (key : String)
    (resp : CapturedResponse) (k : Nat) (s : σ) :
    (storeOutcomes S key resp k s).length = k := by
  induction k generalizing s with
  | zero => rfl
  | succ n ih => simp [storeOutcomes, ih]

theorem storeOutcomes_lt {σ : Type} (S : IdempotencyStorage σ) (key : String)
    (resp : CapturedResponse) (k a : Nat) (s : σ) (r : Option String)
    (h : (storeOutcomes S key resp k s)[a]? = some r) : a < k := by
  have hl := storeOutcomes_length S key resp k s
  obtain ⟨hlt, _⟩ := List.getElem?_eq_some_iff.mp h
  omega

/-- The retry loop from attempt `i` on: `a` failed rounds, then the end. -/
theorem storeLoop_shape {σ : Type} (m : MiddlewareConfig σ) (ctxDone : Nat → Bool)
    (key : String) (resp : CapturedResponse) (n i : Nat) (s : σ) :
    ∃ a tail, a ≤ n ∧
      (storeLoop m ctxDone key resp n i s).2 =
        failedRounds m.RetryDelay key resp i a ++ tail ∧
      (∀ j, j < a → (∃ e, (storeOutcomes m.Storage key resp n s)[j]? = some (some e)) ∧
        ctxDone (i + j) = false) ∧
      ((tail = [] ∧ a = n) ∨
       (tail = [Event.store key resp] ∧
         (storeOutcomes m.Storage key resp n s)[a]? = some none) ∨
       (tail = [Event.store key resp,
           Event.wait (wrapInt64 (m.RetryDelay * (((i + a : Nat) : Int) + 1))) true] ∧
         (∃ e, (storeOutcomes m.Storage key resp n s)[a]? = some (some e)) ∧
         ctxDone (i + a) = true)) := by
  induction n generalizing i s with
  | zero =>
    exact ⟨0, [], le_refl 0, by simp [storeLoop, failedRounds], by simp, Or.inl ⟨rfl, rfl⟩⟩
  | succ k ih =>
    rcases hs : m.Storage.Store s key resp with ⟨err, s1⟩
    cases err with
    | none =>
      refine ⟨0, [Event.store key resp], Nat.zero_le _, ?_, by simp, Or.inr (Or.inl ⟨rfl, ?_⟩)⟩
      · simp [storeLoop, hs, failedRounds]
      · simp [storeOutcomes, hs]
    | some e =>
      by_cases hd : ctxDone i = true
      · refine ⟨0, _, Nat.zero_le _, ?_, by simp, Or.inr (Or.inr ⟨rfl, ?_, by simpa using hd⟩)⟩
        · simp [storeLoop, hs, hd, failedRounds]
        · exact ⟨e, by simp [storeOutcomes, hs]⟩
      · obtain ⟨a, tail, hle, htr, hfail, hend⟩ := ih (i + 1) s1
        have hs1 : (m.Storage.Store s key resp).2 = s1 := by rw [hs]
        have hs0 : (m.Storage.Store s key resp).1 = some e := by rw [hs]
        refine ⟨a + 1, tail, Nat.succ_le_succ hle, ?_, ?_, ?_⟩
        · simp only [storeLoop, hs, hd]
          simp [failedRounds, htr]
        · intro j hj
          cases j with
          | zero => exact ⟨⟨e, by simp [storeOutcomes, hs0]⟩, by simpa using hd⟩
          | succ j' =>
            have := hfail j' (by omega)
            refine ⟨?_, ?_⟩
            · simpa [storeOutcomes, hs1] using this.1
            · have h2 := this.2
              rw [show i + (j' + 1) = i + 1 + j' from by omega]
              exact h2
        · rcases hend with ⟨h1, h2⟩ | ⟨h1, h2⟩ | ⟨h1, h2, h3⟩
          · exact Or.inl ⟨h1, by omega⟩
          · refine Or.inr (Or.inl ⟨h1, ?_⟩)
            simpa [storeOutcomes, hs1] using h2
          · refine Or.inr (Or.inr ⟨?_, ?_, ?_⟩)
            · rw [h1, show i + (a + 1) = i + 1 + a from by omega]
            · simpa [storeOutcomes, hs1] using h2
            · rw [show i + (a + 1) = i + 1 + a from by omega]
              exact h3

/-- C11: for every `RetryCount`, storage and cancellation pattern,
`storeResponseWithRetry` returns (the loop runs at most `RetryCount` rounds)
and its events are `a` failed rounds followed by an end, with `a` at most
`n = RetryCount` (0 when negative). Each failed round is a `Store` that
returned an error and a full wait of `RetryDelay * i` after the `i`-th attempt
counted from 1, the product being the 64-bit one. The end is nothing, after
`n` failed rounds; or the first successful `Store`, with nothing after it; or
a failed `Store` and a wait cut by the cancellation, with no further `Store`.
So `Store` is called at most `n` times, and for the key and response given.
No error reaches the caller: on the execution path the context `Handle`
leaves is the one after the handler, whatever `Store` returned. -/
theorem C11_store_retry_bounded {σ η : Type} (m : MiddlewareConfig σ) (ctxDone : Nat → Bool)
    (key : String) (resp : CapturedResponse) (s : σ) :
    (∃ a tail, a ≤ m.RetryCount.toNat ∧
      (storeResponseWithRetry m ctxDone key resp s).2 =
        failedRounds m.RetryDelay key resp 0 a ++ tail ∧
      (∀ j, j < a →
        (∃ e, (storeOutcomes m.Storage key resp m.RetryCount.toNat s)[j]? = some (some e)) ∧
        ctxDone j = false) ∧
      ((tail = [] ∧ a = m.RetryCount.toNat) ∨
       (tail = [Event.store key resp] ∧
         (storeOutcomes m.Storage key resp m.RetryCount.toNat s)[a]? = some none) ∨
       (tail = [Event.store key resp,
           Event.wait (wrapInt64 (m.RetryDelay * ((a : Int) + 1))) true] ∧
         (∃ e, (storeOutcomes m.Storage key resp m.RetryCount.toNat s)[a]? = some (some e)) ∧
         ctxDone a = true))) ∧
    (storeResponseWithRetry m ctxDone key resp s).2.countP Event.isStore ≤ m.RetryCount.toNat ∧
    (∀ e ∈ (storeResponseWithRetry m ctxDone key resp s).2, e.isStore = true →
      e = Event.store key resp) ∧
    (∀ (j : Nat), -9223372036854775808 ≤ m.RetryDelay * ((j : Int) + 1) →
      m.RetryDelay * ((j : Int) + 1) < 9223372036854775808 →
      wrapInt64 (m.RetryDelay * ((j : Int) + 1)) = m.RetryDelay * ((j : Int) + 1)) ∧
    (∀ (next : η → List WriterOp × η) (req : Request) (c : Context) (s0 : σ) (h : η),
      m.Storage.Get s0 key = (GetResult.miss, s) → req.ctxErr = false →
      (handleLocked m next req key c s0 h).ctx =
        { c with Writer := (runNext next c h).1.ResponseWriter }) := by
  obtain ⟨a, tail, hle, htr, hfail, hend⟩ :=
    storeLoop_shape m ctxDone key resp m.RetryCount.toNat 0 s
  have hshape : (storeResponseWithRetry m ctxDone key resp s).2 =
      failedRounds m.RetryDelay key resp 0 a ++ tail := htr
  refine ⟨⟨a, tail, hle, hshape, ?_, ?_⟩, ?_, ?_, ?_, ?_⟩
  · intro j hj
    have := hfail j hj
    simpa using this
  · rcases hend with h | h | h
    · exact Or.inl h
    · exact Or.inr (Or.inl h)
    · refine Or.inr (Or.inr ?_)
      simpa using h
  · rw [hshape, List.countP_append, failedRounds_count]
    rcases hend with ⟨h1, h2⟩ | ⟨h1, h2⟩ | ⟨h1, h2, h3⟩
    · simp [h1, hle]
    · have hlt : a < m.RetryCount.toNat := storeOutcomes_lt _ _ _ _ _ _ _ h2
      simp [h1, Event.isStore]
      omega
    · obtain ⟨e, he⟩ := h2
      have hlt : a < m.RetryCount.toNat := storeOutcomes_lt _ _ _ _ _ _ _ he
      simp [h1, Event.isStore, List.countP_cons]
      omega
  · intro e he hs
    rcases storeLoop_events m ctxDone key resp m.RetryCount.toNat 0 s e he with h1 | ⟨d, b, h1⟩
    · exact h1
    · subst h1; simp [Event.isStore] at hs
  · intro j hlo hhi
    unfold wrapInt64
    omega
  · intro next req c s0 h hmiss hctx
    exact (handleLocked_miss_ctx m next req key c s0 s h hmiss hctx).1

/-- C11, at a storage whose `Store` fails once and then succeeds, with three
attempts allowed: one failed round with a wait of 10 ms, then the successful
`Store`. -/
theorem C11_store_retry_bounded_witness :
    (storeResponseWithRetry failingConfig (fun _ => false) "k" storedResponse 1).2.countP
      Event.isStore ≤ 3 ∧
    (storeResponseWithRetry failingConfig (fun _ => false) "k" storedResponse 1).2 =
      [Event.store "k" storedResponse, Event.wait 10000000 false,
       Event.store "k" storedResponse] :=
  ⟨(C11_store_retry_bounded (η := Unit) failingConfig (fun _ => false) "k" storedResponse
    1).2.1, by decide⟩

end services

/-! ## Lemmas on claims and signing methods -/

namespace golangjwt

theorem Claims.get_set (c : Claims) (k key : String) (v : Value) :
    (c.set k v).get key = if k = key then some v else c.get key := by
  induction c with
  | nil => by_cases hk : k = key <;> simp [Claims.set, Claims.get, hk]
  | cons e t ih =>
    obtain ⟨k0, v0⟩ := e
    by_cases h0 : k0 = k
    · subst h0
      by_cases hk : k0 = key <;> simp [Claims.set, Claims.get, hk]
    · by_cases hk : k = key
      · subst hk
        simp [Claims.set, Claims.get, h0, ih]
      · by_cases h1 : k0 = key
        · subst h1
          simp [Claims.set, Claims.get, h0, hk]
        · simp [Claims.set, Claims.get, h0, h1, hk, ih]

theorem Claims.get_set_self (c : Claims) (k : String) (v : Value) :
    (c.set k v).get k = some v := by
  simp [Claims.get_set]

theorem Claims.get_set_ne (c : Claims) (k key : String) (v : Value) (h : k ≠ key) :
    (c.set k v).get key = c.get key := by
  simp [Claims.get_set, h]

theorem Claims.get_json (c : Claims) (key : String) :
    c.json.get key = (c.get key).map Value.json := by
  induction c with
  | nil => rfl
  | cons e t ih =>
    obtain ⟨k0, v0⟩ := e
    simp only [Claims.json] at ih
    by_cases h0 : k0 = key <;> simp [Claims.json, Claims.get, h0, ih]

/-- A registered method is registered under its own name. -/
theorem GetSigningMethod_alg (alg : String) (m : SigningMethod)
    (h : GetSigningMethod alg = some m) : m.alg = alg := by
  unfold GetSigningMethod at h
  split_ifs at h <;> simp at h <;> rw [← h]

theorem GetSigningMethod_self (alg : String) (m : SigningMethod)
    (h : GetSigningMethod alg = some m) : GetSigningMethod m.alg = some m := by
  rw [GetSigningMethod_alg alg m h]
  exact h

/-- For a registered method the test of the prefix "HS" is the test of the
HMAC family. -/
theorem hasPrefixHS_iff (alg : String) (m : SigningMethod)
    (h : GetSigningMethod alg = some m) : hasPrefixHS m.alg = true ↔ m.family = Family.hmac := by
  unfold GetSigningMethod at h
  split_ifs at h with h1 h2 h3 h4 h5 h6 <;> simp at h <;> rw [← h]
  · rcases h1 with h1 | h1 | h1 <;> subst h1 <;> decide
  · rcases h2 with h2 | h2 | h2 <;> subst h2 <;> decide
  · rcases h3 with h3 | h3 | h3 <;> subst h3 <;> decide
  · rcases h4 with h4 | h4 | h4 <;> subst h4 <;> decide
  · subst h5; decide
  · subst h6; decide

theorem Unix_add_seconds (t k : Int) : Unix (t + k * second) = Unix t + k := by
  unfold Unix second
  omega

theorem Unix_mono (a b : Int) (h : a ≤ b) : Unix a ≤ Unix b := by
  unfold Unix second
  omega

end golangjwt

namespace jwt

open golangjwt

theorem inject_get_iat (conf : Config) (now : Int) (claims : Claims) :
    (inject conf now claims).get "iat" = some (.int (Unix now)) := by
  unfold inject
  simp [Claims.get_set]

theorem inject_get_exp (conf : Config) (now : Int) (claims : Claims) :
    (inject conf now claims).get "exp" = some (.int (Unix (now + conf.Lifetime))) := by
  unfold inject
  simp [Claims.get_set]

/-- The injection leaves every claim that is not reserved. -/
theorem inject_get_other (conf : Config) (now : Int) (claims : Claims) (key : String)
    (hk : key ∉ reserved) : (inject conf now claims).get key = claims.get key := by
  simp only [reserved, List.mem_cons, List.mem_singleton, List.not_mem_nil, or_false,
    not_or] at hk
  obtain ⟨h1, h2, h3, h4, h5, _⟩ := hk
  unfold inject
  simp only [Claims.get_set, Ne.symm h4, Ne.symm h5, if_false]
  by_cases ht : conf.Typ ≠ "" <;> by_cases ha : conf.Audience.length ≠ 0 <;>
    by_cases hi : conf.Issuer ≠ "" <;>
    simp [ht, ha, hi, Claims.get_set, Ne.symm h1, Ne.symm h2, Ne.symm h3]

/-- With a known method and its key present `Generate` signs the injected
claims; when the keys match, the key function of `Parse` yields a key under
which the signature verifies. -/
theorem Generate_ok (conf : Config) (now : Int) (claims : Claims)
    (h : conf.keyPresent = true) :
    ∃ meth sig, GetSigningMethod conf.SigningMethod = some meth ∧
      Generate conf now claims =
        ⟨.jws meth.alg (inject conf now claims).json sig, none, inject conf now claims⟩ ∧
      (conf.keysMatch = true →
        ∃ key, keyFunc conf meth = .key key ∧ Verify meth key sig = true) := by
  unfold Config.keyPresent at h
  cases hm : GetSigningMethod conf.SigningMethod with
  | none => simp [hm] at h
  | some meth =>
    rw [hm] at h
    have hpre := hasPrefixHS_iff conf.SigningMethod meth hm
    cases hf : meth.family with
    | hmac =>
      simp only [hf] at h
      have hsym : isSymmetricMethod meth = true := hpre.mpr hf
      have hlen : conf.SymmetricKey.length ≠ 0 := by simpa using h
      refine ⟨meth, .signed meth.alg (.bytes conf.SymmetricKey), rfl, ?_, ?_⟩
      · simp [Generate, hm, hsym, hlen, Sign, hf]
      · intro _
        exact ⟨.bytes conf.SymmetricKey, by simp [keyFunc, hm, hf], by simp [Verify, hf]⟩
    | rsa =>
      simp only [hf] at h
      have hsym : isSymmetricMethod meth = false := by
        cases hb : isSymmetricMethod meth with
        | false => rfl
        | true => have := hpre.mp hb; rw [hf] at this; cases this
      cases hp : conf.privateKey with
      | none => simp [hp] at h
      | some id =>
        refine ⟨meth, .signed meth.alg (.rsaPrivate id), rfl, ?_, ?_⟩
        · simp [Generate, hm, hsym, hp, Sign, hf]
        · intro hmatch
          have hpub : conf.publicKey = some id := by
            simp [Config.keysMatch, hm, hf, hp] at hmatch
            exact hmatch
          exact ⟨.rsaPublic id, by simp [keyFunc, hm, hf, hpub], by simp [Verify, hf]⟩
    | rsapss =>
      simp only [hf] at h
      have hsym : isSymmetricMethod meth = false := by
        cases hb : isSymmetricMethod meth with
        | false => rfl
        | true => have := hpre.mp hb; rw [hf] at this; cases this
      cases hp : conf.privateKey with
      | none => simp [hp] at h
      | some id =>
        refine ⟨meth, .signed meth.alg (.rsaPrivate id), rfl, ?_, ?_⟩
        · simp [Generate, hm, hsym, hp, Sign, hf]
        · intro hmatch
          have hpub : conf.publicKey = some id := by
            simp [Config.keysMatch, hm, hf, hp] at hmatch
            exact hmatch
          exact ⟨.rsaPublic id, by simp [keyFunc, hm, hf, hpub], by simp [Verify, hf]⟩
    | ecdsa => simp [hf] at h
    | eddsa => simp [hf] at h
    | none => simp [hf] at h

end jwt

namespace internaljwt

open golangjwt

theorem inject_iat (conf : Config) (now : Int) (claims : Claims) :
    (inject conf now claims).get "iat" = some (.int (Unix now)) := by
  unfold inject
  simp [Claims.get_set]

theorem inject_exp (conf : Config) (now : Int) (claims : Claims) :
    (inject conf now claims).get "exp" = some (.int (Unix (now + conf.Lifetime))) := by
  unfold inject
  simp [Claims.get_set]

/-- With a known method and its key present `Generate` returns, having signed
the injected claims. -/
theorem Generate_ret (conf : Config) (now : Int) (claims : Claims)
    (h : conf.keyPresent = true) :
    ∃ meth sig, GetSigningMethod conf.SigningMethod = some meth ∧
      Generate conf now claims =
        .ret ⟨.jws meth.alg (inject conf now claims).json sig, none, inject conf now claims⟩ := by
  unfold Config.keyPresent at h
  cases hm : GetSigningMethod conf.SigningMethod with
  | none => simp [hm] at h
  | some meth =>
    rw [hm] at h
    have hpre := hasPrefixHS_iff conf.SigningMethod meth hm
    cases hf : meth.family with
    | hmac =>
      have hsym : isSymmetricMethod meth = true := hpre.mpr hf
      exact ⟨meth, .signed meth.alg (.bytes conf.SymmetricKey), rfl,
        by simp [Generate, hm, hsym, Sign, hf]⟩
    | rsa =>
      simp only [hf] at h
      have hsym : isSymmetricMethod meth = false := by
        cases hb : isSymmetricMethod meth with
        | false => rfl
        | true => have := hpre.mp hb; rw [hf] at this; cases this
      cases hp : conf.privateKey with
      | none => simp [hp] at h
      | some id =>
        exact ⟨meth, .signed meth.alg (.rsaPrivate id), rfl,
          by simp [Generate, hm, hsym, hp, Sign, hf]⟩
    | rsapss =>
      simp only [hf] at h
      have hsym : isSymmetricMethod meth = false := by
        cases hb : isSymmetricMethod meth with
        | false => rfl
        | true => have := hpre.mp hb; rw [hf] at this; cases this
      cases hp : conf.privateKey with
      | none => simp [hp] at h
      | some id =>
        exact ⟨meth, .signed meth.alg (.rsaPrivate id), rfl,
          by simp [Generate, hm, hsym, hp, Sign, hf]⟩
    | ecdsa => simp [hf] at h
    | eddsa => simp [hf] at h
    | none => simp [hf] at h

end internaljwt

namespace golangjwt

/-- Up to 2^53 in magnitude an integer is a `float64`. -/
theorem float64_exact (n : Int) (h : n.natAbs ≤ 2 ^ 53) : float64 n = n := by
  unfold float64
  simp only
  rw [if_pos h]

end golangjwt

/-! ## The token codec: issued-at and expiry -/

namespace jwt

open golangjwt

/-- C13, as stated, fails: at a current time with a fractional second of 700
ms and a lifetime of half a second, `Generate` succeeds and sets `iat` to
1768015810 and `exp` to 1768015811, which is not `iat` plus the lifetime,
neither the exact lifetime nor its whole seconds. -/
theorem C13_counterexample :
    halfSecondConfig.keyPresent = true ∧
    (Generate halfSecondConfig testNow []).err = none ∧
    (Generate halfSecondConfig testNow []).claims.get "iat" = some (.int 1768015810) ∧
    (Generate halfSecondConfig testNow []).claims.get "exp" = some (.int 1768015811) ∧
    (1768015811 : Int) * second ≠ 1768015810 * second + halfSecondConfig.Lifetime ∧
    (1768015811 : Int) ≠ 1768015810 + halfSecondConfig.Lifetime / second := by
  decide

/-- C13, amended: for every configuration with a known signing method and its
key present, of either package, every claim set and every current time, after
`Generate` the claim `iat` is the current Unix time in whole seconds and the
claim `exp` is the Unix time in whole seconds of the current time plus the
lifetime, in the map of the caller and, as the `float64` nearest, which up to
2^53 in magnitude is the number itself, in the token. When the lifetime is a
whole number `k` of seconds, `exp` is `iat + k` for every current time,
fractional seconds included; for any lifetime `exp` is `iat` plus the whole
seconds of the lifetime, or one second more. -/
theorem C13_iat_exp (conf : Config) (iconf : internaljwt.Config) (now : Int) (claims : Claims)
    (hkey : conf.keyPresent = true) (hikey : iconf.keyPresent = true) :
    ((Generate conf now claims).err = none ∧
      (Generate conf now claims).claims.get "iat" = some (.int (Unix now)) ∧
      (Generate conf now claims).claims.get "exp" = some (.int (Unix (now + conf.Lifetime))) ∧
      ∃ alg payload sig, (Generate conf now claims).token = .jws alg payload sig ∧
        payload.get "iat" = some (.float (float64 (Unix now))) ∧
        payload.get "exp" = some (.float (float64 (Unix (now + conf.Lifetime))))) ∧
    (∃ g, internaljwt.Generate iconf now claims = .ret g ∧ g.err = none ∧
      g.claims.get "iat" = some (.int (Unix now)) ∧
      g.claims.get "exp" = some (.int (Unix (now + iconf.Lifetime))) ∧
      ∃ alg payload sig, g.token = .jws alg payload sig ∧
        payload.get "iat" = some (.float (float64 (Unix now))) ∧
        payload.get "exp" = some (.float (float64 (Unix (now + iconf.Lifetime))))) ∧
    (∀ k : Int, conf.Lifetime = k * second → Unix (now + conf.Lifetime) = Unix now + k) ∧
    (∀ k : Int, iconf.Lifetime = k * second → Unix (now + iconf.Lifetime) = Unix now + k) ∧
    (∀ lifetime : Int, Unix now + lifetime / second ≤ Unix (now + lifetime) ∧
      Unix (now + lifetime) ≤ Unix now + lifetime / second + 1) ∧
    (∀ n : Int, n.natAbs ≤ 2 ^ 53 → float64 n = n) := by
  obtain ⟨meth, sig, _, hg, _⟩ := Generate_ok conf now claims hkey
  obtain ⟨imeth, isig, _, hig⟩ := internaljwt.Generate_ret iconf now claims hikey
  refine ⟨?_, ?_, ?_, ?_, ?_, float64_exact⟩
  · rw [hg]
    refine ⟨rfl, inject_get_iat conf now claims, inject_get_exp conf now claims,
      meth.alg, _, sig, rfl, ?_, ?_⟩
    · simp [Claims.get_json, inject_get_iat, Value.json]
    · simp [Claims.get_json, inject_get_exp, Value.json]
  · refine ⟨_, hig, rfl, internaljwt.inject_iat iconf now claims,
      internaljwt.inject_exp iconf now claims, imeth.alg, _, isig, rfl, ?_, ?_⟩
    · simp [Claims.get_json, internaljwt.inject_iat, Value.json]
    · simp [Claims.get_json, internaljwt.inject_exp, Value.json]
  · intro k hk
    rw [hk, Unix_add_seconds]
  · intro k hk
    rw [hk, Unix_add_seconds]
  · intro lifetime
    unfold Unix second
    omega

/-- C13, amended, at the access configuration of the tests, whose lifetime is
900 whole seconds, and a current time with a fractional second. -/
theorem C13_iat_exp_witness :
    (Generate testAccessConfig testNow []).claims.get "iat" = some (.int (Unix testNow)) ∧
    Unix (testNow + testAccessConfig.Lifetime) = Unix testNow + 900 :=
  have w := C13_iat_exp testAccessConfig internaljwt.symConfig testNow [] (by decide) (by decide)
  ⟨w.1.2.1, w.2.2.1 900 rfl⟩

end jwt

/-! ## The token codec: round trip -/

namespace golangjwt

theorem truncate_intCast (n : Int) : truncate (n : Rat) = n := by
  unfold truncate
  split <;> rfl

end golangjwt

namespace jwt

open golangjwt

/-- The token of a successful `Generate`, parsed with the same configuration
when the claims validate: the claims come back as JSON decodes them, with
`iat` and `exp` as integers and a fresh `jti`. -/
theorem Parse_generated (conf : Config) (now now2 : Int) (uuid : String) (claims : Claims)
    (hkey : conf.keyPresent = true) (hmatch : conf.keysMatch = true)
    (hvalid : (validV4 now2 (inject conf now claims).json).valid = true) :
    Parse conf now2 uuid (Generate conf now claims).token =
      .ok ((((inject conf now claims).json.set "iat" (.int (float64 (Unix now)))).set "exp"
        (.int (float64 (Unix (now + conf.Lifetime))))).set "jti" (.str uuid)) := by
  obtain ⟨meth, sig, hm, hg, hv⟩ := Generate_ok conf now claims hkey
  obtain ⟨key, hkf, hver⟩ := hv hmatch
  rw [hg]
  have hself := GetSigningMethod_self _ _ hm
  have hiat : (inject conf now claims).json.get "iat" =
      some (.float (float64 (Unix now))) := by
    simp [Claims.get_json, inject_get_iat, Value.json]
  have hexp : ((inject conf now claims).json.set "iat" (.int (float64 (Unix now)))).get "exp" =
      some (.float (float64 (Unix (now + conf.Lifetime)))) := by
    rw [Claims.get_set_ne _ _ _ _ (by decide)]
    simp [Claims.get_json, inject_get_exp, Value.json]
  simp only [Parse, ParseWithClaims, hself, hkf, hver, hvalid, if_true, toInt64, hiat, hexp,
    truncate_intCast]

/-- At the time of generation the injected claims validate, when the lifetime
is at least a second, the caller set no `nbf`, and the seconds of the
generation and of the expiry are `float64` numbers. -/
theorem valid_at_generation (conf : Config) (now : Int) (claims : Claims)
    (hlife : second ≤ conf.Lifetime) (hnbf : claims.get "nbf" = none)
    (hiatr : (Unix now).natAbs ≤ 2 ^ 53)
    (hexpr : (Unix (now + conf.Lifetime)).natAbs ≤ 2 ^ 53) :
    (validV4 now (inject conf now claims).json).valid = true := by
  have hiat : (inject conf now claims).json.get "iat" = some (.float (Unix now)) := by
    simp [Claims.get_json, inject_get_iat, Value.json, float64_exact _ hiatr]
  have hexp : (inject conf now claims).json.get "exp" =
      some (.float (Unix (now + conf.Lifetime))) := by
    simp [Claims.get_json, inject_get_exp, Value.json, float64_exact _ hexpr]
  have hn : (inject conf now claims).json.get "nbf" = none := by
    rw [Claims.get_json, inject_get_other conf now claims "nbf" (by decide), hnbf]
    rfl
  have hlt : Unix now < Unix (now + conf.Lifetime) := by
    have h1 := Unix_mono (now + second) (now + conf.Lifetime) (by omega)
    have h2 := Unix_add_seconds now 1
    simp only [one_mul] at h2
    omega
  have hfl : ∀ n : Int, (n : Rat).floor = n := fun _ => rfl
  simp only [ValidationError.valid, validV4, verifyExpV4, verifyIatV4, verifyNbfV4, hiat, hexp,
    hn, hfl]
  by_cases h0 : ((Unix now : Int) : Rat) = 0 <;>
    by_cases h1 : ((Unix (now + conf.Lifetime) : Int) : Rat) = 0 <;> simp [h0, h1, hlt]

/-- C14, as stated, fails. A claim set with the reserved name `jti` does not
come back with its value: `Parse` returns the fresh identifier instead. An
integer claim of 2^53 + 1 comes back as the number 2^53, the nearest
`float64`. And at a current time of 2^53 + 3 seconds the `iat` of the token
is read as 2^53 + 4, a second not yet reached, and `Parse` fails. -/
theorem C14_counterexample :
    testAccessConfig.keyPresent = true ∧ testAccessConfig.keysMatch = true ∧
    0 < testAccessConfig.Lifetime ∧
    (Claims.get [("jti", Value.str "original")] "jti" = some (.str "original") ∧
      ∃ u, Parse testAccessConfig testNow testUUID
          (Generate testAccessConfig testNow [("jti", Value.str "original")]).token = .ok u ∧
        u.get "jti" = some (.str testUUID) ∧ u.get "jti" ≠ some (.str "original")) ∧
    (∃ u, Parse testAccessConfig testNow testUUID
          (Generate testAccessConfig testNow [("n", Value.int 9007199254740993)]).token = .ok u ∧
        u.get "n" = some (.float 9007199254740992)) ∧
    Parse testAccessConfig farNow testUUID
      (Generate testAccessConfig farNow []).token = .error .ErrInvalidToken := by
  refine ⟨by decide, by decide, by decide, ⟨by decide, _, rfl, by decide, by decide⟩,
    ⟨_, rfl, by decide⟩, by decide⟩

/-- C14, amended: for every configuration with a known signing method, its
key present and matching, and a lifetime of at least one second, every claim
set without `nbf`, and a time of generation and of expiry within 2^53 seconds
of the epoch, `Parse(config, Generate(config, claims))` evaluated at the time
of generation succeeds, and for every claim name of the original claim set
other than `iss`, `aud`, `typ`, `iat`, `exp` and `jti` the returned claims
map it to the original value as JSON decodes it: the value itself for a
string, a boolean and `nil`, the nearest `float64` for an integer, which is
the integer itself up to 2^53 in magnitude. The returned `iat` and `exp` are
the whole seconds `Generate` set and `jti` is the fresh identifier. -/
theorem C14_round_trip (conf : Config) (now : Int) (uuid : String) (claims : Claims)
    (hkey : conf.keyPresent = true) (hmatch : conf.keysMatch = true)
    (hlife : second ≤ conf.Lifetime) (hnbf : claims.get "nbf" = none)
    (hiatr : (Unix now).natAbs ≤ 2 ^ 53)
    (hexpr : (Unix (now + conf.Lifetime)).natAbs ≤ 2 ^ 53) :
    ∃ u, Parse conf now uuid (Generate conf now claims).token = .ok u ∧
      (∀ k v, k ∉ reserved → claims.get k = some v → u.get k = some v.json) ∧
      (∀ k s, k ∉ reserved → claims.get k = some (.str s) → u.get k = some (.str s)) ∧
      (∀ k b, k ∉ reserved → claims.get k = some (.bool b) → u.get k = some (.bool b)) ∧
      (∀ k, k ∉ reserved → claims.get k = some .null → u.get k = some .null) ∧
      (∀ k n, k ∉ reserved → claims.get k = some (.int n) →
        u.get k = some (.float (float64 n)) ∧ (n.natAbs ≤ 2 ^ 53 → float64 n = n)) ∧
      u.get "iat" = some (.int (Unix now)) ∧
      u.get "exp" = some (.int (Unix (now + conf.Lifetime))) ∧
      u.get "jti" = some (.str uuid) := by
  refine ⟨_, Parse_generated conf now now uuid claims hkey hmatch
    (valid_at_generation conf now claims hlife hnbf hiatr hexpr), ?_⟩
  rw [float64_exact _ hiatr, float64_exact _ hexpr]
  have hother : ∀ k v, k ∉ reserved → claims.get k = some v →
      ((((inject conf now claims).json.set "iat" (.int (Unix now))).set "exp"
        (.int (Unix (now + conf.Lifetime)))).set "jti" (.str uuid)).get k = some v.json := by
    intro k v hk hv
    have hk' := hk
    simp only [reserved, List.mem_cons, List.mem_singleton, List.not_mem_nil, or_false,
      not_or] at hk'
    obtain ⟨_, _, _, h4, h5, h6⟩ := hk'
    rw [Claims.get_set_ne _ _ _ _ (Ne.symm h6), Claims.get_set_ne _ _ _ _ (Ne.symm h5),
      Claims.get_set_ne _ _ _ _ (Ne.symm h4), Claims.get_json, inject_get_other conf now claims k hk,
      hv]
    rfl
  refine ⟨hother, fun k s hk hv => hother k _ hk hv, fun k b hk hv => hother k _ hk hv,
    fun k hk hv => hother k _ hk hv,
    fun k n hk hv => ⟨hother k _ hk hv, float64_exact n⟩, ?_, ?_, ?_⟩
  · rw [Claims.get_set_ne _ _ _ _ (by decide), Claims.get_set_ne _ _ _ _ (by decide),
      Claims.get_set_self]
  · rw [Claims.get_set_ne _ _ _ _ (by decide), Claims.get_set_self]
  · rw [Claims.get_set_self]

/-- C14, amended, at the access configuration and the claims of the tests. -/
theorem C14_round_trip_witness :
    ∃ u, Parse testAccessConfig testNow testUUID
        (Generate testAccessConfig testNow
          [("sub", Value.str "user-123"), ("best_player", Value.bool false)]).token = .ok u ∧
      u.get "sub" = some (.str "user-123") ∧ u.get "best_player" = some (.bool false) :=
  have w := C14_round_trip testAccessConfig testNow testUUID
    [("sub", Value.str "user-123"), ("best_player", Value.bool false)]
    (by decide) (by decide) (by decide) (by decide) (by decide) (by decide)
  w.elim fun u hu =>
    ⟨u, hu.1, hu.2.2.1 "sub" "user-123" (by decide) (by decide),
      hu.2.2.2.1 "best_player" false (by decide) (by decide)⟩

end jwt

/-! ## The token codec: algorithm, type, malformed tokens, expiry -/

namespace jwt

open golangjwt

/-- The key function rejects a token whose algorithm is not the configured
one. -/
theorem keyFunc_mismatch (conf : Config) (m : SigningMethod) (alg : String)
    (hm : GetSigningMethod alg = some m) (h : alg ≠ conf.SigningMethod) :
    keyFunc conf m = .error := by
  unfold keyFunc
  cases hc : GetSigningMethod conf.SigningMethod with
  | none => rfl
  | some method =>
    have h1 := GetSigningMethod_alg _ _ hm
    have h2 := GetSigningMethod_alg _ _ hc
    have hne : m.alg ≠ method.alg := by rw [h1, h2]; exact h
    simp [hne]

/-- The key function yields a key for a token of the configured method. -/
theorem keyFunc_self (conf : Config) (meth : SigningMethod)
    (hm : GetSigningMethod conf.SigningMethod = some meth) :
    ∃ key, keyFunc conf meth = .key key := by
  unfold keyFunc
  rw [hm]
  by_cases hf : meth.family = Family.hmac
  · exact ⟨.bytes conf.SymmetricKey, by simp [hf]⟩
  · cases hp : conf.publicKey with
    | none => exact ⟨.null, by simp [hf]⟩
    | some id => exact ⟨.rsaPublic id, by simp [hf]⟩

/-- C15: for every configuration and every token whose header algorithm
differs from the signing method of the configuration, whatever its claims and
its signature, `Parse` returns an error, `ErrInvalidToken`, and no claims;
also when the signature is the one a different HMAC variant makes with the
configured key. -/
theorem C15_algorithm_mismatch_rejected (conf : Config) (now : Int) (uuid alg : String)
    (claims : Claims) (sig : Signature) (h : alg ≠ conf.SigningMethod) :
    Parse conf now uuid (.jws alg claims sig) = .error .ErrInvalidToken := by
  unfold Parse ParseWithClaims
  cases hm : GetSigningMethod alg with
  | none => simp [hm]
  | some m => simp [hm, keyFunc_mismatch conf m alg hm h]

/-- C15, at a token signed with HS256 under the key of a configuration that
declares HS512. -/
theorem C15_algorithm_mismatch_rejected_witness :
    (Generate hs256Config testNow [("sub", Value.str "user-123")]).token =
      .jws "HS256" (inject hs256Config testNow [("sub", Value.str "user-123")]).json
        (.signed "HS256" (.bytes testAccessConfig.SymmetricKey)) ∧
    Parse testAccessConfig testNow testUUID
      (.jws "HS256" (inject hs256Config testNow [("sub", Value.str "user-123")]).json
        (.signed "HS256" (.bytes testAccessConfig.SymmetricKey))) = .error .ErrInvalidToken :=
  ⟨by decide, C15_algorithm_mismatch_rejected testAccessConfig testNow testUUID "HS256" _ _
    (by decide)⟩

/-- When the library returns an error the token it returns is not valid. -/
theorem ParseWithClaims_err (valid : Claims → ValidationError) (token : Token)
    (keyFunc : SigningMethod → KeyResult) (p : Parsed) (e : ValidationError)
    (tok : ParsedToken)
    (h : ParseWithClaims valid token keyFunc = .ret p) (he : p.err = some e)
    (ht : p.token = some tok) : tok.Valid = false := by
  unfold ParseWithClaims at h
  cases token with
  | raw s =>
    simp only at h
    split_ifs at h <;> simp at h <;> subst h <;> simp at ht
    subst ht; rfl
  | jws alg claims sig =>
    simp only at h
    cases hm : GetSigningMethod alg with
    | none =>
      simp [hm] at h
      subst h; simp at ht; subst ht; rfl
    | some m =>
      simp only [hm] at h
      cases hk : keyFunc m with
      | panic => simp [hk] at h
      | error =>
        simp [hk] at h
        subst h; simp at ht; subst ht; rfl
      | key k =>
        simp only [hk] at h
        split_ifs at h <;> simp at h <;> subst h <;> simp at he ht
        all_goals (subst ht; rfl)

/-- C17, on the code: `Parse` never returns `ErrInvalidTokenType`, since the
check of the type stands in the branch of a parse error, where the token is
never valid. A token generated with type "access" is accepted by a
configuration that requires type "refresh" under the same key, and `Parse`
returns its claims, `typ` "access" among them. -/
theorem C17_type_not_enforced :
    (∀ (conf : Config) (now : Int) (uuid : String) (token : Token),
      Parse conf now uuid token ≠ .error .ErrInvalidTokenType) ∧
    sharedKeyRefreshConfig.Typ = "refresh" ∧
    sharedKeyRefreshConfig.SymmetricKey = testAccessConfig.SymmetricKey ∧
    (Generate testAccessConfig testNow [("sub", Value.str "user-123")]).err = none ∧
    Parse sharedKeyRefreshConfig testNow testUUID
      (Generate testAccessConfig testNow [("sub", Value.str "user-123")]).token =
      .ok [("sub", .str "user-123"), ("iss", .str "test-issuer"), ("typ", .str "access"),
        ("iat", .int 1768015810), ("exp", .int 1768016710), ("jti", .str testUUID)] := by
  refine ⟨?_, rfl, rfl, by decide, by decide⟩
  intro conf now uuid token
  unfold Parse
  cases hp : ParseWithClaims (validV4 now) token (keyFunc conf) with
  | panic => simp
  | ret parsed =>
    simp only
    cases he : parsed.err with
    | none => simp
    | some err =>
      simp only
      by_cases hx : err.expired = true
      · simp [hx]
      · simp only [hx]
        cases ht : parsed.token with
        | none => simp
        | some tok =>
          have hv := ParseWithClaims_err _ _ _ parsed err tok hp he ht
          simp [hv]

/-- C18, on the code: for a token string that has not three segments, the
empty string or a string without a dot, the library returns a `nil` token and
`Parse` panics on `parsed.Valid`; a string of three segments that do not
decode gets `ErrInvalidToken`. -/
theorem C18_malformed_token_panics (conf : Config) (now : Int) (uuid : String) :
    Parse conf now uuid (.raw "") = .panic ∧
    Parse conf now uuid (.raw "not-a-token") = .panic ∧
    Parse conf now uuid (.raw "two.segments") = .panic ∧
    Parse conf now uuid (.raw "invalid.jwt.token") = .error .ErrInvalidToken := by
  refine ⟨?_, ?_, ?_, ?_⟩ <;> simp [Parse, ParseWithClaims, segments]

/-- C19, as stated, fails. With a lifetime of minus 1768015810 seconds at
the time `testNow` the expiry second of the token is 0, which the library
reads as no expiry: `Parse` succeeds. And with a lifetime of minus one
nanosecond at a time 2^53 + 3 seconds and a half after the epoch, the expiry
is read as 2^53 + 4, a second not yet reached: `Parse` fails, but not with
`ErrTokenExpired`. -/
theorem C19_counterexample :
    (epochConfig.keyPresent = true ∧ epochConfig.Lifetime < 0 ∧
      (Generate epochConfig testNow [("sub", Value.str "user-123")]).claims.get "exp" =
        some (.int 0) ∧
      Parse epochConfig testNow testUUID
        (Generate epochConfig testNow [("sub", Value.str "user-123")]).token =
        .ok [("sub", .str "user-123"), ("iss", .str "test-issuer"), ("typ", .str "access"),
          ("iat", .int 1768015810), ("exp", .int 0), ("jti", .str testUUID)]) ∧
    (expiredConfig.keyPresent = true ∧ expiredConfig.Lifetime < 0 ∧
      (Generate expiredConfig (farNow + 500000000) []).claims.get "exp" =
        some (.int 9007199254740995) ∧
      Parse expiredConfig (farNow + 500000000) testUUID
        (Generate expiredConfig (farNow + 500000000) []).token = .error .ErrInvalidToken) := by
  decide

/-- C19, amended: for every configuration with a known signing method, its
key present and a negative lifetime, of any magnitude, and every claim set,
the token of `Generate`, parsed with the same configuration at the time of
generation or later, fails with `ErrTokenExpired`, when the expiry second of
the token is not 0, which the library reads as no expiry, and is at most
2^53 in magnitude, so that it is a `float64`. -/
theorem C19_negative_lifetime_expired (conf : Config) (now now2 : Int) (uuid : String)
    (claims : Claims) (hkey : conf.keyPresent = true) (hneg : conf.Lifetime < 0)
    (hlater : now ≤ now2) (hclock : Unix (now + conf.Lifetime) ≠ 0)
    (hexpr : (Unix (now + conf.Lifetime)).natAbs ≤ 2 ^ 53) :
    Parse conf now2 uuid (Generate conf now claims).token = .error .ErrTokenExpired := by
  obtain ⟨meth, sig, hm, hg, _⟩ := Generate_ok conf now claims hkey
  obtain ⟨key, hkf⟩ := keyFunc_self conf meth hm
  rw [hg]
  have hself := GetSigningMethod_self _ _ hm
  have hexp : (inject conf now claims).json.get "exp" =
      some (.float (Unix (now + conf.Lifetime))) := by
    simp [Claims.get_json, inject_get_exp, Value.json, float64_exact _ hexpr]
  have hle : Unix (now + conf.Lifetime) ≤ Unix now2 := Unix_mono _ _ (by omega)
  have hfl : ∀ n : Int, (n : Rat).floor = n := fun _ => rfl
  have hq : ((Unix (now + conf.Lifetime) : Int) : Rat) ≠ 0 := by
    intro h0
    exact hclock (Rat.intCast_eq_zero.mp h0)
  have hexpired : verifyExpV4 (Unix now2) (inject conf now claims).json = false := by
    simp only [verifyExpV4, hexp, hq, if_false, hfl]
    simp
    omega
  have hflag : (validV4 now2 (inject conf now claims).json).expired = true := by
    simp [validV4, hexpired]
  simp only [Parse, ParseWithClaims, hself, hkf]
  by_cases hver : Verify meth key sig = true
  · simp [hver, ValidationError.valid, hflag]
  · simp [hver, ValidationError.valid, hflag]

/-- C19, amended, at a lifetime of minus one nanosecond: the token is expired
at the very time of its generation. -/
theorem C19_negative_lifetime_expired_witness :
    Parse expiredConfig testNow testUUID
      (Generate expiredConfig testNow [("sub", Value.str "user-123")]).token =
      .error .ErrTokenExpired :=
  C19_negative_lifetime_expired expiredConfig testNow testNow testUUID
    [("sub", Value.str "user-123")] (by decide) (by decide) (by decide) (by decide) (by decide)

end jwt

namespace internaljwt

open golangjwt

/-- C16, on the code: the key function of `Parse` does not compare the
algorithm of the token with the configured one. A token signed with HS256
under the symmetric key of a configuration that declares HS512 is accepted by
`Parse` and by `ParseWithAud`, which return its claims and no error. -/
theorem C16_hmac_variant_accepted :
    symConfig.SigningMethod = "HS512" ∧
    hs256Config.SymmetricKey = symConfig.SymmetricKey ∧
    Generate hs256Config jwt.testNow [("sub", Value.str "user-123")] =
      .ret ⟨.jws "HS256" (inject hs256Config jwt.testNow [("sub", Value.str "user-123")]).json
          (.signed "HS256" (.bytes symConfig.SymmetricKey)), none,
        inject hs256Config jwt.testNow [("sub", Value.str "user-123")]⟩ ∧
    Parse symConfig jwt.testNow jwt.testUUID
      (.jws "HS256" (inject hs256Config jwt.testNow [("sub", Value.str "user-123")]).json
        (.signed "HS256" (.bytes symConfig.SymmetricKey))) =
      .ok [("sub", .str "user-123"), ("iss", .str "idk_issuer"), ("aud", .list ["idk_audience"]),
        ("iat", .int 1768015810), ("exp", .int 1768015990), ("jti", .str jwt.testUUID)] ∧
    ParseWithAud symConfig jwt.testNow jwt.testUUID
      (.jws "HS256" (inject hs256Config jwt.testNow [("sub", Value.str "user-123")]).json
        (.signed "HS256" (.bytes symConfig.SymmetricKey))) "idk_audience" =
      .ok [("sub", .str "user-123"), ("iss", .str "idk_issuer"), ("aud", .list ["idk_audience"]),
        ("iat", .int 1768015810), ("exp", .int 1768015990), ("jti", .str jwt.testUUID)] := by
  decide

end internaljwt

/-! ## The trust escalation -/

namespace jwt

open golangjwt

/-- The injection leaves every claim it does not set. -/
theorem inject_get_not_set (conf : Config) (now : Int) (claims : Claims) (key : String)
    (hk : key ∉ ["iss", "aud", "typ", "iat", "exp"]) :
    (inject conf now claims).get key = claims.get key := by
  simp only [List.mem_cons, List.mem_singleton, List.not_mem_nil, or_false, not_or] at hk
  obtain ⟨h1, h2, h3, h4, h5⟩ := hk
  unfold inject
  simp only [Claims.get_set, Ne.symm h4, Ne.symm h5, if_false]
  by_cases ht : conf.Typ ≠ "" <;> by_cases ha : conf.Audience.length ≠ 0 <;>
    by_cases hi : conf.Issuer ≠ "" <;>
    simp [ht, ha, hi, Claims.get_set, Ne.symm h1, Ne.symm h2, Ne.symm h3]

/-- A token `Generate` returns without error carries the injected claims. -/
theorem Generate_token (conf : Config) (now : Int) (claims : Claims)
    (h : (Generate conf now claims).err = none) :
    ∃ alg sig, (Generate conf now claims).token = .jws alg (inject conf now claims).json sig := by
  unfold Generate at h ⊢
  cases hm : GetSigningMethod conf.SigningMethod with
  | none => simp [hm] at h
  | some meth =>
    simp only [hm] at h ⊢
    by_cases hsym : isSymmetricMethod meth = true
    · simp only [hsym, if_true] at h ⊢
      by_cases hlen : conf.SymmetricKey.length = 0
      · simp [hlen] at h
      · simp only [hlen, if_false] at h ⊢
        cases hs : Sign meth (.bytes conf.SymmetricKey) with
        | none => simp [hs] at h
        | some sig => exact ⟨meth.alg, sig, rfl⟩
    · simp only [hsym] at h ⊢
      cases hp : conf.privateKey with
      | none => simp [hp] at h
      | some id =>
        simp only [hp] at h ⊢
        cases hs : Sign meth (.rsaPrivate id) with
        | none => simp [hs] at h
        | some sig => exact ⟨meth.alg, sig, rfl⟩

end jwt

namespace services

open golangjwt

/-- What `extractInternalClaims` yields under each of the three copied
names: the claim of the user. -/
theorem extractInternalClaims_copied (s : AuthService) (u : Claims) :
    (s.extractInternalClaims u).get "sub" = u.get "sub" ∧
    (s.extractInternalClaims u).get "name" = u.get "name" ∧
    (s.extractInternalClaims u).get "username" = u.get "username" := by
  unfold AuthService.extractInternalClaims
  refine ⟨?_, ?_, ?_⟩ <;>
    cases u.get "sub" <;> cases u.get "name" <;> cases u.get "username" <;>
    by_cases hi : s.internalConfig.Issuer ≠ "" <;>
    by_cases ha : s.internalConfig.Audience.length > 0 <;>
    simp [Claims.get_set, Claims.get, hi, ha]

/-- Under a name outside the six, `extractInternalClaims` yields nothing. -/
theorem extractInternalClaims_other (s : AuthService) (u : Claims) (key : String)
    (hk : key ∉ internalNames) : (s.extractInternalClaims u).get key = none := by
  simp only [internalNames, List.mem_cons, List.mem_singleton, List.not_mem_nil, or_false,
    not_or] at hk
  obtain ⟨h1, h2, h3, h4, h5, h6⟩ := hk
  unfold AuthService.extractInternalClaims
  cases u.get "sub" <;> cases u.get "name" <;> cases u.get "username" <;>
    by_cases hi : s.internalConfig.Issuer ≠ "" <;>
    by_cases ha : s.internalConfig.Audience.length > 0 <;>
    simp [Claims.get_set, Claims.get, hi, ha, Ne.symm h1, Ne.symm h2, Ne.symm h3, Ne.symm h4,
      Ne.symm h5, Ne.symm h6]

/-- C20: for every access token that `Authenticate` accepts, with parsed user
claims `u`, the claim set `extractInternalClaims` derives for the internal
token has no claim names other than `sub`, `name`, `username`, `iss`, `aud`
and `typ`; `sub`, `name` and `username` are present exactly when present in
`u` and carry the values of `u`; every other claim of `u`, `email` for one, is
absent. The token returned carries that claim set with the `iss`, `aud`,
`typ`, `iat` and `exp` that `Generate` injects, and nothing else. -/
theorem C20_internal_claims_narrowed (s : AuthService) (now : Int) (uuid : String) (now2 : Int)
    (token internalToken : Token)
    (h : s.Authenticate now uuid now2 token = .ok internalToken) :
    ∃ u, jwt.Parse s.userConfig now uuid token = .ok u ∧
      (∀ k, (s.extractInternalClaims u).get k ≠ none → k ∈ internalNames) ∧
      (s.extractInternalClaims u).get "sub" = u.get "sub" ∧
      (s.extractInternalClaims u).get "name" = u.get "name" ∧
      (s.extractInternalClaims u).get "username" = u.get "username" ∧
      (s.extractInternalClaims u).get "email" = none ∧
      ∃ alg payload sig, internalToken = .jws alg payload sig ∧
        payload = (jwt.inject s.internalConfig now2 (s.extractInternalClaims u)).json ∧
        (∀ k, payload.get k ≠ none → k ∈ internalNames ++ ["iat", "exp"]) ∧
        payload.get "email" = none := by
  unfold AuthService.Authenticate at h
  cases hp : jwt.Parse s.userConfig now uuid token with
  | panic => simp [hp] at h
  | error e => cases e <;> simp [hp] at h
  | ok u =>
    simp only [hp] at h
    cases hg : (jwt.Generate s.internalConfig now2 (s.extractInternalClaims u)).err with
    | some e => simp [hg] at h
    | none =>
      simp only [hg] at h
      have htok : (jwt.Generate s.internalConfig now2 (s.extractInternalClaims u)).token =
          internalToken := by
        injection h
      obtain ⟨alg, sig, hjws⟩ := jwt.Generate_token s.internalConfig now2 _ hg
      obtain ⟨c1, c2, c3⟩ := extractInternalClaims_copied s u
      have hnames : ∀ k, (s.extractInternalClaims u).get k ≠ none → k ∈ internalNames := by
        intro k hk
        by_contra hno
        exact hk (extractInternalClaims_other s u k hno)
      refine ⟨u, rfl, hnames, c1, c2, c3, extractInternalClaims_other s u "email" (by decide),
        alg, _, sig, by rw [← htok, hjws], rfl, ?_, ?_⟩
      · intro k hk
        by_contra hno
        have hk5 : k ∉ ["iss", "aud", "typ", "iat", "exp"] := by
          intro hmem
          apply hno
          simp only [internalNames, List.mem_append, List.mem_cons, List.mem_singleton,
            List.not_mem_nil, or_false] at hmem ⊢
          tauto
        have hk6 : k ∉ internalNames := by
          intro hmem
          exact hno (List.mem_append_left _ hmem)
        apply hk
        rw [Claims.get_json, jwt.inject_get_not_set _ _ _ _ hk5,
          extractInternalClaims_other s u k hk6]
        rfl
      · rw [Claims.get_json, jwt.inject_get_not_set _ _ _ _ (by decide),
          extractInternalClaims_other s u "email" (by decide)]
        rfl

/-- C20, at an access token with the claims `sub`, `name`, `username` and
`email`: `Authenticate` accepts it, and the claim set derived from the parsed
claims has the `sub` of the user and no `email`. -/
theorem C20_internal_claims_narrowed_witness :
    ∃ u, jwt.Parse testAuthService.userConfig jwt.testNow jwt.testUUID
        (jwt.Generate jwt.testAccessConfig jwt.testNow userClaims).token = .ok u ∧
      (testAuthService.extractInternalClaims u).get "sub" = u.get "sub" ∧
      (testAuthService.extractInternalClaims u).get "email" = none :=
  (C20_internal_claims_narrowed testAuthService jwt.testNow jwt.testUUID jwt.testNow
    (jwt.Generate jwt.testAccessConfig jwt.testNow userClaims).token
    (jwt.Generate testInternalConfig jwt.testNow
      (testAuthService.extractInternalClaims
        ((((jwt.inject jwt.testAccessConfig jwt.testNow userClaims).json.set "iat"
          (.int (Unix jwt.testNow))).set "exp"
          (.int (Unix (jwt.testNow + jwt.testAccessConfig.Lifetime)))).set "jti"
          (.str jwt.testUUID)))).token
    (by decide)).elim fun u hu => ⟨u, hu.1, hu.2.2.1, hu.2.2.2.2.2.1⟩

end services

/-! ## The sign-in -/

namespace storage

/-- Over the key-value model `FindKey` leaves the store as it is. -/
theorem SignInStorage.FindKey_kv (ttl : Int) (unmarshal : String → Option SignInData)
    (db : RedisDB) (signInKey : UUID) :
    (SignInStorage.FindKey ⟨kvCommands, ttl⟩ unmarshal db signInKey).2 = db := by
  unfold SignInStorage.FindKey kvCommands
  dsimp only
  cases db ("Sign In: " ++ signInKey) with
  | none => simp
  | some e =>
    dsimp only
    cases hu : unmarshal e.value <;> simp

end storage

namespace jwt

open golangjwt

/-- A token `Generate` returns without an error is a signed token, not the
empty string. -/
theorem Generate_issued (conf : Config) (now : Int) (claims : Claims)
    (h : (Generate conf now claims).err = none) :
    (Generate conf now claims).token ≠ .raw "" := by
  unfold Generate at h ⊢
  split <;> (try split) <;> (try split) <;> (try split) <;> simp_all

/-- A call of `Generate` that returns an error returns the empty string. -/
theorem Generate_failed (conf : Config) (now : Int) (claims : Claims)
    (h : (Generate conf now claims).err ≠ none) :
    (Generate conf now claims).token = .raw "" := by
  unfold Generate at h ⊢
  split <;> (try split) <;> (try split) <;> (try split) <;> simp_all

end jwt

namespace services

open golangjwt

/-- C21: when the repository holds a record for the key and the code differs
from the code of the record, `SignIn` returns the empty pair and
`ErrWrongCode`, its only call is `FindKey` (neither `Generate` nor `Remove`),
and the storage is left as `FindKey` left it; when the record is still found
there, a later `SignIn` with the code of the record, under configurations
with their keys and a `Remove` that succeeds, returns both tokens and no
error. -/
theorem C21_wrong_code_keeps_record {σ : Type} (s : SignInService σ) (st st1 : σ)
    (now1 now2 : Int) (key : storage.UUID) (code : String) (data : storage.SignInData)
    (hfind : s.signInRepo.FindKey st key = (.ok data, st1)) (hcode : code ≠ data.Code) :
    s.SignIn st now1 now2 key code = ⟨emptyPair, some .ErrWrongCode, st1, [.findKey key]⟩ ∧
    ∀ (st2 st3 : σ) (now3 now4 : Int),
      s.signInRepo.FindKey st1 key = (.ok data, st2) →
      s.accessConf.keyPresent = true → s.refreshConf.keyPresent = true →
      s.signInRepo.Remove st2 key = (none, st3) →
      ∃ access refresh,
        s.SignIn st1 now3 now4 key data.Code =
          ⟨⟨access, refresh⟩, none, st3,
            [.findKey key, .generate s.accessConf (signInClaims data),
             .generate s.refreshConf (jwt.inject s.accessConf now3 (signInClaims data)),
             .remove key]⟩ ∧
        access = (jwt.Generate s.accessConf now3 (signInClaims data)).token ∧
        refresh = (jwt.Generate s.refreshConf now4
          (jwt.inject s.accessConf now3 (signInClaims data))).token ∧
        access ≠ .raw "" ∧ refresh ≠ .raw "" := by
  constructor
  · unfold SignInService.SignIn
    rw [hfind]
    simp [Ne.symm hcode]
  · intro st2 st3 now3 now4 hfind2 hka hkr hrem
    obtain ⟨ma, sa, _, hga, _⟩ := jwt.Generate_ok s.accessConf now3 (signInClaims data) hka
    obtain ⟨mr, sr, _, hgr, _⟩ :=
      jwt.Generate_ok s.refreshConf now4 (jwt.inject s.accessConf now3 (signInClaims data)) hkr
    refine ⟨_, _, ?_, rfl, rfl, ?_, ?_⟩
    · unfold SignInService.SignIn
      rw [hfind2]
      simp [hga, hgr, hrem]
    · rw [hga]; simp
    · rw [hgr]; simp

/-- C21 at the redis storage holding the record with the code "123456": the
code "000000" gives `ErrWrongCode` and leaves the record, and the code
"123456" then gives both tokens. -/
theorem C21_wrong_code_keeps_record_witness :
    (testSignInService.SignIn testSignInDB jwt.testNow jwt.testNow
      testSignInData.SignInKey "000000").err = some .ErrWrongCode ∧
    (testSignInService.SignIn testSignInDB jwt.testNow jwt.testNow
      testSignInData.SignInKey "000000").pair = emptyPair ∧
    (testSignInService.SignIn testSignInDB jwt.testNow jwt.testNow
      testSignInData.SignInKey "000000").store
        ("Sign In: " ++ testSignInData.SignInKey) =
      some ⟨"record", 300 * golangjwt.second⟩ ∧
    (testSignInService.SignIn testSignInDB jwt.testNow jwt.testNow
      testSignInData.SignInKey "123456").err = none := by
  have h := C21_wrong_code_keeps_record testSignInService testSignInDB testSignInDB
    jwt.testNow jwt.testNow testSignInData.SignInKey "000000" testSignInData rfl (by decide)
  refine ⟨by rw [h.1], by rw [h.1], by rw [h.1]; decide, ?_⟩
  obtain ⟨a, r, h2, _⟩ := h.2 testSignInDB
    (Function.update testSignInDB ("Sign In: " ++ testSignInData.SignInKey) none)
    jwt.testNow jwt.testNow rfl (by decide) (by decide) rfl
  exact congrArg SignInOutcome.err h2

end services

/-! ## The token pair is whole or empty -/

namespace golangjwt

/-- With a key function that does not panic `ParseWithClaims` returns, and
when it returns no error it returns a token. -/
theorem ParseWithClaims_ret (valid : Claims → ValidationError) (token : Token)
    (keyFunc : SigningMethod → KeyResult) (hk : ∀ m, keyFunc m ≠ .panic) :
    ∃ parsed, ParseWithClaims valid token keyFunc = .ret parsed ∧
      (parsed.err = none → parsed.token ≠ none) := by
  unfold ParseWithClaims
  cases token with
  | raw s => by_cases h3 : segments s = 3 <;> simp [h3]
  | jws alg claims sig =>
    dsimp only
    cases ha : GetSigningMethod alg with
    | none => simp
    | some method =>
      dsimp only
      cases hkf : keyFunc method with
      | panic => exact absurd hkf (hk method)
      | error => simp
      | key k =>
        dsimp only
        split <;> split <;> simp

end golangjwt

namespace internaljwt

open golangjwt

/-- A token `Generate` returns without an error is a signed token, not the
empty string. -/
theorem Generate_signed (conf : Config) (now : Int) (claims : Claims) (g : Generated)
    (hg : Generate conf now claims = .ret g) (h : g.err = none) : g.token ≠ .raw "" := by
  unfold Generate at hg
  split at hg <;> (try split at hg) <;> (try split at hg) <;> (try split at hg) <;>
    simp_all <;> (subst hg; simp_all)

/-- A call of `Generate` panics only under a configuration that lacks its
key. -/
theorem Generate_panic (conf : Config) (now : Int) (claims : Claims)
    (hg : Generate conf now claims = .panic) : conf.keyPresent = false := by
  cases hk : conf.keyPresent with
  | false => rfl
  | true =>
    obtain ⟨_, _, _, h⟩ := Generate_ret conf now claims hk
    rw [h] at hg
    cases hg

/-- The key function of `Parse` returns a key when the configured method is
registered. -/
theorem keyFunc_key (conf : Config) (meth method : SigningMethod)
    (hm : GetSigningMethod conf.SigningMethod = some meth) :
    ∃ k, keyFunc conf method = .key k := by
  unfold keyFunc
  rw [hm]
  dsimp only
  split
  · exact ⟨_, rfl⟩
  · cases conf.publicKey <;> exact ⟨_, rfl⟩

/-- A call of `Parse` panics only under a configuration whose signing method
is not registered. -/
theorem Parse_panic (conf : Config) (now : Int) (uuid : String) (token : Token)
    (hp : Parse conf now uuid token = .panic) : conf.keyPresent = false := by
  cases hm : GetSigningMethod conf.SigningMethod with
  | none => simp [Config.keyPresent, hm]
  | some meth =>
    exfalso
    obtain ⟨parsed, hpw, htok⟩ := ParseWithClaims_ret (validV3 now) token (keyFunc conf)
      (fun m => by obtain ⟨k, hk⟩ := keyFunc_key conf meth m hm; rw [hk]; simp)
    unfold Parse at hp
    rw [hpw] at hp
    dsimp only at hp
    cases he : parsed.err with
    | some err =>
      rw [he] at hp
      dsimp only at hp
      split at hp <;> simp at hp
    | none =>
      rw [he] at hp
      dsimp only at hp
      cases ht : parsed.token with
      | none => exact htok he ht
      | some tok =>
        rw [ht] at hp
        dsimp only at hp
        split at hp <;> (try split at hp) <;> (try split at hp) <;> simp at hp

end internaljwt

namespace services

open golangjwt

/-- The result of `SignIn` has no error and both tokens, or an error and the
empty pair. -/
theorem SignIn_whole {σ : Type} (s : SignInService σ) (st : σ) (now1 now2 : Int)
    (key : storage.UUID) (code : String) :
    ((s.SignIn st now1 now2 key code).err = none ∧
        (s.SignIn st now1 now2 key code).pair.Access ≠ .raw "" ∧
        (s.SignIn st now1 now2 key code).pair.Refresh ≠ .raw "") ∨
      ((s.SignIn st now1 now2 key code).err ≠ none ∧
        (s.SignIn st now1 now2 key code).pair = emptyPair) := by
  unfold SignInService.SignIn
  rcases hf : s.signInRepo.FindKey st key with ⟨_ | data, st1⟩
  · by_cases he : (‹storage.SignInError› : storage.SignInError) = .ErrSignInKeyNotFound <;>
      simp [he]
  · dsimp only
    by_cases hc : data.Code = code
    · simp only [hc, ne_eq, not_true_eq_false, if_false]
      cases ha : (jwt.Generate s.accessConf now1 (signInClaims data)).err with
      | some e => simp
      | none =>
        dsimp only
        cases hr : (jwt.Generate s.refreshConf now2
            (jwt.Generate s.accessConf now1 (signInClaims data)).claims).err with
        | some e => simp
        | none =>
          dsimp only
          rcases hrem : s.signInRepo.Remove st1 key with ⟨_ | e, st2⟩
          · simp [jwt.Generate_issued _ _ _ ha, jwt.Generate_issued _ _ _ hr]
          · simp
    · simp [hc]

/-- When a signing step of `SignIn` fails, `Remove` is not called and the
storage is as `FindKey` left it. -/
theorem SignIn_signing_failed {σ : Type} (s : SignInService σ) (st : σ) (now1 now2 : Int)
    (key : storage.UUID) (code : String)
    (h : (s.SignIn st now1 now2 key code).err = some .ErrAccessGeneration ∨
      (s.SignIn st now1 now2 key code).err = some .ErrRefreshGeneration) :
    (s.SignIn st now1 now2 key code).trace.all (fun e => !e.isRemove) = true ∧
      (s.SignIn st now1 now2 key code).store = (s.signInRepo.FindKey st key).2 := by
  unfold SignInService.SignIn at h ⊢
  rcases hf : s.signInRepo.FindKey st key with ⟨_ | data, st1⟩
  · by_cases he : (‹storage.SignInError› : storage.SignInError) = .ErrSignInKeyNotFound <;>
      simp [SignInEvent.isRemove, he]
  · rw [hf] at h
    dsimp only at h ⊢
    by_cases hc : data.Code = code
    · simp only [hc, ne_eq, not_true_eq_false, if_false] at h ⊢
      cases ha : (jwt.Generate s.accessConf now1 (signInClaims data)).err with
      | some e => simp [SignInEvent.isRemove]
      | none =>
        rw [ha] at h
        dsimp only at h ⊢
        cases hr : (jwt.Generate s.refreshConf now2
            (jwt.Generate s.accessConf now1 (signInClaims data)).claims).err with
        | some e => simp [SignInEvent.isRemove]
        | none =>
          rw [hr] at h
          dsimp only at h ⊢
          rcases hrem : s.signInRepo.Remove st1 key with ⟨_ | e, st2⟩ <;>
            (rw [hrem] at h; simp at h)
    · simp [hc, SignInEvent.isRemove]

end services

namespace internalservices

open golangjwt

/-- A run of `Refresh` that returns has no error and both tokens, or an error
and the empty pair; it panics only under a configuration that lacks a key. -/
theorem Refresh_whole {σ ε : Type} (service : RefreshJWTService σ ε) (st : σ) (now : Int)
    (uuid : String) (now1 now2 : Int) (refresh : Token) :
    match service.Refresh st now uuid now1 now2 refresh with
    | .ret r =>
      (r.err = none ∧ r.pair.Access ≠ .raw "" ∧ r.pair.Refresh ≠ .raw "") ∨
        (r.err ≠ none ∧ r.pair = emptyPair)
    | .panic =>
      service.accessConf.keyPresent = false ∨ service.refreshConf.keyPresent = false := by
  unfold RefreshJWTService.Refresh
  rcases hv : service.validate st refresh with ⟨_ | err, st1⟩
  · dsimp only
    cases hp : internaljwt.Parse service.refreshConf now uuid refresh with
    | panic => exact Or.inr (internaljwt.Parse_panic _ _ _ _ hp)
    | error e =>
      dsimp only
      by_cases h1 : e = .ErrTokenExpired
      · simp [h1]
      · by_cases h2 : e = .ErrInvalidTokenType <;> simp [h1, h2]
    | ok claims =>
      dsimp only
      rcases hr : service.revokeRepo.Revoke st1 refresh with ⟨_ | e, st2⟩
      · dsimp only
        by_cases hs : claims.get "sub" = none ∨ claims.get "sub" = some .null
        · simp [hs]
        · simp only [hs, if_false]
          cases hga : internaljwt.Generate service.accessConf now1 claims with
          | panic => exact Or.inl (internaljwt.Generate_panic _ _ _ hga)
          | ret access =>
            dsimp only
            cases hae : access.err with
            | some e => simp
            | none =>
              dsimp only
              cases hgr : internaljwt.Generate service.refreshConf now2 access.claims with
              | panic => exact Or.inr (internaljwt.Generate_panic _ _ _ hgr)
              | ret refreshed =>
                dsimp only
                cases hre : refreshed.err with
                | some e => simp
                | none =>
                  simp [internaljwt.Generate_signed _ _ _ _ hga hae,
                    internaljwt.Generate_signed _ _ _ _ hgr hre]
      · simp
  · simp

end internalservices

namespace services

open golangjwt

/-- C22: the result of `SignIn` is no error with both tokens issued, or an
error with the empty pair; when a signing step of `SignIn` fails, `Remove` is
not called and the storage is as `FindKey` left it; and a run of `Refresh`
returns no error with both tokens issued, or an error with the empty pair (it
panics only under a configuration that lacks a key). -/
theorem C22_pair_whole_or_empty {σ τ ε : Type} (s : SignInService σ) (st : σ) (now1 now2 : Int)
    (key : storage.UUID) (code : String)
    (service : internalservices.RefreshJWTService τ ε) (rt : τ) (now : Int) (uuid : String)
    (now3 now4 : Int) (refresh : Token) :
    (((s.SignIn st now1 now2 key code).err = none ∧
        (s.SignIn st now1 now2 key code).pair.Access ≠ .raw "" ∧
        (s.SignIn st now1 now2 key code).pair.Refresh ≠ .raw "") ∨
      ((s.SignIn st now1 now2 key code).err ≠ none ∧
        (s.SignIn st now1 now2 key code).pair = emptyPair)) ∧
    ((s.SignIn st now1 now2 key code).err = some .ErrAccessGeneration ∨
        (s.SignIn st now1 now2 key code).err = some .ErrRefreshGeneration →
      (s.SignIn st now1 now2 key code).trace.all (fun e => !e.isRemove) = true ∧
        (s.SignIn st now1 now2 key code).store = (s.signInRepo.FindKey st key).2) ∧
    (match service.Refresh rt now uuid now3 now4 refresh with
      | .ret r =>
        (r.err = none ∧ r.pair.Access ≠ .raw "" ∧ r.pair.Refresh ≠ .raw "") ∨
          (r.err ≠ none ∧ r.pair = internalservices.emptyPair)
      | .panic =>
        service.accessConf.keyPresent = false ∨ service.refreshConf.keyPresent = false) :=
  ⟨SignIn_whole s st now1 now2 key code, SignIn_signing_failed s st now1 now2 key code,
    internalservices.Refresh_whole service rt now uuid now3 now4 refresh⟩

end services

namespace services

/-- C22 at the redis storage with a refresh configuration that cannot sign:
`SignIn` with the right code returns `ErrRefreshGeneration` and the empty
pair, does not call `Remove`, and the record is still stored. -/
theorem C22_pair_whole_or_empty_witness :
    (failingSignInService.SignIn testSignInDB jwt.testNow jwt.testNow
      testSignInData.SignInKey "123456").err = some .ErrRefreshGeneration ∧
    (failingSignInService.SignIn testSignInDB jwt.testNow jwt.testNow
      testSignInData.SignInKey "123456").pair = emptyPair ∧
    (failingSignInService.SignIn testSignInDB jwt.testNow jwt.testNow
      testSignInData.SignInKey "123456").trace.all (fun e => !e.isRemove) = true ∧
    (failingSignInService.SignIn testSignInDB jwt.testNow jwt.testNow
      testSignInData.SignInKey "123456").store ("Sign In: " ++ testSignInData.SignInKey) =
      some ⟨"record", 300 * golangjwt.second⟩ :=
  have h := (C22_pair_whole_or_empty failingSignInService testSignInDB jwt.testNow jwt.testNow
    testSignInData.SignInKey "123456" internalservices.testRefreshService
    internalservices.emptyDB jwt.testNow jwt.testUUID jwt.testNow jwt.testNow
    internalservices.testRefreshToken).2.1 (Or.inr rfl)
  ⟨rfl, rfl, h.1, by rw [h.2]; rfl⟩

end services

/-! ## The refresh: failure classes and single use -/

namespace internalservices

open golangjwt

/-- C23: when the repository reports the token revoked, `Refresh` returns the
empty pair and `ErrRefreshTokenInvalidated` and its only call is `IsRevoked`
(no parse, no `Revoke`, no `Generate`); when it reports the token not
revoked and `Parse` fails, the result is the empty pair with
`ErrRefreshTokenExpired` for `ErrTokenExpired`, `ErrInvalidTokenType` for
`ErrInvalidTokenType` and `ErrInvalidJWT` for every other error, and the
calls are `IsRevoked` and the parse only. When `IsRevoked` itself fails,
`Refresh` returns the empty pair and that error, without parsing. -/
theorem C23_refresh_failure_classes {σ ε : Type} (service : RefreshJWTService σ ε)
    (st st1 : σ) (now : Int) (uuid : String) (now1 now2 : Int) (refresh : Token) :
    (service.revokeRepo.IsRevoked st refresh = (.ok true, st1) →
      service.Refresh st now uuid now1 now2 refresh =
        .ret ⟨emptyPair, some (.service .ErrRefreshTokenInvalidated), st1,
          [.isRevoked refresh]⟩) ∧
    (service.revokeRepo.IsRevoked st refresh = (.ok false, st1) →
      (internaljwt.Parse service.refreshConf now uuid refresh = .error .ErrTokenExpired →
        service.Refresh st now uuid now1 now2 refresh =
          .ret ⟨emptyPair, some (.service .ErrRefreshTokenExpired), st1,
            [.isRevoked refresh, .parse service.refreshConf refresh]⟩) ∧
      (internaljwt.Parse service.refreshConf now uuid refresh = .error .ErrInvalidTokenType →
        service.Refresh st now uuid now1 now2 refresh =
          .ret ⟨emptyPair, some (.service .ErrInvalidTokenType), st1,
            [.isRevoked refresh, .parse service.refreshConf refresh]⟩) ∧
      (∀ e, internaljwt.Parse service.refreshConf now uuid refresh = .error e →
        e ≠ .ErrTokenExpired → e ≠ .ErrInvalidTokenType →
        service.Refresh st now uuid now1 now2 refresh =
          .ret ⟨emptyPair, some (.service .ErrInvalidJWT), st1,
            [.isRevoked refresh, .parse service.refreshConf refresh]⟩)) ∧
    (∀ e, service.revokeRepo.IsRevoked st refresh = (.error e, st1) →
      service.Refresh st now uuid now1 now2 refresh =
        .ret ⟨emptyPair, some (.repository e), st1, [.isRevoked refresh]⟩) := by
  refine ⟨fun hrev => ?_, fun hrev => ⟨fun hp => ?_, fun hp => ?_, fun e hp h1 h2 => ?_⟩,
    fun e hrev => ?_⟩
  rotate_right
  · simp [RefreshJWTService.Refresh, RefreshJWTService.validate, hrev]
  · simp [RefreshJWTService.Refresh, RefreshJWTService.validate, hrev]
  · simp [RefreshJWTService.Refresh, RefreshJWTService.validate, hrev, hp]
  · simp [RefreshJWTService.Refresh, RefreshJWTService.validate, hrev, hp]
  · simp [RefreshJWTService.Refresh, RefreshJWTService.validate, hrev, hp, h1, h2]

/-- C23 at the redis storage: a revoked token, an expired token, a token of
the type "access" and the string "invalid.jwt.token". -/
theorem C23_refresh_failure_classes_witness :
    (testRefreshService.Refresh revokedDB jwt.testNow jwt.testUUID jwt.testNow jwt.testNow
        testRefreshToken =
      .ret ⟨emptyPair, some (.service .ErrRefreshTokenInvalidated), revokedDB,
        [.isRevoked testRefreshToken]⟩) ∧
    (testRefreshService.Refresh emptyDB jwt.testNow jwt.testUUID jwt.testNow jwt.testNow
        expiredRefreshToken =
      .ret ⟨emptyPair, some (.service .ErrRefreshTokenExpired), emptyDB,
        [.isRevoked expiredRefreshToken, .parse testRefreshConf expiredRefreshToken]⟩) ∧
    (testRefreshService.Refresh emptyDB jwt.testNow jwt.testUUID jwt.testNow jwt.testNow
        accessTypedToken =
      .ret ⟨emptyPair, some (.service .ErrInvalidTokenType), emptyDB,
        [.isRevoked accessTypedToken, .parse testRefreshConf accessTypedToken]⟩) ∧
    (testRefreshService.Refresh emptyDB jwt.testNow jwt.testUUID jwt.testNow jwt.testNow
        (.raw "invalid.jwt.token") =
      .ret ⟨emptyPair, some (.service .ErrInvalidJWT), emptyDB,
        [.isRevoked (.raw "invalid.jwt.token"),
         .parse testRefreshConf (.raw "invalid.jwt.token")]⟩) :=
  ⟨(C23_refresh_failure_classes testRefreshService revokedDB revokedDB jwt.testNow jwt.testUUID
      jwt.testNow jwt.testNow testRefreshToken).1 rfl,
   ((C23_refresh_failure_classes testRefreshService emptyDB emptyDB jwt.testNow jwt.testUUID
      jwt.testNow jwt.testNow expiredRefreshToken).2.1 rfl).1 (by decide),
   ((C23_refresh_failure_classes testRefreshService emptyDB emptyDB jwt.testNow jwt.testUUID
      jwt.testNow jwt.testNow accessTypedToken).2.1 rfl).2.1 (by decide),
   ((C23_refresh_failure_classes testRefreshService emptyDB emptyDB jwt.testNow jwt.testUUID
      jwt.testNow jwt.testNow (.raw "invalid.jwt.token")).2.1 rfl).2.2
        (.validation { malformed := true }) (by decide) (by decide) (by decide)⟩

/-- A `Refresh` that returns no error has revoked the token: the storage it
leaves is the one a successful `Revoke` of the token returned. -/
theorem Refresh_ok_revoked {σ ε : Type} (service : RefreshJWTService σ ε) (st : σ) (now : Int)
    (uuid : String) (now1 now2 : Int) (refresh : Token) (r : RefreshOutcome σ ε)
    (hrun : service.Refresh st now uuid now1 now2 refresh = .ret r) (hok : r.err = none) :
    ∃ st1, service.revokeRepo.Revoke st1 refresh = (none, r.store) := by
  unfold RefreshJWTService.Refresh at hrun
  rcases hv : service.validate st refresh with ⟨_ | err, st1⟩
  · rw [hv] at hrun
    dsimp only at hrun
    cases hp : internaljwt.Parse service.refreshConf now uuid refresh with
    | panic => rw [hp] at hrun; cases hrun
    | error e =>
      rw [hp] at hrun
      dsimp only at hrun
      split at hrun <;> (try split at hrun) <;>
        (simp only [Run.ret.injEq] at hrun; subst hrun; simp at hok)
    | ok claims =>
      rw [hp] at hrun
      dsimp only at hrun
      rcases hr : service.revokeRepo.Revoke st1 refresh with ⟨_ | e, st2⟩
      · refine ⟨st1, ?_⟩
        rw [hr] at hrun
        dsimp only at hrun
        split at hrun
        · simp only [Run.ret.injEq] at hrun; subst hrun; simp at hok
        · split at hrun
          · cases hrun
          · split at hrun
            · simp only [Run.ret.injEq] at hrun; subst hrun; simp at hok
            · split at hrun
              · cases hrun
              · split at hrun <;> (simp only [Run.ret.injEq] at hrun; subst hrun) <;>
                  simp_all
      · rw [hr] at hrun
        simp only [Run.ret.injEq] at hrun
        subst hrun
        simp at hok
  · rw [hv] at hrun
    simp only [Run.ret.injEq] at hrun
    subst hrun
    simp at hok

/-- The redis storage reports a token revoked after a successful `Revoke` of
it. -/
theorem redisRevokeRepo_law (s : internalstorage.RevokeStorage storage.RedisDB)
    (hc : s.client = storage.kvCommands) (db db1 : storage.RedisDB) (t : Token)
    (h : (redisRevokeRepo s).Revoke db t = (none, db1)) :
    (redisRevokeRepo s).IsRevoked db1 t = (.ok true, db1) := by
  simp only [redisRevokeRepo, internalstorage.RevokeStorage.Revoke,
    internalstorage.RevokeStorage.IsRevoked, hc, storage.kvCommands, Prod.mk.injEq,
    true_and] at h ⊢
  subst h
  simp

/-- C24: over a repository that reports a token revoked after a successful
`Revoke` of it, when a first `Refresh` of a token returns no error, every
later `Refresh` of the same token on the storage it left returns the empty
pair and `ErrRefreshTokenInvalidated`, its only call being `IsRevoked`. -/
theorem C24_refresh_single_use {σ ε : Type} (service : RefreshJWTService σ ε) (st : σ)
    (now : Int) (uuid : String) (now1 now2 : Int) (refresh : Token) (r : RefreshOutcome σ ε)
    (hlaw : ∀ s t s1, service.revokeRepo.Revoke s t = (none, s1) →
      ∃ s2, service.revokeRepo.IsRevoked s1 t = (.ok true, s2))
    (hfirst : service.Refresh st now uuid now1 now2 refresh = .ret r) (hok : r.err = none)
    (now3 : Int) (uuid3 : String) (now4 now5 : Int) :
    ∃ s2, service.Refresh r.store now3 uuid3 now4 now5 refresh =
      .ret ⟨emptyPair, some (.service .ErrRefreshTokenInvalidated), s2,
        [.isRevoked refresh]⟩ := by
  obtain ⟨st1, hrev⟩ := Refresh_ok_revoked service st now uuid now1 now2 refresh r hfirst hok
  obtain ⟨s2, his⟩ := hlaw st1 refresh r.store hrev
  exact ⟨s2, by simp [RefreshJWTService.Refresh, RefreshJWTService.validate, his]⟩

/-- C24 at the redis storage: the first refresh of `testRefreshToken` returns
no error and both tokens, the second one a second later is refused. -/
theorem C24_refresh_single_use_witness :
    firstRefresh.err = none ∧ firstRefresh.pair.Access ≠ .raw "" ∧
    ∃ s2, testRefreshService.Refresh firstRefresh.store (jwt.testNow + second) jwt.testUUID
        (jwt.testNow + second) (jwt.testNow + second) testRefreshToken =
      .ret ⟨emptyPair, some (.service .ErrRefreshTokenInvalidated), s2,
        [.isRevoked testRefreshToken]⟩ :=
  ⟨rfl, by decide,
    C24_refresh_single_use testRefreshService emptyDB jwt.testNow jwt.testUUID jwt.testNow
      jwt.testNow testRefreshToken firstRefresh
      (fun s t s1 h => ⟨s1, redisRevokeRepo_law testRevokeStorage rfl s s1 t h⟩) rfl rfl
      (jwt.testNow + second) jwt.testUUID (jwt.testNow + second) (jwt.testNow + second)⟩

end internalservices

/-! ## The sign-out of an expired token -/

namespace services

open golangjwt

/-- C25: for a token that `Parse` finds expired, `SignOut` returns
`ErrInvalidJWT`, having made no call on the repository, and the storage is
unchanged; no run of `SignOut` returns `ErrRefreshTokenExpired`, the one
error the handler lets pass as a success; and for `ErrInvalidJWT` the
handler writes the failure envelope `invalid_token` with the status 400, the
failure envelope `internal`, and then the success envelope. -/
theorem C25_expired_signout_is_error {σ ε : Type} [DecidableEq ε] (s : SignoutService σ ε)
    (st : σ) (now : Int) (uuid : String) (token : Token)
    (hexp : jwt.Parse s.refreshConf now uuid token = .error .ErrTokenExpired) :
    s.SignOut st now uuid token =
      .ret ⟨some .ErrInvalidJWT, st, [.parse s.refreshConf token]⟩ ∧
    (∀ (st0 : σ) (now0 : Int) (uuid0 : String) (token0 : Token) (r : SignOutOutcome σ),
      s.SignOut st0 now0 uuid0 token0 = .ret r → r.err ≠ some .ErrRefreshTokenExpired) ∧
    (∀ (service : Token → Option (internalservices.ServiceError ε))
      (req : internalhandlers.SignOutRequest),
      service req.refreshToken = some (.service .ErrInvalidJWT) →
      internalhandlers.SignOut service req false gin.Context.fresh =
        ⟨[(400, .failure ⟨"invalid_token", "Refresh token is invalid", []⟩),
          (500, .failure ⟨"internal", "Internal Server Error", []⟩),
          (200, .success ⟨{}⟩)],
         [.service .ErrInvalidJWT]⟩) := by
  refine ⟨?_, ?_, ?_⟩
  · simp [SignoutService.SignOut, hexp]
  · intro st0 now0 uuid0 token0 r hr
    unfold SignoutService.SignOut at hr
    dsimp only at hr
    split at hr
    · cases hr
    · simp only [Run.ret.injEq] at hr; subst hr; simp
    · split at hr
      · simp only [Run.ret.injEq] at hr; subst hr; simp
      · split at hr <;> (simp only [Run.ret.injEq] at hr; subst hr; simp)
  · intro service req hs
    simp [internalhandlers.SignOut, hs, gin.Context.fresh, gin.Context.JSON, gin.Context.Error,
      restapi.SendInternalError, restapi.SendSuccess, restapi.ErrTypeInvalidJWT,
      restapi.ErrTypeInternal, StatusBadRequest, StatusInternalServerError, StatusOK]

/-- C25 at an expired refresh token over the redis storage: `SignOut`
returns `ErrInvalidJWT`, and the handler given that token answers with the
status 400 and three envelopes, the last one the success envelope. -/
theorem C25_expired_signout_is_error_witness :
    signOutError (testSignoutService.SignOut internalservices.emptyDB jwt.testNow jwt.testUUID
      expiredRefreshToken) = some (.service .ErrInvalidJWT) ∧
    (internalhandlers.SignOut
      (fun t => signOutError (testSignoutService.SignOut internalservices.emptyDB jwt.testNow
        jwt.testUUID t))
      ⟨expiredRefreshToken⟩ false gin.Context.fresh).written.map (fun w => w.2.isSuccess) =
        [false, false, true] ∧
    (internalhandlers.SignOut
      (fun t => signOutError (testSignoutService.SignOut internalservices.emptyDB jwt.testNow
        jwt.testUUID t))
      ⟨expiredRefreshToken⟩ false gin.Context.fresh).status = 400 := by
  have h := C25_expired_signout_is_error testSignoutService internalservices.emptyDB
    jwt.testNow jwt.testUUID expiredRefreshToken (by decide)
  have hs : signOutError (testSignoutService.SignOut internalservices.emptyDB jwt.testNow
      jwt.testUUID expiredRefreshToken) = some (.service .ErrInvalidJWT) := by
    rw [h.1]; rfl
  have hh := h.2.2
    (fun t => signOutError (testSignoutService.SignOut internalservices.emptyDB jwt.testNow
      jwt.testUUID t)) ⟨expiredRefreshToken⟩ hs
  exact ⟨hs, by rw [hh]; rfl, by rw [hh]; rfl⟩

end services

/-! ## The lifetime of a revocation record -/

namespace internalstorage

open golangjwt storage

/-- C26, counterexample: a storage configured with a ttl of one hour writes
the record of a refresh token that is valid for another 23 hours 59 minutes
and 59.3 seconds, and the record of an access token that is valid for
another 14 minutes and 59.3 seconds, with a lifetime of one hour each: the
first record ends before the token does, the second outlasts its token. -/
theorem C26_counterexample :
    remainingValidity jwt.testNow internalservices.testRefreshToken =
      some (86399300000000 : Int) ∧
    ((internalservices.testRevokeStorage.Revoke internalservices.emptyDB
        internalservices.testRefreshToken).2
      (internalservices.testRevokeStorage.generateKey internalservices.testRefreshToken
        revokedPrefix)).map RedisEntry.ttl = some (3600000000000 : Int) ∧
    remainingValidity jwt.testNow internalservices.testAccessToken =
      some (899300000000 : Int) ∧
    ((internalservices.testRevokeStorage.Revoke internalservices.emptyDB
        internalservices.testAccessToken).2
      (internalservices.testRevokeStorage.generateKey internalservices.testAccessToken
        revokedPrefix)).map RedisEntry.ttl = some (3600000000000 : Int) := by
  refine ⟨by decide, by decide, by decide, by decide⟩

/-- C26, amended: over the key-value model `Revoke` returns no error and
writes, under the key of the prefix and the digest of the token, the value
"revoked" with the configured ttl of the storage, whatever the token is and
whatever its remaining validity; it leaves every other key as it was. -/
theorem C26_record_lifetime_is_ttl (ttl : Int) (digest : Token → String) (db : RedisDB)
    (jwtToken : Token) :
    (RevokeStorage.Revoke ⟨kvCommands, ttl, digest⟩ db jwtToken).1 = none ∧
    (RevokeStorage.Revoke ⟨kvCommands, ttl, digest⟩ db jwtToken).2
        ("RevokedToken:" ++ digest jwtToken) = some ⟨"revoked", ttl⟩ ∧
    ∀ key, key ≠ "RevokedToken:" ++ digest jwtToken →
      (RevokeStorage.Revoke ⟨kvCommands, ttl, digest⟩ db jwtToken).2 key = db key := by
  have hk : revokedPrefix ++ ":" ++ digest jwtToken = "RevokedToken:" ++ digest jwtToken := by
    simp [revokedPrefix]
  simp only [RevokeStorage.Revoke, RevokeStorage.generateKey, hk, kvCommands]
  refine ⟨trivial, ?_, ?_⟩
  · simp
  · intro key hne
    simp [Function.update_noteq hne]

/-- C26, amended, at the storage of the tests and the empty store: the
record of `testRefreshToken` is written with the ttl of one hour, and a
session key is left as it was. -/
theorem C26_record_lifetime_is_ttl_witness :
    (RevokeStorage.Revoke ⟨kvCommands, 3600 * second, internalservices.testDigest⟩
      internalservices.emptyDB internalservices.testRefreshToken).2
        ("RevokedToken:" ++ internalservices.testDigest internalservices.testRefreshToken) =
      some ⟨"revoked", 3600 * second⟩ ∧
    (RevokeStorage.Revoke ⟨kvCommands, 3600 * second, internalservices.testDigest⟩
      internalservices.emptyDB internalservices.testRefreshToken).2
        "Sign In: 6ba7b810-9dad-11d1-80b4-00c04fd430c8" = none :=
  have h := C26_record_lifetime_is_ttl (3600 * second) internalservices.testDigest
    internalservices.emptyDB internalservices.testRefreshToken
  ⟨h.2.1, h.2.2 "Sign In: 6ba7b810-9dad-11d1-80b4-00c04fd430c8" (by decide)⟩

end internalstorage

/-! ## The internal token against its own validation -/

namespace golangjwt

/-- The claim map the library fills from a token is the claim set of the
token. -/
theorem ParseWithClaims_claims (valid : Claims → ValidationError) (alg : String)
    (claims : Claims) (sig : Signature) (keyFunc : SigningMethod → KeyResult) (p : Parsed)
    (h : ParseWithClaims valid (.jws alg claims sig) keyFunc = .ret p) : p.claims = claims := by
  unfold ParseWithClaims at h
  dsimp only at h
  cases hm : GetSigningMethod alg with
  | none => simp [hm] at h; subst h; rfl
  | some m =>
    simp only [hm] at h
    cases hk : keyFunc m with
    | panic => simp [hk] at h
    | error => simp [hk] at h; subst h; rfl
    | key k =>
      simp only [hk] at h
      split_ifs at h <;> simp at h <;> subst h <;> rfl

end golangjwt

namespace jwt

open golangjwt

/-- The conversion of a claim to `int64` leaves the other claims. -/
theorem toInt64_get_ne (claims : Claims) (key k : String) (h : key ≠ k) :
    (toInt64 claims key).get k = claims.get k := by
  unfold toInt64
  split
  · exact Claims.get_set_ne _ _ _ _ h
  · rfl

/-- The claims of a successful `Parse` are the claims of the token, with
`iat` and `exp` converted and `jti` set. -/
theorem Parse_ok_claims (conf : Config) (now : Int) (uuid alg : String) (payload : Claims)
    (sig : Signature) (c : Claims) (h : Parse conf now uuid (.jws alg payload sig) = .ok c) :
    c = (toInt64 (toInt64 payload "iat") "exp").set "jti" (.str uuid) := by
  unfold Parse at h
  cases hp : ParseWithClaims (validV4 now) (.jws alg payload sig) (keyFunc conf) with
  | panic => simp [hp] at h
  | ret p =>
    have hc := ParseWithClaims_claims _ _ _ _ _ _ hp
    rw [hp] at h
    dsimp only at h
    cases he : p.err with
    | some e =>
      rw [he] at h
      dsimp only at h
      split at h
      · simp at h
      · split at h
        · simp at h
        · split at h <;> (try split at h) <;> simp at h
    | none =>
      rw [he] at h
      simp only [GoResult.ok.injEq] at h
      rw [← h, hc]

/-- With a configured type `Generate` writes it to the claim `typ`. -/
theorem inject_get_typ (conf : Config) (now : Int) (claims : Claims) (h : conf.Typ ≠ "") :
    (inject conf now claims).get "typ" = some (.str conf.Typ) := by
  unfold inject
  simp [Claims.get_set, h]

end jwt

namespace services

open golangjwt

/-- C27: when the internal configuration declares a type that is not empty
and not "internal", no internal token that `Authenticate` returns is
accepted by `ValidateInternalToken` of the same service, at any time: when
the token parses, its claim `typ` is the declared type, which `Generate`
wrote over the "internal" of `extractInternalClaims`, and the result is
`ErrInvalidTokenType`. -/
theorem C27_internal_token_rejected (s : AuthService) (now : Int) (uuid : String) (now2 : Int)
    (token internalToken : Token) (h1 : s.internalConfig.Typ ≠ "")
    (h2 : s.internalConfig.Typ ≠ "internal")
    (hauth : s.Authenticate now uuid now2 token = .ok internalToken)
    (now3 : Int) (uuid3 : String) :
    (∀ c, s.ValidateInternalToken now3 uuid3 internalToken ≠ .ok c) ∧
    (∀ c, jwt.Parse s.internalConfig now3 uuid3 internalToken = .ok c →
      c.get "typ" = some (.str s.internalConfig.Typ) ∧
      s.ValidateInternalToken now3 uuid3 internalToken = .error .ErrInvalidTokenType) := by
  have hparse : ∀ c, jwt.Parse s.internalConfig now3 uuid3 internalToken = .ok c →
      c.get "typ" = some (.str s.internalConfig.Typ) := by
    intro c hc
    unfold AuthService.Authenticate at hauth
    split at hauth <;> try (simp at hauth; done)
    rename_i u hu
    dsimp only at hauth
    split at hauth
    · simp at hauth
    · rename_i hg
      simp only [GoResult.ok.injEq] at hauth
      obtain ⟨alg, sig, htok⟩ := jwt.Generate_token s.internalConfig now2
        (s.extractInternalClaims u) hg
      rw [← hauth, htok] at hc
      rw [jwt.Parse_ok_claims _ _ _ _ _ _ _ hc, Claims.get_set_ne _ _ _ _ (by decide),
        jwt.toInt64_get_ne _ _ _ (by decide), jwt.toInt64_get_ne _ _ _ (by decide),
        Claims.get_json, jwt.inject_get_typ _ _ _ h1]
      rfl
  have hval : ∀ c, jwt.Parse s.internalConfig now3 uuid3 internalToken = .ok c →
      s.ValidateInternalToken now3 uuid3 internalToken = .error .ErrInvalidTokenType := by
    intro c hc
    have ht := hparse c hc
    unfold AuthService.ValidateInternalToken
    rw [hc]
    simp [ht, h2]
  refine ⟨fun c hv => ?_, fun c hc => ⟨hparse c hc, hval c hc⟩⟩
  cases hp : jwt.Parse s.internalConfig now3 uuid3 internalToken with
  | ok c2 => rw [hval c2 hp] at hv; cases hv
  | error e => simp [AuthService.ValidateInternalToken, hp] at hv
  | panic => simp [AuthService.ValidateInternalToken, hp] at hv

/-- C27 at the wiring of the process, an internal configuration of the type
"internal_access": the internal token `Authenticate` returns is refused by
`ValidateInternalToken` at the same instant with `ErrInvalidTokenType`. -/
theorem C27_internal_token_rejected_witness :
    testAuthService.Authenticate jwt.testNow jwt.testUUID jwt.testNow
      (jwt.Generate jwt.testAccessConfig jwt.testNow userClaims).token = .ok testInternalToken ∧
    testInternalToken ≠ .raw "" ∧
    (∀ c, testAuthService.ValidateInternalToken jwt.testNow jwt.testUUID testInternalToken
      ≠ .ok c) ∧
    testAuthService.ValidateInternalToken jwt.testNow jwt.testUUID testInternalToken =
      .error .ErrInvalidTokenType :=
  ⟨by decide, by decide,
    (C27_internal_token_rejected testAuthService jwt.testNow jwt.testUUID jwt.testNow
      (jwt.Generate jwt.testAccessConfig jwt.testNow userClaims).token testInternalToken
      (by decide) (by decide) (by decide) jwt.testNow jwt.testUUID).1,
    by decide⟩

end services

/-! ## The send-code flow for an email without a record -/

namespace internalservices

open storage

/-- C28, on the code: when `FindKeyByEmail` returns an error, whichever it
is, `SignInSendCode` returns `uuid.Nil` and `ErrFindSignInMetaFail` and makes
no other call; the redis storage answers an email that has no record with
the error `ErrSignInKeyNotFound`, so that over it `SignInSendCode` fails
with `ErrFindSignInMetaFail` for every such email, whatever the user
service, the email sender and the clock. -/
theorem C28_send_code_fails_without_record {σ : Type} (s : SignInSendCodeService σ)
    (st st1 : σ) (now now2 : Int) (newKey : UUID) (rnd : Bytes)
    (uuidParse : String → Option UUID) (email : String) :
    (∀ e, s.repository.FindKeyByEmail st email = (.error e, st1) →
      s.SignInSendCode st now now2 newKey rnd uuidParse email =
        .ret ⟨uuidNil, some .ErrFindSignInMetaFail, st1, [.findKeyByEmail email]⟩) ∧
    (∀ (ttl : Int) (marshal : internalstorage.SignInData → Option String)
      (unmarshal : String → Option internalstorage.SignInData)
      (parse : String → Option UUID) (db : RedisDB) (limit : Int)
      (emailSender : String → String → Bool) (userService : String → Option GetUserResponse),
      db ("EmailKey: " ++ email) = none →
      internalstorage.SignInStorage.FindKeyByEmail
          ⟨kvCommands, ttl, marshal, unmarshal, parse⟩ db email =
        (.error .ErrSignInKeyNotFound, db) ∧
      SignInSendCodeService.SignInSendCode
          ⟨limit, emailSender, redisSendCodeRepo ⟨kvCommands, ttl, marshal, unmarshal, parse⟩,
            userService⟩ db now now2 newKey rnd uuidParse email =
        .ret ⟨uuidNil, some .ErrFindSignInMetaFail, db, [.findKeyByEmail email]⟩) := by
  constructor
  · intro e h
    simp [SignInSendCodeService.SignInSendCode, h]
  · intro ttl marshal unmarshal parse db limit emailSender userService hdb
    have hf : internalstorage.SignInStorage.FindKeyByEmail
        ⟨kvCommands, ttl, marshal, unmarshal, parse⟩ db email =
          (.error .ErrSignInKeyNotFound, db) := by
      simp [internalstorage.SignInStorage.FindKeyByEmail, kvCommands, hdb]
    refine ⟨hf, ?_⟩
    simp [SignInSendCodeService.SignInSendCode, redisSendCodeRepo, hf]

/-- C28 at the empty store, with a user service that knows the user and an
email sender that delivers: the first request of a code for an email fails
with `ErrFindSignInMetaFail`, the user is not looked up and nothing is
stored. -/
theorem C28_send_code_fails_without_record_witness :
    (sendCodeOutcomeOf emptyDB (testSendCodeService.SignInSendCode emptyDB jwt.testNow
      jwt.testNow "6ba7b810-9dad-11d1-80b4-00c04fd430c8" [1, 2, 3, 4] some
      "user@example.com")).err = some .ErrFindSignInMetaFail ∧
    (sendCodeOutcomeOf emptyDB (testSendCodeService.SignInSendCode emptyDB jwt.testNow
      jwt.testNow "6ba7b810-9dad-11d1-80b4-00c04fd430c8" [1, 2, 3, 4] some
      "user@example.com")).trace = [.findKeyByEmail "user@example.com"] ∧
    (sendCodeOutcomeOf emptyDB (testSendCodeService.SignInSendCode emptyDB jwt.testNow
      jwt.testNow "6ba7b810-9dad-11d1-80b4-00c04fd430c8" [1, 2, 3, 4] some
      "user@example.com")).key = uuidNil := by
  have h := ((C28_send_code_fails_without_record testSendCodeService emptyDB emptyDB
    jwt.testNow jwt.testNow "6ba7b810-9dad-11d1-80b4-00c04fd430c8" [1, 2, 3, 4] some
    "user@example.com").2 testSignInStorage.ttl testSignInStorage.marshal
    testSignInStorage.unmarshal testSignInStorage.uuidParse emptyDB testSendCodeService.ttl
    testSendCodeService.emailSender testSendCodeService.userService rfl).2
  have h2 : testSendCodeService.SignInSendCode emptyDB jwt.testNow jwt.testNow
      "6ba7b810-9dad-11d1-80b4-00c04fd430c8" [1, 2, 3, 4] some "user@example.com" =
      .ret ⟨uuidNil, some .ErrFindSignInMetaFail, emptyDB,
        [.findKeyByEmail "user@example.com"]⟩ := h
  rw [h2]
  exact ⟨rfl, rfl, rfl⟩

end internalservices

/-! ## The sign-in code -/

namespace internalservices

/-- One step of the digit loop of `Nat.toDigits`. -/
theorem toDigitsCore_step (b fuel n : Nat) (ds : List Char) :
    Nat.toDigitsCore b (fuel + 1) n ds =
      if n / b = 0 then Nat.digitChar (n % b) :: ds
      else Nat.toDigitsCore b fuel (n / b) (Nat.digitChar (n % b) :: ds) := by
  rw [Nat.toDigitsCore]

/-- The decimal digits of a number of six digits. -/
theorem toDigits_six (n : Nat) (h1 : 100000 ≤ n) (h2 : n < 1000000) :
    Nat.toDigits 10 n =
      [Nat.digitChar (n / 100000), Nat.digitChar (n / 10000 % 10), Nat.digitChar (n / 1000 % 10),
       Nat.digitChar (n / 100 % 10), Nat.digitChar (n / 10 % 10), Nat.digitChar (n % 10)] := by
  have e1 : n / 10 ≠ 0 := by omega
  have e2 : n / 10 / 10 ≠ 0 := by omega
  have e3 : n / 10 / 10 / 10 ≠ 0 := by omega
  have e4 : n / 10 / 10 / 10 / 10 ≠ 0 := by omega
  have e5 : n / 10 / 10 / 10 / 10 / 10 ≠ 0 := by omega
  have e6 : n / 10 / 10 / 10 / 10 / 10 / 10 = 0 := by omega
  have d1 : n / 10 / 10 / 10 / 10 / 10 % 10 = n / 100000 := by omega
  have d2 : n / 10 / 10 / 10 / 10 % 10 = n / 10000 % 10 := by omega
  have d3 : n / 10 / 10 / 10 % 10 = n / 1000 % 10 := by omega
  have d4 : n / 10 / 10 % 10 = n / 100 % 10 := by omega
  unfold Nat.toDigits
  obtain ⟨f, hf⟩ : ∃ f, n + 1 = f + 1 + 1 + 1 + 1 + 1 + 1 := ⟨n - 5, by omega⟩
  rw [hf, toDigitsCore_step, if_neg e1, toDigitsCore_step, if_neg e2, toDigitsCore_step,
    if_neg e3, toDigitsCore_step, if_neg e4, toDigitsCore_step, if_neg e5, toDigitsCore_step,
    if_pos e6, d1, d2, d3, d4]

theorem digitChar_isDigit (d : Nat) (h : d < 10) : (Nat.digitChar d).isDigit = true := by
  interval_cases d <;> decide

theorem digitChar_val (d : Nat) (h : d < 10) : (Nat.digitChar d).toNat - '0'.toNat = d := by
  interval_cases d <;> decide

theorem digitChar_ne_zero (d : Nat) (h0 : 0 < d) (h : d < 10) : Nat.digitChar d ≠ '0' := by
  interval_cases d <;> decide

/-- The format `%06d` of a number of six digits is the string of its six
decimal digits. -/
theorem Sprintf06d_six (n : Nat) (h1 : 100000 ≤ n) (h2 : n < 1000000) :
    Sprintf06d n = String.mk
      [Nat.digitChar (n / 100000), Nat.digitChar (n / 10000 % 10), Nat.digitChar (n / 1000 % 10),
       Nat.digitChar (n / 100 % 10), Nat.digitChar (n / 10 % 10), Nat.digitChar (n % 10)] := by
  unfold Sprintf06d Nat.repr
  rw [toDigits_six n h1 h2]
  simp [List.asString, String.length]

/-- C29: for every random source, `genCode` returns a string of six
characters, all of them decimal digits, the first of them not 0, that reads
as a number between 100000 and 999999; that number is `100000 + u % 900000`
for the 32-bit number `u` read from the four bytes, a sum below `2 ^ 32`. -/
theorem C29_genCode_six_digits (rnd : Bytes) :
    (genCode rnd).length = 6 ∧
    (genCode rnd).toList.all Char.isDigit = true ∧
    (genCode rnd).toList.head? ≠ some '0' ∧
    BigEndianUint32 (storage.randRead 4 rnd) < 2 ^ 32 ∧
    100000 + BigEndianUint32 (storage.randRead 4 rnd) % 900000 < 2 ^ 32 ∧
    (genCode rnd).toNat? = some (100000 + BigEndianUint32 (storage.randRead 4 rnd) % 900000) ∧
    100000 ≤ 100000 + BigEndianUint32 (storage.randRead 4 rnd) % 900000 ∧
    100000 + BigEndianUint32 (storage.randRead 4 rnd) % 900000 ≤ 999999 := by
  have hu : BigEndianUint32 (storage.randRead 4 rnd) < 2 ^ 32 := by
    unfold BigEndianUint32
    have h0 := ((storage.randRead 4 rnd).getD 0 0).toNat_lt
    have h1 := ((storage.randRead 4 rnd).getD 1 0).toNat_lt
    have h2 := ((storage.randRead 4 rnd).getD 2 0).toNat_lt
    have h3 := ((storage.randRead 4 rnd).getD 3 0).toNat_lt
    omega
  have hm : BigEndianUint32 (storage.randRead 4 rnd) % 900000 < 900000 :=
    Nat.mod_lt _ (by decide)
  generalize hn : 100000 + BigEndianUint32 (storage.randRead 4 rnd) % 900000 = n at *
  have h1 : 100000 ≤ n := by omega
  have h2 : n < 1000000 := by omega
  have hw : n % 2 ^ 32 = n := Nat.mod_eq_of_lt (by omega)
  have hg : genCode rnd = String.mk
      [Nat.digitChar (n / 100000), Nat.digitChar (n / 10000 % 10), Nat.digitChar (n / 1000 % 10),
       Nat.digitChar (n / 100 % 10), Nat.digitChar (n / 10 % 10), Nat.digitChar (n % 10)] := by
    unfold genCode
    simp only [hn, hw]
    exact Sprintf06d_six n h1 h2
  have b0 : n % 10 < 10 := by omega
  have b1 : n / 10 % 10 < 10 := by omega
  have b2 : n / 100 % 10 < 10 := by omega
  have b3 : n / 1000 % 10 < 10 := by omega
  have b4 : n / 10000 % 10 < 10 := by omega
  have b5 : n / 100000 < 10 := by omega
  have b6 : 0 < n / 100000 := by omega
  rw [hg]
  refine ⟨rfl, ?_, ?_, hu, by omega, ?_, h1, by omega⟩
  · simp [digitChar_isDigit _ b0, digitChar_isDigit _ b1, digitChar_isDigit _ b2,
      digitChar_isDigit _ b3, digitChar_isDigit _ b4, digitChar_isDigit _ b5]
  · simp [digitChar_ne_zero _ b6 b5]
  · simp only [String.toNat?, String.isNat, String.all_eq, String.foldl_eq,
      List.all_cons, List.all_nil, digitChar_isDigit _ b0, digitChar_isDigit _ b1,
      digitChar_isDigit _ b2, digitChar_isDigit _ b3, digitChar_isDigit _ b4,
      digitChar_isDigit _ b5, Bool.and_self, List.foldl_cons, List.foldl_nil,
      digitChar_val _ b0, digitChar_val _ b1, digitChar_val _ b2, digitChar_val _ b3,
      digitChar_val _ b4, digitChar_val _ b5]
    have he : (String.mk [Nat.digitChar (n / 100000), Nat.digitChar (n / 10000 % 10),
        Nat.digitChar (n / 1000 % 10), Nat.digitChar (n / 100 % 10),
        Nat.digitChar (n / 10 % 10), Nat.digitChar (n % 10)]).isEmpty = false := by
      simp [String.isEmpty, String.endPos, String.utf8ByteSize, String.utf8ByteSize.go]
      intro h
      have hb := congrArg String.Pos.byteIdx h
      have hp := Char.utf8Size_pos (Nat.digitChar (n % 10))
      simp only [String.Pos.byteIdx_zero] at hb
      omega
    rw [he]
    simp only [Bool.not_false, Bool.and_self, if_true, Option.some.injEq]
    omega

end internalservices

/-! ## The refresh handler -/

namespace handlers

open golangjwt

/-- C30: when the service returns an error, `RefreshJWT` writes two
envelopes: the failure envelope of the error (`refresh_token_expired`,
`refresh_token_invalidated`, `invalid_token` or `invalid_token_type` with
the status 400, `internal` with the status 500 for any other error) and,
after it, the success envelope with the tokens of the returned pair. When
the service returns no error it writes the success envelope alone. -/
theorem C30_refresh_handler_writes_twice {ε : Type} [DecidableEq ε] (pair : jwt.Pair)
    (err : internalservices.ServiceError ε) (req : refreshJWTRequest) :
    (∃ code resp,
      (RefreshJWT (fun _ => (pair, some err)) req false gin.Context.fresh).written =
        [(code, .failure resp), (200, .success ⟨⟨pair.Access, pair.Refresh⟩⟩)] ∧
      resp.ErrorType =
        (if err = .service .ErrRefreshTokenExpired then "refresh_token_expired"
        else if err = .service .ErrRefreshTokenInvalidated then "refresh_token_invalidated"
        else if err = .service .ErrInvalidJWT then "invalid_token"
        else if err = .service .ErrInvalidTokenType then "invalid_token_type"
        else "internal") ∧
      code = (if resp.ErrorType = "internal" then 500 else 400)) ∧
    (RefreshJWT (fun _ => (pair, some err)) req false gin.Context.fresh).status ≠ 200 ∧
    (RefreshJWT (fun _ => (pair, (none : Option (internalservices.ServiceError ε)))) req false
        gin.Context.fresh).written =
      [(200, .success ⟨⟨pair.Access, pair.Refresh⟩⟩)] ∧
    (RefreshJWT (fun _ => (services.emptyPair, some (.service .ErrRefreshTokenExpired))) req false
        (gin.Context.fresh : gin.Context refreshJWTResponse (internalservices.ServiceError ε))
        ).written =
      [(400, .failure ⟨"refresh_token_expired", "Refresh token expired", []⟩),
       (200, .success ⟨⟨.raw "", .raw ""⟩⟩)] := by
  refine ⟨?_, ?_, ?_, ?_⟩
  · by_cases h1 : err = .service .ErrRefreshTokenExpired
    · exact ⟨400, ⟨"refresh_token_expired", "Refresh token expired", []⟩,
        by simp [RefreshJWT, h1, gin.Context.fresh, gin.Context.JSON, restapi.SendSuccess,
          restapi.ErrTypeRefreshTokenExpired, services.StatusBadRequest, services.StatusOK],
        by simp [h1], by decide⟩
    · by_cases h2 : err = .service .ErrRefreshTokenInvalidated
      · exact ⟨400, ⟨"refresh_token_invalidated", "Refresh token invalidated", []⟩,
          by simp [RefreshJWT, h2, gin.Context.fresh, gin.Context.JSON, restapi.SendSuccess,
            restapi.ErrTypeRefreshTokenInvalidated, services.StatusBadRequest,
            services.StatusOK],
          by simp [h2], by decide⟩
      · by_cases h3 : err = .service .ErrInvalidJWT
        · exact ⟨400, ⟨"invalid_token", "Invalid signature of jwt", []⟩,
            by simp [RefreshJWT, h3, gin.Context.fresh, gin.Context.JSON, restapi.SendSuccess,
              restapi.ErrTypeInvalidJWT, services.StatusBadRequest, services.StatusOK],
            by simp [h3], by decide⟩
        · by_cases h4 : err = .service .ErrInvalidTokenType
          · exact ⟨400, ⟨"invalid_token_type", "Invalid jwt token type", []⟩,
              by simp [RefreshJWT, h4, gin.Context.fresh, gin.Context.JSON,
                restapi.SendSuccess, restapi.ErrTypeInvalidTokenType,
                services.StatusBadRequest, services.StatusOK],
              by simp [h4], by decide⟩
          · exact ⟨500, ⟨"internal", "Internal Server Error", []⟩,
              by simp [RefreshJWT, h1, h2, h3, h4, gin.Context.fresh, gin.Context.JSON,
                gin.Context.Error, restapi.SendSuccess, restapi.SendInternalError,
                restapi.ErrTypeInternal, services.StatusInternalServerError,
                services.StatusOK],
              by simp [h1, h2, h3, h4], by decide⟩
  · by_cases h1 : err = .service .ErrRefreshTokenExpired
    · simp [RefreshJWT, h1, gin.Context.fresh, gin.Context.JSON, gin.Context.status,
        restapi.SendSuccess, services.StatusBadRequest]
    · by_cases h2 : err = .service .ErrRefreshTokenInvalidated
      · simp [RefreshJWT, h2, gin.Context.fresh, gin.Context.JSON, gin.Context.status,
          restapi.SendSuccess, services.StatusBadRequest]
      · by_cases h3 : err = .service .ErrInvalidJWT
        · simp [RefreshJWT, h3, gin.Context.fresh, gin.Context.JSON, gin.Context.status,
            restapi.SendSuccess, services.StatusBadRequest]
        · by_cases h4 : err = .service .ErrInvalidTokenType
          · simp [RefreshJWT, h4, gin.Context.fresh, gin.Context.JSON, gin.Context.status,
              restapi.SendSuccess, services.StatusBadRequest]
          · simp [RefreshJWT, h1, h2, h3, h4, gin.Context.fresh, gin.Context.JSON,
              gin.Context.Error, gin.Context.status, restapi.SendSuccess,
              restapi.SendInternalError, services.StatusInternalServerError]
  · simp [RefreshJWT, gin.Context.fresh, gin.Context.JSON, restapi.SendSuccess,
      services.StatusOK]
  · simp [RefreshJWT, gin.Context.fresh, gin.Context.JSON, restapi.SendSuccess,
      restapi.ErrTypeRefreshTokenExpired, services.StatusBadRequest, services.StatusOK,
      services.emptyPair]

end handlers
